import Mathlib

/-!
# hd24tools: track selection and track export

A shallow embedding of the two front ends of the HD24 song browser:

* `src/hd24browser.cpp` (class `HD24Browser`, the terminal front end), and
* `src/frontend/hd24browser_gui.cpp` (class `HD24BrowserGUI`, the graphical front end).

Conventions of the embedding.

* The type `__uint32` (declared in the headers of the volume driver) is taken to be what its
  name says, an unsigned integer of 32 bits.  A `__uint32` value is a natural number below
  `2^32`; every `__uint32` operation is written with an explicit reduction modulo `2^32`
  (`add32`, `sub32`, `mul32`).
* A raw sample word (`long` / `unsigned long`) is the natural number given by its bit
  pattern, so the conversion `unsigned long sample = sample_buffer[track]` keeps it.
* A C string is the list of its `char`s.
* The calls into libsndfile and into the volume driver are recorded as a list of events;
  the answers of libsndfile come from an environment `Env`.
* `while` loops that the source does not obviously bound take a fuel argument: the number
  of iterations the model is allowed to run.  A result records whether the loop returned.
* `track_selected` is a C array of 24 `bool`; it is a list of 24 booleans here.  Reading
  outside the list yields `false` and writing outside the list changes nothing (the C
  program has no defined behaviour there).
-/

namespace HD24

/-! ## Machine arithmetic -/

/-- Number of values of a `__uint32`. -/
def UINT32_MOD : Nat := 4294967296

/-- Reduction of a natural number to a `__uint32`. -/
def u32 (n : Nat) : Nat := n % UINT32_MOD

/-- Addition of two `__uint32` values. -/
def add32 (a b : Nat) : Nat := (a + b) % UINT32_MOD

/-- Subtraction of two `__uint32` values (wraps when `b` exceeds `a`). -/
def sub32 (a b : Nat) : Nat := (a % UINT32_MOD + UINT32_MOD - b % UINT32_MOD) % UINT32_MOD

/-- Multiplication of two `__uint32` values. -/
def mul32 (a b : Nat) : Nat := (a * b) % UINT32_MOD

/-- The C conversion of a `__uint32` to `int`. -/
def castInt (x : Nat) : Int :=
  if x % UINT32_MOD < 2147483648 then ((x % UINT32_MOD : Nat) : Int)
  else ((x % UINT32_MOD : Nat) : Int) - 4294967296

/-! ## C strings and `snprintf` -/

/-- A C string: the list of its `char`s. -/
abbrev CString := List Char

/-- The conversion `%02u` of `printf`: decimal digits, padded with zeros on the left to a
width of at least two. -/
def fmt_02u (n : Nat) : CString :=
  let ds := Nat.toDigits 10 n
  List.replicate (2 - ds.length) '0' ++ ds

/-- The conversion `%02d` of `printf` for an `int`. -/
def fmt_02d (t : Int) : CString :=
  if t < 0 then
    let ds := Nat.toDigits 10 t.natAbs
    ['-'] ++ List.replicate (1 - ds.length) '0' ++ ds
  else fmt_02u t.toNat

/-- What `snprintf(buf, size, ...)` leaves in `buf` when the formatted text is `text`: at most
`size - 1` characters are stored (the last place holds the terminating NUL). -/
def snprintf (size : Nat) (text : CString) : CString := text.take (size - 1)

/-! ## libsndfile constants (sndfile.h) -/

/-- The major format code of AIFF in sndfile.h. -/
def SF_FORMAT_AIFF : Nat := 0x020000

/-- The subtype code of signed 24-bit PCM in sndfile.h. -/
def SF_FORMAT_PCM_24 : Nat := 0x0003

/-! ## The driver's song object -/

/-- Modelled from the spec: the song object of the volume driver (`hd24song`, declared in
hd24fs.h, which is not among the sources).  Section 6 of the specification lists what it offers:
name, sample rate, physical channel count, total frame count, a duration string, a cursor
reset-to-frame primitive and a primitive reading the next multi-track frame into a buffer of
the caller.  `audio pos track` is the raw sample word of `track` in frame `pos`, and
`location` is the cursor. -/
structure hd24song where
  songname : CString
  samplerate : Nat
  physical_channels : Nat
  songlength_in_wamples : Nat
  display_duration : CString
  audio : Nat → Nat → Nat
  location : Nat

instance : Inhabited hd24song :=
  ⟨{ songname := [], samplerate := 0, physical_channels := 0, songlength_in_wamples := 0,
     display_duration := [], audio := fun _ _ => 0, location := 0 }⟩

/-- Modelled from the spec: `song->currentlocation(pos)`, the cursor reset-to-frame primitive. -/
def hd24song.currentlocation (song : hd24song) (pos : Nat) : hd24song :=
  { song with location := pos }

/-- Modelled from the spec: `song->getmultitracksample(sample_buffer, READMODE_COPY)`, which
reads the frame under the cursor into the buffer (one word per track) and advances the cursor
by one frame.  The result is the buffer and the new cursor. -/
def getmultitracksample (audio : Nat → Nat → Nat) (location : Nat) : (Nat → Nat) × Nat :=
  (audio location, location + 1)

/-! ## Environment and events -/

/-- The answers of libsndfile during one export, and the content of a freshly allocated
buffer.  `sf_open track` tells whether the `sf_open` call made for the 0-based `track` returns
a stream; `sf_write_raw track k` is the count reported by the `k`-th (0-based) `sf_write_raw`
call on the stream of `track`; `fresh i` is byte `i` of `new unsigned char[...]`. -/
structure Env where
  sf_open : Nat → Bool
  sf_write_raw : Nat → Nat → Int
  fresh : Nat → Nat

/-- What an export does to the outside world, in order.  The `track` of an event is the
0-based track whose stream or whose pass over the song the call belongs to. -/
inductive Event where
  /-- The prompt "No tracks selected ..." (terminal: `mvprintw`, graphical: `fl_alert`). -/
  | show_no_tracks
  /-- The terminal waits for a key (`getch()`). -/
  | getch
  /-- The terminal line "Exporting %d track(s) to AIFF format...". -/
  | show_exporting (selected_count : Int)
  /-- Creation of the export directory (`ensure_directory_exists` / `mkdir -p`). -/
  | mkdir (path : CString)
  /-- The line "Exporting track %d of %d". -/
  | show_track (track_num : Int) (selected_count : Int)
  /-- The call `sf_open(filename, SFM_WRITE, &sfinfo)` and whether it returned a stream. -/
  | sf_open (track : Nat) (filename : CString) (samplerate : Int) (channels : Nat)
      (format : Nat) (ok : Bool)
  /-- The message "Error: Could not create file: %s". -/
  | show_could_not_create (filename : CString)
  /-- The call `song->currentlocation(pos)`. -/
  | currentlocation (track : Nat) (pos : Nat)
  /-- One call of `song->getmultitracksample`, reading the frame at `pos`. -/
  | getmultitracksample (track : Nat) (pos : Nat)
  /-- The call `sf_write_raw(outfile, byte_buffer, n)` with the `n` bytes handed over and the
  count it reported. -/
  | sf_write_raw (track : Nat) (bytes : List Nat) (written : Int)
  /-- The graphical alert "Error writing to file: %s". -/
  | show_write_error (filename : CString)
  /-- The progress percentage shown after a chunk. -/
  | show_progress (percent : Int)
  /-- The call `sf_close(outfile)`. -/
  | sf_close (track : Nat)
  /-- The final line "Export completed successfully!". -/
  | show_completed
  /-- The final line "Export failed!". -/
  | show_failed
  deriving DecidableEq, Repr

/-- How a call of `export_tracks` ended. -/
inductive Status where
  /-- Returned at once: no song is current. -/
  | no_song
  /-- Returned after the "No tracks selected" prompt. -/
  | no_tracks
  /-- Ran the export loop over all tracks and returned. -/
  | finished
  /-- A sample loop was still running when its fuel was used up. -/
  | out_of_fuel
  deriving DecidableEq, Repr

/-- Size in frames of the sample buffer (`const int BUFFER_SIZE = 1024`). -/
def BUFFER_SIZE : Nat := 1024

/-- The store `byte_buffer[i] = v` into an `unsigned char` array. -/
def poke (byte_buffer : Nat → Nat) (i : Nat) (v : Nat) : Nat → Nat :=
  fun j => if j = i then v % 256 else byte_buffer j

/-- The first `n` bytes of the buffer, as handed to `sf_write_raw`. -/
def peek (byte_buffer : Nat → Nat) (n : Nat) : List Nat :=
  (List.range n).map byte_buffer

/-- The number of bytes handed to `sf_write_raw` in a list of events. -/
def written_bytes : List Event → Nat
  | [] => 0
  | Event.sf_write_raw _ bytes _ :: rest => bytes.length + written_bytes rest
  | _ :: rest => written_bytes rest

/-- The bound on one event that a chunk fits the byte buffer: a `sf_write_raw` call hands over
at least 3 and at most `BUFFER_SIZE * 3` bytes. -/
def chunk_bounded : Event → Prop
  | Event.sf_write_raw _ bytes _ => 3 ≤ bytes.length ∧ bytes.length ≤ BUFFER_SIZE * 3
  | _ => True

/-- The number of `sf_write_raw` calls in a list of events. -/
def write_count : List Event → Nat
  | [] => 0
  | Event.sf_write_raw _ _ _ :: rest => 1 + write_count rest
  | _ :: rest => write_count rest

/-- An environment in which every stream opens and every write on a song of `song_length`
frames reports the full size of its chunk: 3072 bytes for a chunk of 1024 frames, less for a
shorter last chunk. -/
def env_full (song_length : Nat) : Env :=
  ⟨fun _ => true, fun _ k => ((3 * min 1024 (song_length - k * 1024) : Nat) : Int), fun _ => 0⟩

/-- Modelled from the spec: the project object of the volume driver (`hd24project`, declared in
hd24fs.h, which is not among the sources).  Section 6 of the specification: a project has a
name and its songs are enumerated by a 1-based count and an indexed accessor, which returns no
handle for a song that the driver cannot read. -/
structure hd24project where
  projectname : CString
  songcount : Nat
  getsong : Nat → Option hd24song

/-- Modelled from the spec: the volume object of the volume driver (`hd24fs`, declared in
hd24fs.h, which is not among the sources).  Section 6 of the specification: the volume reports
whether it is open, and its projects are enumerated by a 1-based count and an indexed accessor,
which returns no handle for a project that the driver cannot read. -/
structure hd24fs where
  isOpen : Bool
  projectcount : Nat
  getproject : Nat → Option hd24project

/-- The list of all pairs (project `i`, song `j`) in the words of the specification of the
catalogue: `i` from 1 to the project count, `j` from 1 to the song count of project `i`, in
that nested order, keeping the pairs for which the driver returns both a project handle and a
song handle. -/
def catalog_pairs (fs : hd24fs) : List (Nat × Nat) :=
  (List.range' 1 (u32 fs.projectcount)).flatMap (fun i =>
    match fs.getproject i with
    | none => []
    | some proj =>
      ((List.range' 1 (u32 proj.songcount)).filter (fun j => (proj.getsong j).isSome)).map
        (fun j => (i, j)))

/-- Bookkeeping of the open output stream along a list of events.  A state `some s` means that
the discipline held so far and `s` is the track whose stream is open, if any; the state `none`
means that the discipline was broken: `sf_open` was called while a stream was open, or
`sf_write_raw` or `sf_close` was called for a track whose stream is not the open one. -/
def stream_step (state : Option (Option Nat)) (e : Event) : Option (Option Nat) :=
  match state with
  | none => none
  | some open_track =>
    match e with
    | Event.sf_open track _ _ _ _ ok =>
      match open_track with
      | some _ => none
      | none => if ok then some (some track) else some none
    | Event.sf_write_raw track _ _ => if open_track = some track then some open_track else none
    | Event.sf_close track => if open_track = some track then some none else none
    | _ => some open_track

/-- The tracks of the `sf_open` calls in a list of events, in order. -/
def opened_tracks : List Event → List Nat
  | [] => []
  | Event.sf_open track _ _ _ _ _ :: rest => track :: opened_tracks rest
  | _ :: rest => opened_tracks rest

/-- Whether an event is a raw write that reports a byte count different from the number of
bytes handed over (line 337 of the terminal, line 410 of the graphical front end). -/
def truncated : Event → Bool
  | Event.sf_write_raw _ bytes written => decide (written ≠ ((bytes.length : Nat) : Int))
  | _ => false

/-- Bookkeeping of truncated writes along a list of events.  The state `some none` means that
no truncated write is pending, `some (some t)` that a write to the stream of track `t` was
truncated and that stream is not closed yet, `none` that the discipline was broken: after a
truncated write anything but the error message and the `sf_close` of that very stream
happened (a frame read, another write, a progress display, another stream). -/
def truncation_step (state : Option (Option Nat)) (e : Event) : Option (Option Nat) :=
  match state with
  | none => none
  | some none =>
    match e with
    | Event.sf_write_raw track bytes written =>
      if written ≠ ((bytes.length : Nat) : Int) then some (some track) else some none
    | _ => some none
  | some (some t) =>
    match e with
    | Event.show_write_error _ => some (some t)
    | Event.sf_close track => if track = t then some none else none
    | _ => none

/-- The number of bytes of the raw writes in a list of events that reported the full count. -/
def ok_bytes : List Event → Nat
  | [] => 0
  | Event.sf_write_raw _ bytes written :: rest =>
    (if written = ((bytes.length : Nat) : Int) then bytes.length else 0) + ok_bytes rest
  | _ :: rest => ok_bytes rest

/-- The bytes handed to `sf_write_raw` on the stream of `track` in a list of events, in order:
the payload of the file of that track. -/
def track_payload (track : Nat) : List Event → List Nat
  | [] => []
  | Event.sf_write_raw t bytes _ :: rest =>
    (if t = track then bytes else []) ++ track_payload track rest
  | _ :: rest => track_payload track rest

/-- Bookkeeping of the read cursor of the song along a list of events.  The state `some none`
means that the cursor is wherever it was left (unknown), `some (some p)` that it is known to be
at frame `p`, `none` that the cursor was set to another frame than 0, or that a frame was read
while the cursor was unknown or at another position than the one the read reports.  Opening a
stream makes the cursor unknown again, so every pass over the song has to set it to frame 0
before its first read. -/
def cursor_step (state : Option (Option Nat)) (e : Event) : Option (Option Nat) :=
  match state with
  | none => none
  | some cursor =>
    match e with
    | Event.sf_open _ _ _ _ _ _ => some none
    | Event.currentlocation _ pos => if pos = 0 then some (some 0) else none
    | Event.getmultitracksample _ pos =>
      match cursor with
      | some p => if pos = p then some (some (p + 1)) else none
      | none => none
    | _ => some cursor

/-- Whether an event is a call on the outside world that both front ends make (as opposed to a
line or dialog of the user interface): the directory creation, the calls of libsndfile and the
calls on the song. -/
def is_io : Event → Bool
  | Event.mkdir _ => true
  | Event.sf_open _ _ _ _ _ _ => true
  | Event.currentlocation _ _ => true
  | Event.getmultitracksample _ _ => true
  | Event.sf_write_raw _ _ _ => true
  | Event.sf_close _ => true
  | _ => false

/-- Whether an event, if it is a `sf_open` call, asks for one channel, the format AIFF with
24-bit PCM (0x020003) and the sample rate `rate`. -/
def open_config (rate : Int) : Event → Bool
  | Event.sf_open _ _ samplerate channels format _ =>
    decide (samplerate = rate ∧ channels = 1 ∧ format = 0x020003)
  | _ => true

/-- The output paths of the `sf_open` calls in a list of events, in order. -/
def opened_paths : List Event → List CString
  | [] => []
  | Event.sf_open _ path _ _ _ _ :: rest => path :: opened_paths rest
  | _ :: rest => opened_paths rest

/-- The chunks handed to `sf_write_raw` in a list of events, in order, each with the track of
its stream. -/
def written_chunks : List Event → List (Nat × List Nat)
  | [] => []
  | Event.sf_write_raw track bytes _ :: rest => (track, bytes) :: written_chunks rest
  | _ :: rest => written_chunks rest

/-- An environment in which every stream opens and every write reports `n`. -/
def env_all_ok (n : Int) : Env := ⟨fun _ => true, fun _ _ => n, fun _ => 0⟩

/-- A sample environment: every stream opens, every write reports 6 bytes. -/
def demo_env : Env := env_all_ok 6

/-- A sample song of two frames on two tracks. -/
def demo_song : hd24song :=
  { songname := "S".toList, samplerate := 48000, physical_channels := 2,
    songlength_in_wamples := 2, display_duration := [],
    audio := fun pos track => 0xABCDEF + pos + 256 * track, location := 5 }

/-- A song of `frames` frames on `channels` tracks with some audio. -/
def song_of_length (frames channels : Nat) : hd24song :=
  { songname := "S".toList, samplerate := 48000, physical_channels := channels,
    songlength_in_wamples := frames, display_duration := [],
    audio := fun pos track => pos + 256 * track, location := 0 }

/-- A sample volume: project 1 with the songs 1 and 3 readable, project 2 unreadable, project 3
with one song. -/
def demo_fs : hd24fs :=
  { isOpen := true, projectcount := 3,
    getproject := fun i =>
      if i = 1 then
        some ⟨"P".toList, 3, fun j => if j = 2 then none else some (song_of_length j 2)⟩
      else if i = 3 then some ⟨"Q".toList, 1, fun _ => some (song_of_length 7 4)⟩
      else none }

/-- The sample volume with the project count at the largest `__uint32`. -/
def max_projects_fs : hd24fs := { demo_fs with projectcount := 4294967295 }

/-- A project whose song count is the largest `__uint32`, every song readable. -/
def max_songs_project : hd24project :=
  ⟨"P".toList, 4294967295, fun j => some (song_of_length j 2)⟩

/-- A volume whose one project is `max_songs_project`. -/
def max_songs_fs : hd24fs :=
  { isOpen := true, projectcount := 1, getproject := fun _ => some max_songs_project }

/-- An environment in which every stream opens, the first `sf_write_raw` call on a stream
reports 3072 bytes and every later call reports 0 bytes. -/
def env_second_write_fails : Env :=
  ⟨fun _ => true, fun _ k => if k = 0 then 3072 else 0, fun _ => 0⟩

/-- An environment in which every stream but that of track 1 opens and every write reports
3072 bytes. -/
def env_track1_closed : Env :=
  ⟨fun track => decide (track ≠ 1), fun _ _ => 3072, fun _ => 0⟩

end HD24

/-! ## The terminal front end (`src/hd24browser.cpp`) -/

namespace HD24Browser

open HD24

/-- The struct `SongInfo` of hd24browser.cpp.  The pointer `song` is modelled by the song object
itself; the pointer `project` is not used by the code modelled here. -/
structure SongInfo where
  song : hd24song
  project_name : CString
  song_name : CString
  sample_rate : Nat
  channels : Nat
  duration : CString
  project_id : Nat
  song_id : Nat

instance : Inhabited SongInfo :=
  ⟨{ song := default, project_name := [], song_name := [], sample_rate := 0, channels := 0,
     duration := [], project_id := 0, song_id := 0 }⟩

/-- The fields of class `HD24Browser` that selection and export use, with the local variable
`running` of `run()`.  The pointer `selected_song_info` (NULL or `&songs[i]`) is `none` or
`some i`. -/
structure Browser where
  songs : List SongInfo
  current_selection : Int
  view_mode : Int
  track_selected : List Bool
  selected_song_info : Option Nat
  export_dir : CString
  running : Bool

/-- The constructor `HD24Browser(filesystem, output_dir)`, with the song list as `run()` has
loaded it. -/
def init (songs : List SongInfo) (output_dir : CString) : Browser :=
  { songs := songs, current_selection := 0, view_mode := 0,
    track_selected := List.replicate 24 false, selected_song_info := none,
    export_dir := output_dir, running := true }

/-- The read `track_selected[i]` for an `int` index. -/
def flag_at (track_selected : List Bool) (i : Int) : Bool :=
  if i < 0 then false else track_selected.getD i.toNat false

/-- The store `track_selected[i] = v` for an `int` index. -/
def set_flag_at (track_selected : List Bool) (i : Int) (v : Bool) : List Bool :=
  if i < 0 then track_selected else track_selected.set i.toNat v

/-- The loop `for (__uint32 i = 0; i < channels; i++) track_selected[i] = v;` of lines 455-457
and 461-463, started at index `i` with `n` iterations left. -/
def fill_flags (v : Bool) : Nat → Nat → List Bool → List Bool
  | 0, _, track_selected => track_selected
  | n + 1, i, track_selected => fill_flags v n (i + 1) (track_selected.set i v)

/-- The value `selected_song_info->channels`.  (A null `selected_song_info` is not dereferenced
in any state the program reaches; the model reads 0 there.) -/
def current_channels (b : Browser) : Nat :=
  match b.selected_song_info with
  | some idx => (b.songs.getD idx default).channels
  | none => 0

/-- The tracks below `channels` whose flag is set, in ascending order: the values of `track`
for which the body of the export loop (lines 280-281) runs. -/
def selected_tracks (track_selected : List Bool) (channels : Nat) : List Nat :=
  (List.range channels).filter (fun i => track_selected.getD i false)

/-- Lines 242-246: the number of set flags among the first `channels` flags. -/
def count_selected (track_selected : List Bool) (channels : Nat) : Int :=
  ((selected_tracks track_selected channels).length : Nat)

/-- Lines 289-293: the output file name of a 0-based `track`. -/
def filename (export_dir song_name : CString) (track : Nat) : CString :=
  snprintf 512
    (export_dir ++ ['/'] ++ song_name ++ "_Track".toList ++ fmt_02u (add32 track 1)
      ++ ".aif".toList)

/-- Lines 328-333: the three stores into `byte_buffer` for sample number `s` of a chunk. -/
def store_sample (byte_buffer : Nat → Nat) (s : Nat) (sample : Nat) : Nat → Nat :=
  let b0 := poke byte_buffer (s * 3 + 0) (sample &&& 0xFF)
  let b1 := poke b0 (s * 3 + 1) ((sample >>> 8) &&& 0xFF)
  poke b1 (s * 3 + 2) ((sample >>> 16) &&& 0xFF)

/-- What the `for s` loop of a chunk leaves behind. -/
structure ChunkRead where
  byte_buffer : Nat → Nat
  location : Nat
  events : List Event

/-- Lines 320-334: the loop `for (s = 0; s < samples_to_read; s++)`, at sample number `s` with
`n` iterations left. -/
def read_samples (audio : Nat → Nat → Nat) (track : Nat) :
    Nat → Nat → Nat → (Nat → Nat) → ChunkRead
  | 0, _, location, byte_buffer => ⟨byte_buffer, location, []⟩
  | n + 1, s, location, byte_buffer =>
    let frame := getmultitracksample audio location
    let sample := frame.1 track
    let rest := read_samples audio track n (s + 1) frame.2 (store_sample byte_buffer s sample)
    { rest with events := Event.getmultitracksample track location :: rest.events }

/-- Lines 314-317: the number of frames of the next chunk. -/
def samples_to_read (song_length samples_written : Nat) : Nat :=
  if add32 samples_written BUFFER_SIZE > song_length then sub32 song_length samples_written
  else BUFFER_SIZE

/-- What the `while` loop of one track leaves behind. -/
structure LoopResult where
  samples_written : Nat
  location : Nat
  byte_buffer : Nat → Nat
  events : List Event
  returned : Bool

/-- Lines 313-348: the loop `while (samples_written < song_length)` of one track.  The first
argument is the fuel, `k` counts the `sf_write_raw` calls made so far on this stream. -/
def write_loop (env : Env) (audio : Nat → Nat → Nat) (song_length track : Nat) :
    Nat → Nat → Nat → Nat → (Nat → Nat) → LoopResult
  | 0, samples_written, location, _, byte_buffer =>
    ⟨samples_written, location, byte_buffer, [], decide (¬ samples_written < song_length)⟩
  | fuel + 1, samples_written, location, k, byte_buffer =>
    if samples_written < song_length then
      let n := samples_to_read song_length samples_written
      let chunk := read_samples audio track n 0 location byte_buffer
      let written := env.sf_write_raw track k
      let evs := chunk.events ++
        [Event.sf_write_raw track (peek chunk.byte_buffer (mul32 n 3)) written]
      if written ≠ ((mul32 n 3 : Nat) : Int) then
        ⟨samples_written, chunk.location, chunk.byte_buffer, evs, true⟩
      else
        let samples_written1 := add32 samples_written n
        let percent := castInt (mul32 samples_written1 100 / song_length)
        let rest := write_loop env audio song_length track fuel samples_written1
          chunk.location (k + 1) chunk.byte_buffer
        { rest with events := evs ++ Event.show_progress percent :: rest.events }
    else ⟨samples_written, location, byte_buffer, [], true⟩

/-- What the loop over the tracks leaves behind. -/
structure JobResult where
  total_bytes : Int
  track_num : Int
  location : Nat
  byte_buffer : Nat → Nat
  events : List Event
  returned : Bool

/-- Lines 280-352: the loop `for (track = 0; track < channels; track++)`, at `track` with `n`
iterations left. -/
def track_loop (env : Env) (fuel : Nat) (audio : Nat → Nat → Nat)
    (export_dir song_name : CString) (track_selected : List Bool)
    (sample_rate song_length : Nat) (selected_count : Int) :
    Nat → Nat → Int → Int → Nat → (Nat → Nat) → JobResult
  | 0, _, track_num, total_bytes, location, byte_buffer =>
    ⟨total_bytes, track_num, location, byte_buffer, [], true⟩
  | n + 1, track, track_num, total_bytes, location, byte_buffer =>
    if !(track_selected.getD track false) then
      track_loop env fuel audio export_dir song_name track_selected sample_rate song_length
        selected_count n (track + 1) track_num total_bytes location byte_buffer
    else
      let track_num1 := track_num + 1
      let fname := filename export_dir song_name track
      let ok := env.sf_open track
      let opening := [Event.show_track track_num1 selected_count,
        Event.sf_open track fname (castInt sample_rate) 1
          (SF_FORMAT_AIFF ||| SF_FORMAT_PCM_24) ok]
      if !ok then
        let rest := track_loop env fuel audio export_dir song_name track_selected sample_rate
          song_length selected_count n (track + 1) track_num1 total_bytes location byte_buffer
        { rest with events := opening ++ Event.show_could_not_create fname :: rest.events }
      else
        let loop := write_loop env audio song_length track fuel 0 0 0 byte_buffer
        if !loop.returned then
          ⟨total_bytes, track_num1, loop.location, loop.byte_buffer,
            opening ++ Event.currentlocation track 0 :: loop.events, false⟩
        else
          let total_bytes1 := total_bytes + ((mul32 loop.samples_written 3 : Nat) : Int)
          let rest := track_loop env fuel audio export_dir song_name track_selected sample_rate
            song_length selected_count n (track + 1) track_num1 total_bytes1 loop.location
            loop.byte_buffer
          { rest with events := opening ++ Event.currentlocation track 0 ::
              (loop.events ++ Event.sf_close track :: rest.events) }

/-- What a call of `export_tracks` leaves behind: how it ended, the events in order, the song
list (the cursor of the current song may have moved) and the byte total. -/
structure ExportRun where
  status : Status
  events : List Event
  songs : List SongInfo
  total_bytes : Int

/-- Lines 238-371: `HD24Browser::export_tracks`. -/
def export_tracks (env : Env) (fuel : Nat) (b : Browser) : ExportRun :=
  match b.selected_song_info with
  | none => ⟨Status.no_song, [], b.songs, 0⟩
  | some idx =>
    let info := b.songs.getD idx default
    let channels := info.channels
    let selected_count := count_selected b.track_selected channels
    if selected_count = 0 then
      ⟨Status.no_tracks, [Event.show_no_tracks, Event.getch], b.songs, 0⟩
    else
      let song := info.song
      let sample_rate := u32 song.samplerate
      let song_length := u32 song.songlength_in_wamples
      let job := track_loop env fuel song.audio b.export_dir info.song_name b.track_selected
        sample_rate song_length selected_count channels 0 0 0 song.location env.fresh
      let songs1 := b.songs.set idx { info with song := { song with location := job.location } }
      let opening := [Event.show_exporting selected_count, Event.mkdir b.export_dir]
      if !job.returned then
        ⟨Status.out_of_fuel, opening ++ job.events, songs1, job.total_bytes⟩
      else
        let verdict := if job.total_bytes > 0 then Event.show_completed else Event.show_failed
        ⟨Status.finished, opening ++ job.events ++ [verdict, Event.getch], songs1,
          job.total_bytes⟩

/-- The ncurses key code `KEY_DOWN` (ncurses.h: 0402). -/
def KEY_DOWN : Int := 258

/-- The ncurses key code `KEY_UP` (ncurses.h: 0403). -/
def KEY_UP : Int := 259

/-- The ncurses key code `KEY_ENTER` (ncurses.h: 0527). -/
def KEY_ENTER : Int := 343

/-- Lines 413-479: one turn of the loop of `run()`, for the key `ch` returned by `getch()`.
The key that `export_tracks` waits for before it returns is consumed there and is no turn of
this loop. -/
def step (env : Env) (fuel : Nat) (b : Browser) (ch : Int) : Browser :=
  if b.view_mode = 0 then
    if ch = KEY_UP then
      if b.current_selection > 0 then { b with current_selection := b.current_selection - 1 }
      else b
    else if ch = KEY_DOWN then
      if b.current_selection < (b.songs.length : Int) - 1 then
        { b with current_selection := b.current_selection + 1 }
      else b
    else if ch = 10 ∨ ch = KEY_ENTER then
      { b with selected_song_info := some b.current_selection.toNat, view_mode := 1,
               current_selection := 0, track_selected := List.replicate 24 false }
    else if ch = 113 ∨ ch = 81 then { b with running := false }
    else b
  else if b.view_mode = 1 then
    let channels := current_channels b
    if ch = KEY_UP then
      if b.current_selection > 0 then { b with current_selection := b.current_selection - 1 }
      else b
    else if ch = KEY_DOWN then
      if b.current_selection < castInt channels - 1 then
        { b with current_selection := b.current_selection + 1 }
      else b
    else if ch = 32 then
      { b with track_selected := set_flag_at b.track_selected b.current_selection
                 (!(flag_at b.track_selected b.current_selection)) }
    else if ch = 97 ∨ ch = 65 then
      { b with track_selected := fill_flags true channels 0 b.track_selected }
    else if ch = 110 ∨ ch = 78 then
      { b with track_selected := fill_flags false channels 0 b.track_selected }
    else if ch = 101 ∨ ch = 69 then
      { b with songs := (export_tracks env fuel b).songs }
    else if ch = 27 then { b with view_mode := 0, current_selection := 0 }
    else if ch = 113 ∨ ch = 81 then { b with running := false }
    else b
  else b

/-- The states that `run()` can be in after any sequence of keys, started on the song list
`songs` with the export directory `output_dir`. -/
inductive Reachable (env : Env) (fuel : Nat) (songs : List SongInfo) (output_dir : CString) :
    Browser → Prop
  | start : Reachable env fuel songs output_dir (init songs output_dir)
  | key (b : Browser) (ch : Int) :
      Reachable env fuel songs output_dir b →
      Reachable env fuel songs output_dir (step env fuel b ch)

/-- The three selection operations of the track view. -/
inductive SelectionOp where
  /-- SPACE: toggle the track under the cursor. -/
  | toggle
  /-- The key `a`: select all. -/
  | select_all
  /-- The key `n`: select none. -/
  | select_none
  deriving DecidableEq, Repr

/-- The key of a selection operation (lines 450, 453, 459). -/
def SelectionOp.key : SelectionOp → Int
  | .toggle => 32
  | .select_all => 97
  | .select_none => 110

/-- The state after a sequence of selection operations, each one turn of the loop of `run()`. -/
def apply_ops (env : Env) (fuel : Nat) (b : Browser) (ops : List SelectionOp) : Browser :=
  ops.foldl (fun s op => step env fuel s op.key) b

/-- Invariant of the states of `run()`: the flag array has 24 entries, the view is the song
list (0) or the track view (1), and in the track view the cursor is 0 or below the channel
count of the current song and no flag is set at an index that is at least 1 and at least that
channel count. -/
def TrackInv (b : Browser) : Prop :=
  b.track_selected.length = 24 ∧ (b.view_mode = 0 ∨ b.view_mode = 1) ∧
  (b.view_mode = 1 →
    0 ≤ b.current_selection ∧
    (b.current_selection = 0 ∨ b.current_selection < (current_channels b : Int)) ∧
    ∀ i : Nat, 1 ≤ i → current_channels b ≤ i → b.track_selected.getD i false = false)

/-- The notion of the specification that a track was exported without failure, for a song of
`song_length` frames: the stream of the track opens and every chunk is written in full, that
is, the `k`-th `sf_write_raw` call reports the size of the `k`-th chunk of 1024 frames (the
last chunk may be shorter). -/
def Succeeded (env : Env) (song_length track : Nat) : Prop :=
  env.sf_open track = true
    ∧ ∀ k : Nat, k * 1024 < song_length →
        env.sf_write_raw track k = ((3 * min 1024 (song_length - k * 1024) : Nat) : Int)

/-- The catalogue entry of `song_of_length frames channels`. -/
def info_of_length (frames channels : Nat) : SongInfo :=
  { song := song_of_length frames channels, project_name := "P".toList,
    song_name := "S".toList, sample_rate := 48000, channels := channels, duration := [],
    project_id := 1, song_id := 1 }

/-- The track view of a one-song catalogue with the first `selected` flags set. -/
def track_view_of (info : SongInfo) (selected : Nat) : Browser :=
  { songs := [info], current_selection := 0, view_mode := 1,
    track_selected := List.replicate selected true ++ List.replicate (24 - selected) false,
    selected_song_info := some 0, export_dir := "out".toList, running := true }

/-- Invariant of the states of `run()` on a song list of `n` songs with at most 24 channels
each: the list keeps its length and its channel counts, the flag array has 24 entries, and
either the view is the song list with the cursor on a song, or the view is the track view with
a current song of the list and the cursor at 0 or on one of its channels. -/
def CursorInv (n : Nat) (b : Browser) : Prop :=
  b.songs.length = n
    ∧ (∀ j : Nat, (b.songs.getD j default).channels ≤ 24)
    ∧ b.track_selected.length = 24
    ∧ ((b.view_mode = 0 ∧ 0 ≤ b.current_selection ∧ b.current_selection < (n : Int))
      ∨ (b.view_mode = 1 ∧ 0 ≤ b.current_selection
          ∧ (∃ idx : Nat, b.selected_song_info = some idx ∧ idx < n)
          ∧ (b.current_selection = 0 ∨ b.current_selection < (current_channels b : Int))))

/-- Lines 62-81: the entry that `list_all_songs` pushes for song `j` of project `i`. -/
def song_entry (proj : hd24project) (song : hd24song) (i j : Nat) : SongInfo :=
  { song := song, project_name := proj.projectname, song_name := song.songname,
    sample_rate := u32 song.samplerate, channels := u32 song.physical_channels,
    duration := song.display_duration, project_id := i, song_id := j }

/-- What a loop of `list_all_songs` leaves behind: the entries pushed so far, and whether the
loop has ended. -/
structure CatalogRun where
  songs : List SongInfo
  returned : Bool

/-- Lines 59-83: the loop `for (__uint32 j = 1; j <= songcount; j++)` over the songs of one
project, at the value `j` of the `__uint32` counter.  The first numeric argument after
`songcount` is the fuel, the number of iterations the loop is given. -/
def song_loop (proj : hd24project) (i songcount : Nat) : Nat → Nat → CatalogRun
  | 0, j => ⟨[], decide (¬ j ≤ songcount)⟩
  | fuel + 1, j =>
    if j ≤ songcount then
      let rest := song_loop proj i songcount fuel (add32 j 1)
      match proj.getsong j with
      | some song => { rest with songs := song_entry proj song i j :: rest.songs }
      | none => rest
    else ⟨[], true⟩

/-- Lines 53-86: the loop `for (__uint32 i = 1; i <= projcount; i++)` over the projects, at the
value `i` of the `__uint32` counter.  `inner_fuel` is the fuel of each loop over the songs of
a project, the next argument the fuel of this loop. -/
def project_loop (fs : hd24fs) (projcount inner_fuel : Nat) : Nat → Nat → CatalogRun
  | 0, i => ⟨[], decide (¬ i ≤ projcount)⟩
  | fuel + 1, i =>
    if i ≤ projcount then
      match fs.getproject i with
      | some proj =>
        let inner := song_loop proj i (u32 proj.songcount) inner_fuel 1
        if !inner.returned then ⟨inner.songs, false⟩
        else
          let rest := project_loop fs projcount inner_fuel fuel (add32 i 1)
          { rest with songs := inner.songs ++ rest.songs }
      | none => project_loop fs projcount inner_fuel fuel (add32 i 1)
    else ⟨[], true⟩

/-- Lines 49-87: `HD24Browser::list_all_songs`, the song list it leaves in `songs`, with `fuel`
iterations for each of its loops. -/
def list_all_songs (fs : hd24fs) (fuel : Nat) : CatalogRun :=
  project_loop fs (u32 fs.projectcount) fuel fuel 1

/-- The catalogue entry of `demo_song`. -/
def demo_info : SongInfo :=
  { song := demo_song, project_name := "P".toList, song_name := "S".toList,
    sample_rate := 48000, channels := 2, duration := [], project_id := 1, song_id := 1 }

/-- A sample state in the song list view: the cursor on the second song, a stale flag set. -/
def demo_list_view : Browser :=
  { songs := [demo_info, demo_info], current_selection := 1, view_mode := 0,
    track_selected := true :: List.replicate 23 false, selected_song_info := some 0,
    export_dir := "out".toList, running := true }

/-- A sample state in the track view of the first song: the cursor on track 1, track 0 set. -/
def demo_track_view : Browser :=
  { songs := [demo_info, demo_info], current_selection := 1, view_mode := 1,
    track_selected := true :: List.replicate 23 false, selected_song_info := some 0,
    export_dir := "out".toList, running := true }

/-- The sample track view with the read cursor of the first song left at frame 77. -/
def demo_track_view_moved : Browser :=
  { demo_track_view with
    songs := [{ demo_info with song := { demo_song with location := 77 } }, demo_info] }

end HD24Browser

/-! ## The graphical front end (`src/frontend/hd24browser_gui.cpp`) -/

namespace HD24BrowserGUI

open HD24

/-- The struct `SongInfo` of hd24browser_gui.cpp (it caches `song_length`). -/
structure SongInfo where
  song : hd24song
  project_name : CString
  song_name : CString
  sample_rate : Nat
  channels : Nat
  song_length : Nat
  duration : CString
  project_id : Nat
  song_id : Nat

instance : Inhabited SongInfo :=
  ⟨{ song := default, project_name := [], song_name := [], sample_rate := 0, channels := 0,
     song_length := 0, duration := [], project_id := 0, song_id := 0 }⟩

/-- The state of class `HD24BrowserGUI` that selection and export use.
`song_browser_value` is `song_browser->value()`, the 1-based selected line of the song list
(0 when no line is selected).  `track_browser` holds the check marks of the items of the
`Fl_Check_Browser`, item `t` (1-based) at position `t - 1`. -/
structure Gui where
  songs : List SongInfo
  song_browser_value : Int
  track_browser : List Bool
  export_dir : CString
  export_button_active : Bool

/-- The call `track_browser->nitems()` of FLTK. -/
def nitems (track_browser : List Bool) : Int := (track_browser.length : Int)

/-- The call `track_browser->checked(t)` of FLTK for the 1-based item `t`. -/
def checked (track_browser : List Bool) (t : Int) : Bool :=
  if t < 1 then false else track_browser.getD (t - 1).toNat false

/-- Lines 276-280: the loop `for (t = 1; t <= song_info.channels; t++) track_browser->add(..)`
with `n` iterations left; `add` appends an item without check mark.  (The loop makes
`channels` iterations for every channel count below 4294967295, the largest `__uint32`.) -/
def add_tracks : Nat → List Bool → List Bool
  | 0, track_browser => track_browser
  | n + 1, track_browser => add_tracks n (track_browser ++ [false])

/-- Lines 268-288: `HD24BrowserGUI::song_selected`, the callback of the song list. -/
def song_selected (g : Gui) : Gui :=
  let idx := g.song_browser_value
  if idx < 1 ∨ idx > (g.songs.length : Int) then g
  else
    let song_info := g.songs.getD (idx - 1).toNat default
    { g with track_browser := add_tracks song_info.channels []
             export_button_active := true }

/-- The operator picks line `line` of the song list: FLTK stores the line as the value of
`song_browser` and runs the callback `song_selected`. -/
def click_song (g : Gui) (line : Int) : Gui :=
  song_selected { g with song_browser_value := line }

/-- Lines 290-293: `select_all_cb`, that is `track_browser->check_all()`. -/
def select_all_cb (g : Gui) : Gui :=
  { g with track_browser := g.track_browser.map (fun _ => true) }

/-- Lines 295-298: `select_none_cb`, that is `track_browser->check_none()`. -/
def select_none_cb (g : Gui) : Gui :=
  { g with track_browser := g.track_browser.map (fun _ => false) }

/-- The 1-based items with a check mark, in ascending order: the values of `t` for which the
body of the export loop (lines 355-356) runs. -/
def selected_items (track_browser : List Bool) : List Int :=
  ((List.range track_browser.length).map (fun (i : Nat) => (i : Int) + 1)).filter
    (fun t => checked track_browser t)

/-- Lines 330-333: the number of checked items. -/
def count_selected (track_browser : List Bool) : Int :=
  ((selected_items track_browser).length : Nat)

/-- Lines 361-365: the output file name of the 1-based item `t`. -/
def filename (export_dir song_name : CString) (t : Int) : CString :=
  snprintf 512
    (export_dir ++ ['/'] ++ song_name ++ "_Track".toList ++ fmt_02d t ++ ".aif".toList)

/-- Lines 401-406: the three stores into `byte_buffer` for sample number `s` of a chunk. -/
def store_sample (byte_buffer : Nat → Nat) (s : Nat) (sample : Nat) : Nat → Nat :=
  let b0 := poke byte_buffer (s * 3 + 0) (sample &&& 0xFF)
  let b1 := poke b0 (s * 3 + 1) ((sample >>> 8) &&& 0xFF)
  poke b1 (s * 3 + 2) ((sample >>> 16) &&& 0xFF)

/-- What the `for s` loop of a chunk leaves behind. -/
structure ChunkRead where
  byte_buffer : Nat → Nat
  location : Nat
  events : List Event

/-- Lines 399-407: the loop `for (s = 0; s < samples_to_read; s++)`, at sample number `s` with
`n` iterations left. -/
def read_samples (audio : Nat → Nat → Nat) (track : Nat) :
    Nat → Nat → Nat → (Nat → Nat) → ChunkRead
  | 0, _, location, byte_buffer => ⟨byte_buffer, location, []⟩
  | n + 1, s, location, byte_buffer =>
    let frame := getmultitracksample audio location
    let sample := frame.1 track
    let rest := read_samples audio track n (s + 1) frame.2 (store_sample byte_buffer s sample)
    { rest with events := Event.getmultitracksample track location :: rest.events }

/-- Lines 393-396: the number of frames of the next chunk. -/
def samples_to_read (song_length samples_written : Nat) : Nat :=
  if add32 samples_written BUFFER_SIZE > song_length then sub32 song_length samples_written
  else BUFFER_SIZE

/-- Lines 419-420: the percentage shown after a chunk.  The first summand is `int` arithmetic,
the second `__uint32` arithmetic, and so is the sum, which is then stored in an `int`. -/
def progress_percent (track_num total_tracks : Int) (samples_written song_length : Nat) : Int :=
  castInt (add32 ((track_num - 1) * 100 / total_tracks).toNat
    (mul32 samples_written 100 / song_length / total_tracks.toNat))

/-- What the `while` loop of one track leaves behind. -/
structure LoopResult where
  samples_written : Nat
  location : Nat
  byte_buffer : Nat → Nat
  events : List Event
  returned : Bool

/-- Lines 392-425: the loop `while (samples_written < song_length)` of one track.  The first
argument after `track` is the fuel, `k` counts the `sf_write_raw` calls made so far on this
stream. -/
def write_loop (env : Env) (audio : Nat → Nat → Nat) (fname : CString)
    (track_num total_tracks : Int) (song_length track : Nat) :
    Nat → Nat → Nat → Nat → (Nat → Nat) → LoopResult
  | 0, samples_written, location, _, byte_buffer =>
    ⟨samples_written, location, byte_buffer, [], decide (¬ samples_written < song_length)⟩
  | fuel + 1, samples_written, location, k, byte_buffer =>
    if samples_written < song_length then
      let n := samples_to_read song_length samples_written
      let chunk := read_samples audio track n 0 location byte_buffer
      let written := env.sf_write_raw track k
      let evs := chunk.events ++
        [Event.sf_write_raw track (peek chunk.byte_buffer (mul32 n 3)) written]
      if written ≠ ((mul32 n 3 : Nat) : Int) then
        ⟨samples_written, chunk.location, chunk.byte_buffer,
          evs ++ [Event.show_write_error fname], true⟩
      else
        let samples_written1 := add32 samples_written n
        let percent := progress_percent track_num total_tracks samples_written1 song_length
        let rest := write_loop env audio fname track_num total_tracks song_length track fuel
          samples_written1 chunk.location (k + 1) chunk.byte_buffer
        { rest with events := evs ++ Event.show_progress percent :: rest.events }
    else ⟨samples_written, location, byte_buffer, [], true⟩

/-- What the loop over the items of the track browser leaves behind. -/
structure JobResult where
  track_num : Int
  location : Nat
  byte_buffer : Nat → Nat
  events : List Event
  returned : Bool

/-- Lines 355-428: the loop `for (int t = 1; t <= track_browser->nitems(); t++)`, at item `t`
with `n` iterations left. -/
def track_loop (env : Env) (fuel : Nat) (audio : Nat → Nat → Nat)
    (export_dir song_name : CString) (track_browser : List Bool)
    (sample_rate song_length : Nat) (total_tracks : Int) :
    Nat → Int → Int → Nat → (Nat → Nat) → JobResult
  | 0, _, track_num, location, byte_buffer => ⟨track_num, location, byte_buffer, [], true⟩
  | n + 1, t, track_num, location, byte_buffer =>
    if !(checked track_browser t) then
      track_loop env fuel audio export_dir song_name track_browser sample_rate song_length
        total_tracks n (t + 1) track_num location byte_buffer
    else
      let track_num1 := track_num + 1
      let track := (t - 1).toNat
      let fname := filename export_dir song_name t
      let ok := env.sf_open track
      let opening := [Event.show_track track_num1 total_tracks,
        Event.sf_open track fname (castInt sample_rate) 1
          (SF_FORMAT_AIFF ||| SF_FORMAT_PCM_24) ok]
      if !ok then
        let rest := track_loop env fuel audio export_dir song_name track_browser sample_rate
          song_length total_tracks n (t + 1) track_num1 location byte_buffer
        { rest with events := opening ++ Event.show_could_not_create fname :: rest.events }
      else
        let loop := write_loop env audio fname track_num1 total_tracks song_length track fuel
          0 0 0 byte_buffer
        if !loop.returned then
          ⟨track_num1, loop.location, loop.byte_buffer,
            opening ++ Event.currentlocation track 0 :: loop.events, false⟩
        else
          let rest := track_loop env fuel audio export_dir song_name track_browser sample_rate
            song_length total_tracks n (t + 1) track_num1 loop.location loop.byte_buffer
          { rest with events := opening ++ Event.currentlocation track 0 ::
              (loop.events ++ Event.sf_close track :: rest.events) }

/-- What a call of `export_tracks` leaves behind: how it ended, the events in order and the
song list (the cursor of the current song may have moved). -/
structure ExportRun where
  status : Status
  events : List Event
  songs : List SongInfo

/-- Lines 323-435: `HD24BrowserGUI::export_tracks`. -/
def export_tracks (env : Env) (fuel : Nat) (g : Gui) : ExportRun :=
  let song_idx := g.song_browser_value
  if song_idx < 1 ∨ song_idx > (g.songs.length : Int) then ⟨Status.no_song, [], g.songs⟩
  else
    let idx := (song_idx - 1).toNat
    let song_info := g.songs.getD idx default
    let selected_count := count_selected g.track_browser
    if selected_count = 0 then ⟨Status.no_tracks, [Event.show_no_tracks], g.songs⟩
    else
      let song := song_info.song
      let sample_rate := u32 song_info.sample_rate
      let song_length := u32 song_info.song_length
      let job := track_loop env fuel song.audio g.export_dir song_info.song_name
        g.track_browser sample_rate song_length selected_count g.track_browser.length 1 0
        song.location env.fresh
      let songs1 := g.songs.set idx
        { song_info with song := { song with location := job.location } }
      let opening := [Event.mkdir g.export_dir]
      if !job.returned then ⟨Status.out_of_fuel, opening ++ job.events, songs1⟩
      else ⟨Status.finished, opening ++ job.events ++ [Event.show_completed], songs1⟩

/-- The catalogue entry of `song_of_length frames channels`. -/
def info_of_length (frames channels : Nat) : SongInfo :=
  { song := song_of_length frames channels, project_name := "P".toList,
    song_name := "S".toList, sample_rate := 48000, channels := channels,
    song_length := frames, duration := [], project_id := 1, song_id := 1 }

/-- A one-song catalogue with the song picked and the first `selected` of its items checked. -/
def gui_of (info : SongInfo) (selected : Nat) : Gui :=
  { songs := [info], song_browser_value := 1,
    track_browser := List.replicate selected true
      ++ List.replicate (info.channels - selected) false,
    export_dir := "out".toList, export_button_active := true }

/-- Lines 230-240: the entry that `load_songs` pushes for song `s` of project `p`. -/
def song_entry (proj : hd24project) (song : hd24song) (p s : Nat) : SongInfo :=
  { song := song, project_name := proj.projectname, song_name := song.songname,
    sample_rate := u32 song.samplerate, channels := u32 song.physical_channels,
    song_length := u32 song.songlength_in_wamples, duration := song.display_duration,
    project_id := p, song_id := s }

/-- What a loop of `load_songs` leaves behind: the entries pushed so far, and whether the loop
has ended. -/
structure CatalogRun where
  songs : List SongInfo
  returned : Bool

/-- Lines 226-252: the loop `for (__uint32 s = 1; s <= song_count; s++)` over the songs of one
project, at the value `s` of the `__uint32` counter.  The first numeric argument after
`song_count` is the fuel, the number of iterations the loop is given. -/
def song_loop (proj : hd24project) (p song_count : Nat) : Nat → Nat → CatalogRun
  | 0, s => ⟨[], decide (¬ s ≤ song_count)⟩
  | fuel + 1, s =>
    if s ≤ song_count then
      let rest := song_loop proj p song_count fuel (add32 s 1)
      match proj.getsong s with
      | some song => { rest with songs := song_entry proj song p s :: rest.songs }
      | none => rest
    else ⟨[], true⟩

/-- Lines 219-255: the loop `for (__uint32 p = 1; p <= proj_count; p++)` over the projects, at
the value `p` of the `__uint32` counter.  `inner_fuel` is the fuel of each loop over the songs
of a project, the next argument the fuel of this loop. -/
def project_loop (fs : hd24fs) (proj_count inner_fuel : Nat) : Nat → Nat → CatalogRun
  | 0, p => ⟨[], decide (¬ p ≤ proj_count)⟩
  | fuel + 1, p =>
    if p ≤ proj_count then
      match fs.getproject p with
      | some proj =>
        let inner := song_loop proj p (u32 proj.songcount) inner_fuel 1
        if !inner.returned then ⟨inner.songs, false⟩
        else
          let rest := project_loop fs proj_count inner_fuel fuel (add32 p 1)
          { rest with songs := inner.songs ++ rest.songs }
      | none => project_loop fs proj_count inner_fuel fuel (add32 p 1)
    else ⟨[], true⟩

/-- What a call of `load_songs` leaves behind: the state of the window, and whether the call
has returned. -/
structure LoadRun where
  gui : Gui
  returned : Bool

/-- Lines 191-261: `HD24BrowserGUI::load_songs` for the volume `fs` that was opened for the
device, with `fuel` iterations for each of its loops: the song list, the song browser and the
track browser are cleared, the export button is deactivated, and when the volume is open the
songs are loaded. -/
def load_songs (g : Gui) (fs : hd24fs) (fuel : Nat) : LoadRun :=
  if !fs.isOpen then
    ⟨{ g with songs := [], song_browser_value := 0, track_browser := [],
              export_button_active := false }, true⟩
  else
    let run := project_loop fs (u32 fs.projectcount) fuel fuel 1
    ⟨{ g with songs := run.songs, song_browser_value := 0, track_browser := [],
              export_button_active := false }, run.returned⟩

/-- The 0-based tracks exported by the loop of lines 355-358, in the order of the loop:
`track = t - 1` for each checked item `t`. -/
def selected_tracks (track_browser : List Bool) : List Nat :=
  (selected_items track_browser).map (fun t => (t - 1).toNat)

/-- The catalogue entry of `demo_song`. -/
def demo_info : SongInfo :=
  { song := demo_song, project_name := "P".toList, song_name := "S".toList,
    sample_rate := 48000, channels := 2, song_length := 2, duration := [], project_id := 1,
    song_id := 1 }

/-- A sample state: two songs, the first one picked, its first track checked. -/
def demo_gui : Gui :=
  { songs := [demo_info, demo_info], song_browser_value := 1, track_browser := [true, false],
    export_dir := "out".toList, export_button_active := true }

/-- The sample state with the read cursor of the first song left at frame 77. -/
def demo_gui_moved : Gui :=
  { demo_gui with
    songs := [{ demo_info with song := { demo_song with location := 77 } }, demo_info] }

end HD24BrowserGUI

/-! ## Auxiliary lemmas -/

namespace HD24

theorem and_255 (x : Nat) : x &&& 0xFF = x % 256 := by
  have h := Nat.and_pow_two_sub_one_eq_mod x 8
  simpa using h

theorem shift8_and_255 (x : Nat) : (x >>> 8) &&& 0xFF = x / 256 % 256 := by
  rw [and_255, Nat.shiftRight_eq_div_pow]

theorem shift16_and_255 (x : Nat) : (x >>> 16) &&& 0xFF = x / 65536 % 256 := by
  rw [and_255, Nat.shiftRight_eq_div_pow]

theorem add32_small (a b : Nat) (h : a + b < 4294967296) : add32 a b = a + b := by
  unfold add32 UINT32_MOD
  exact Nat.mod_eq_of_lt h

theorem mul32_small (a b : Nat) (h : a * b < 4294967296) : mul32 a b = a * b := by
  unfold mul32 UINT32_MOD
  exact Nat.mod_eq_of_lt h

theorem sub32_small (a b : Nat) (ha : a < 4294967296) (hb : b ≤ a) : sub32 a b = a - b := by
  unfold sub32 UINT32_MOD
  omega

theorem getD_replicate_false (n i : Nat) : (List.replicate n false).getD i false = false := by
  rw [List.getD_eq_getElem?_getD, List.getElem?_replicate]
  split <;> rfl

theorem castInt_le (x : Nat) : castInt x ≤ (x : Int) := by
  unfold castInt UINT32_MOD
  split <;> omega

theorem eq_replicate_false_of_getD (l : List Bool) (n : Nat) (hlen : l.length = n)
    (h : ∀ i : Nat, l.getD i false = false) : l = List.replicate n false := by
  rw [List.eq_replicate_iff]
  refine ⟨hlen, ?_⟩
  intro x hx
  obtain ⟨i, hi, rfl⟩ := List.getElem_of_mem hx
  have hget := h i
  rw [List.getD_eq_getElem?_getD, List.getElem?_eq_getElem hi] at hget
  simpa using hget

theorem getD_false_of_length_le (l : List Bool) (i : Nat) (h : l.length ≤ i) :
    l.getD i false = false := by
  rw [List.getD_eq_getElem?_getD, List.getElem?_eq_none h]
  rfl

theorem mul32_three_eq_zero (n : Nat) (h : n < 4294967296) (h0 : mul32 n 3 = 0) : n = 0 := by
  unfold mul32 UINT32_MOD at h0
  have hd : (4294967296 : Nat) ∣ n * 3 := Nat.dvd_of_mod_eq_zero h0
  have hc : Nat.Coprime 4294967296 3 := by norm_num
  have hd2 : (4294967296 : Nat) ∣ n := hc.dvd_of_dvd_mul_right hd
  exact Nat.eq_zero_of_dvd_of_lt hd2 h

theorem mul32_three_pos (n : Nat) (h : n < 4294967296) : 0 < mul32 n 3 ↔ 0 < n := by
  constructor
  · intro hpos
    rcases Nat.eq_zero_or_pos n with h0 | h0
    · rw [h0] at hpos
      exact absurd hpos (by decide)
    · exact h0
  · intro hpos
    rcases Nat.eq_zero_or_pos (mul32 n 3) with h0 | h0
    · have := mul32_three_eq_zero n h h0
      omega
    · exact h0

theorem bnot_ne_true (x : Bool) (h : x = true) : ¬ ((!x) = true) := by
  rw [h]
  decide

theorem bnot_eq_true_of (x : Bool) (h : ¬ x = true) : (!x) = true := by
  cases x
  · rfl
  · exact absurd rfl h

theorem written_bytes_append (xs ys : List Event) :
    written_bytes (xs ++ ys) = written_bytes xs + written_bytes ys := by
  induction xs with
  | nil => simp [written_bytes]
  | cons e rest ih =>
    cases e <;> simp [written_bytes, ih, Nat.add_assoc]

theorem peek_length (byte_buffer : Nat → Nat) (n : Nat) : (peek byte_buffer n).length = n := by
  simp [peek]

theorem write_count_append (xs ys : List Event) :
    write_count (xs ++ ys) = write_count xs + write_count ys := by
  induction xs with
  | nil => simp [write_count]
  | cons e rest ih =>
    cases e <;> simp [write_count, ih, Nat.add_assoc]

theorem append_cons_snoc (xs : List Event) (e : Event) (pre : List Event) (l : Event) :
    xs ++ e :: (pre ++ [l]) = (xs ++ e :: pre) ++ [l] := by
  simp

theorem catalog_pairs_nodup (fs : hd24fs) : (catalog_pairs fs).Nodup := by
  unfold catalog_pairs
  rw [List.nodup_flatMap]
  constructor
  · intro i _
    cases fs.getproject i with
    | none => exact List.nodup_nil
    | some proj =>
      apply List.Nodup.map
      · intro a b hab
        exact (Prod.mk.inj hab).2
      · exact List.Nodup.filter _ (List.nodup_range' _ _)
  · apply List.Nodup.pairwise_of_forall_ne (List.nodup_range' _ _)
    intro a _ b _ hab
    show List.Disjoint _ _
    intro x hxa hxb
    beta_reduce at hxa hxb
    have h1 : x.1 = a := by
      cases hp : fs.getproject a with
      | none => rw [hp] at hxa; simp at hxa
      | some proj =>
        rw [hp] at hxa
        obtain ⟨j, _, rfl⟩ := List.mem_map.mp hxa
        rfl
    have h2 : x.1 = b := by
      cases hp : fs.getproject b with
      | none => rw [hp] at hxb; simp at hxb
      | some proj =>
        rw [hp] at hxb
        obtain ⟨j, _, rfl⟩ := List.mem_map.mp hxb
        rfl
    exact hab (h1.symm.trans h2)

theorem opened_tracks_append (xs ys : List Event) :
    opened_tracks (xs ++ ys) = opened_tracks xs ++ opened_tracks ys := by
  induction xs with
  | nil => simp [opened_tracks]
  | cons e rest ih =>
    cases e <;> simp [opened_tracks, ih]

theorem stream_fold_none (events : List Event) : events.foldl stream_step none = none := by
  induction events with
  | nil => rfl
  | cons e rest ih => exact ih

theorem ok_bytes_append (xs ys : List Event) :
    ok_bytes (xs ++ ys) = ok_bytes xs + ok_bytes ys := by
  induction xs with
  | nil => simp [ok_bytes]
  | cons e rest ih =>
    cases e <;> simp [ok_bytes, ih, Nat.add_assoc]

theorem peek_congr (b1 b2 : Nat → Nat) (n m : Nat) (hm : m ≤ n)
    (h : ∀ i : Nat, i < n → b1 i = b2 i) : peek b1 m = peek b2 m := by
  unfold peek
  apply List.map_congr_left
  intro i hi
  exact h i (by rw [List.mem_range] at hi; omega)

theorem opened_paths_filter (events : List Event) :
    opened_paths (events.filter is_io) = opened_paths events := by
  induction events with
  | nil => rfl
  | cons e rest ih =>
    cases e <;> simp [List.filter_cons, is_io, opened_paths, ih]

theorem written_chunks_filter (events : List Event) :
    written_chunks (events.filter is_io) = written_chunks events := by
  induction events with
  | nil => rfl
  | cons e rest ih =>
    cases e <;> simp [List.filter_cons, is_io, written_chunks, ih]

theorem open_config_of_not_io (rate : Int) (e : Event) (h : is_io e = false) :
    open_config rate e = true := by
  cases e <;> first | rfl | exact absurd h (by simp [is_io])

theorem fmt_02u_two_digits (n : Nat) (h : n < 100) :
    fmt_02u n = [Nat.digitChar (n / 10), Nat.digitChar (n % 10)] := by
  revert n
  decide

end HD24

namespace HD24Browser

open HD24

theorem poke_store_sample (byte_buffer : Nat → Nat) (s sample : Nat) :
    [s * 3, s * 3 + 1, s * 3 + 2].map (store_sample byte_buffer s sample)
      = [sample % 256, sample / 256 % 256, sample / 65536 % 256] := by
  simp [store_sample, poke, and_255, Nat.shiftRight_eq_div_pow]

theorem flag_at_replicate_false (n : Nat) (i : Int) :
    flag_at (List.replicate n false) i = false := by
  unfold flag_at
  split
  · rfl
  · exact getD_replicate_false n _

theorem selected_tracks_replicate_false (n channels : Nat) :
    selected_tracks (List.replicate n false) channels = [] := by
  unfold selected_tracks
  rw [List.filter_eq_nil_iff]
  intro i _
  simp [getD_replicate_false]

theorem flag_at_set_flag_at_same (a : List Bool) (c : Int) (v : Bool)
    (h0 : 0 ≤ c) (hlt : c < (a.length : Int)) :
    flag_at (set_flag_at a c v) c = v := by
  have hneg : ¬ (c < 0) := by omega
  have hnat : c.toNat < a.length := by omega
  simp [flag_at, set_flag_at, hneg, List.getD_eq_getElem?_getD, List.getElem?_set, hnat]

theorem flag_at_set_flag_at_other (a : List Bool) (c d : Int) (v : Bool) (hne : d ≠ c) :
    flag_at (set_flag_at a c v) d = flag_at a d := by
  unfold flag_at set_flag_at
  by_cases hd : d < 0
  · simp [hd]
  · by_cases hc : c < 0
    · simp [hc]
    · have hnat : c.toNat ≠ d.toNat := by omega
      simp [hd, hc, List.getD_eq_getElem?_getD, List.getElem?_set, hnat]

theorem set_flag_at_restore (a : List Bool) (c : Int) (v : Bool) :
    set_flag_at (set_flag_at a c v) c (flag_at a c) = a := by
  unfold flag_at set_flag_at
  by_cases hc : c < 0
  · simp [hc]
  · simp only [hc, if_false, List.set_set]
    apply List.ext_getElem?
    intro i
    rw [List.getElem?_set]
    by_cases hi : c.toNat = i
    · subst hi
      by_cases hlen : c.toNat < a.length
      · simp [hlen, List.getD_eq_getElem?_getD]
      · simp [hlen]
        omega
    · simp [hi]

theorem fill_flags_length (v : Bool) (n i : Nat) (a : List Bool) :
    (fill_flags v n i a).length = a.length := by
  induction n generalizing i a with
  | zero => rfl
  | succ k ih => rw [fill_flags, ih, List.length_set]

theorem fill_flags_getD (v : Bool) (n i : Nat) (a : List Bool) (j : Nat) :
    (fill_flags v n i a).getD j false
      = if i ≤ j ∧ j < i + n ∧ j < a.length then v else a.getD j false := by
  induction n generalizing i a with
  | zero =>
    have h : ¬ (i ≤ j ∧ j < i + 0 ∧ j < a.length) := by omega
    rw [fill_flags, if_neg h]
  | succ k ih =>
    rw [fill_flags, ih, List.length_set]
    simp only [List.getD_eq_getElem?_getD, List.getElem?_set]
    by_cases hij : i = j
    · subst hij
      by_cases hlen : i < a.length
      · have h1 : ¬ (i + 1 ≤ i ∧ i < i + 1 + k ∧ i < a.length) := by omega
        have h2 : (i ≤ i ∧ i < i + (k + 1) ∧ i < a.length) := by omega
        simp [h1, h2, hlen]
      · have h1 : ¬ (i + 1 ≤ i ∧ i < i + 1 + k ∧ i < a.length) := by omega
        have h2 : ¬ (i ≤ i ∧ i < i + (k + 1) ∧ i < a.length) := by omega
        have h3 : a[i]? = none := List.getElem?_eq_none (by omega)
        simp [h1, h2, hlen, h3]
    · by_cases hc : i + 1 ≤ j ∧ j < i + 1 + k ∧ j < a.length
      · have h2 : (i ≤ j ∧ j < i + (k + 1) ∧ j < a.length) := by omega
        simp [hc, h2]
      · have h2 : ¬ (i ≤ j ∧ j < i + (k + 1) ∧ j < a.length) := by omega
        simp [hc, h2, hij]

theorem export_tracks_songs_length (env : Env) (fuel : Nat) (b : Browser) :
    (export_tracks env fuel b).songs.length = b.songs.length := by
  unfold export_tracks
  split
  · rfl
  · dsimp only
    split
    · rfl
    · split <;> simp

theorem export_tracks_songs_channels (env : Env) (fuel : Nat) (b : Browser) (j : Nat) :
    ((export_tracks env fuel b).songs.getD j default).channels
      = (b.songs.getD j default).channels := by
  unfold export_tracks
  split
  · rfl
  · rename_i idx _
    dsimp only
    split
    · rfl
    · have key : ∀ (loc : Nat),
          ((b.songs.set idx { b.songs.getD idx default with
              song := { (b.songs.getD idx default).song with location := loc } }).getD j
            default).channels = (b.songs.getD j default).channels := by
        intro loc
        simp only [List.getD_eq_getElem?_getD, List.getElem?_set]
        by_cases hij : idx = j
        · subst hij
          by_cases hlen : idx < b.songs.length
          · simp [hlen]
          · have h3 : b.songs[idx]? = none := List.getElem?_eq_none (by omega)
            simp [hlen, h3]
        · simp [hij]
      split <;> exact key _

theorem current_channels_export (env : Env) (fuel : Nat) (b : Browser) :
    current_channels { b with songs := (export_tracks env fuel b).songs } = current_channels b := by
  unfold current_channels
  cases h : b.selected_song_info with
  | none => rfl
  | some idx => exact export_tracks_songs_channels env fuel b idx

theorem set_flag_at_length (a : List Bool) (c : Int) (v : Bool) :
    (set_flag_at a c v).length = a.length := by
  unfold set_flag_at
  split
  · rfl
  · exact List.length_set _ _ _

theorem set_flag_at_getD_other (a : List Bool) (c : Int) (v : Bool) (i : Nat)
    (hne : c ≠ (i : Int)) : (set_flag_at a c v).getD i false = a.getD i false := by
  unfold set_flag_at
  split
  · rfl
  · have hnat : c.toNat ≠ i := by omega
    simp [List.getD_eq_getElem?_getD, List.getElem?_set, hnat]

theorem TrackInv_init (songs : List SongInfo) (output_dir : CString) :
    TrackInv (init songs output_dir) := by
  refine ⟨?_, Or.inl rfl, ?_⟩
  · simp [init]
  · intro h
    simp [init] at h

theorem TrackInv_step (env : Env) (fuel : Nat) (b : Browser) (ch : Int) (h : TrackInv b) :
    TrackInv (step env fuel b ch) := by
  obtain ⟨hlen, hview, htrack⟩ := h
  rcases hview with hv | hv
  · unfold step
    rw [if_pos hv]
    split_ifs
    all_goals first
      | exact ⟨hlen, Or.inl hv, fun h1 => by simp [hv] at h1⟩
      | refine ⟨by simp, Or.inr rfl, fun _ => ⟨le_refl _, Or.inl rfl, fun i _ _ => ?_⟩⟩
        exact HD24.getD_replicate_false 24 i
  · have hv0 : ¬ b.view_mode = 0 := by rw [hv]; decide
    obtain ⟨h0, hcs, hflags⟩ := htrack hv
    unfold step
    rw [if_neg hv0, if_pos hv]
    dsimp only
    split_ifs
    · refine ⟨hlen, Or.inr hv, fun _ => ⟨?_, ?_, hflags⟩⟩
      · show 0 ≤ b.current_selection - 1
        omega
      · show b.current_selection - 1 = 0 ∨ b.current_selection - 1 < (current_channels b : Int)
        omega
    · exact ⟨hlen, Or.inr hv, fun _ => ⟨h0, hcs, hflags⟩⟩
    · rename_i hlt
      have hle := castInt_le (current_channels b)
      refine ⟨hlen, Or.inr hv, fun _ => ⟨?_, ?_, hflags⟩⟩
      · show 0 ≤ b.current_selection + 1
        omega
      · show b.current_selection + 1 = 0 ∨ b.current_selection + 1 < (current_channels b : Int)
        omega
    · exact ⟨hlen, Or.inr hv, fun _ => ⟨h0, hcs, hflags⟩⟩
    · refine ⟨?_, Or.inr hv, fun _ => ⟨h0, hcs, fun i h1 hN => ?_⟩⟩
      · show (set_flag_at _ _ _).length = 24
        rw [set_flag_at_length, hlen]
      · show (set_flag_at _ _ _).getD i false = false
        rw [set_flag_at_getD_other _ _ _ _ (by
          have hN2 : (current_channels b : Int) ≤ (i : Int) := by exact_mod_cast hN
          omega)]
        exact hflags i h1 hN
    · refine ⟨?_, Or.inr hv, fun _ => ⟨h0, hcs, fun i h1 hN => ?_⟩⟩
      · show (fill_flags _ _ _ _).length = 24
        rw [fill_flags_length, hlen]
      · show (fill_flags _ _ _ _).getD i false = false
        rw [fill_flags_getD, if_neg (by
          have hN2 : current_channels b ≤ i := hN
          omega)]
        exact hflags i h1 hN
    · refine ⟨?_, Or.inr hv, fun _ => ⟨h0, hcs, fun i h1 hN => ?_⟩⟩
      · show (fill_flags _ _ _ _).length = 24
        rw [fill_flags_length, hlen]
      · show (fill_flags _ _ _ _).getD i false = false
        rw [fill_flags_getD, if_neg (by
          have hN2 : current_channels b ≤ i := hN
          omega)]
        exact hflags i h1 hN
    · refine ⟨hlen, Or.inr hv, fun _ => ?_⟩
      rw [current_channels_export]
      exact ⟨h0, hcs, hflags⟩
    · exact ⟨hlen, Or.inl rfl, fun h1 => by simp at h1⟩
    · exact ⟨hlen, Or.inr hv, fun _ => ⟨h0, hcs, hflags⟩⟩
    · exact ⟨hlen, Or.inr hv, fun _ => ⟨h0, hcs, hflags⟩⟩

theorem TrackInv_reachable (env : Env) (fuel : Nat) (songs : List SongInfo)
    (output_dir : CString) (b : Browser) (h : Reachable env fuel songs output_dir b) :
    TrackInv b := by
  induction h with
  | start => exact TrackInv_init songs output_dir
  | key b ch _ ih => exact TrackInv_step env fuel b ch ih

theorem step_select_all (env : Env) (fuel : Nat) (b : Browser) (ka : Int)
    (hv : b.view_mode = 1) (ha : ka = 97 ∨ ka = 65) :
    step env fuel b ka
      = { b with track_selected := fill_flags true (current_channels b) 0 b.track_selected } := by
  rcases ha with rfl | rfl <;> simp [step, hv, KEY_UP, KEY_DOWN]

theorem step_select_none (env : Env) (fuel : Nat) (b : Browser) (kn : Int)
    (hv : b.view_mode = 1) (hn : kn = 110 ∨ kn = 78) :
    step env fuel b kn
      = { b with track_selected := fill_flags false (current_channels b) 0 b.track_selected } := by
  rcases hn with rfl | rfl <;> simp [step, hv, KEY_UP, KEY_DOWN]

theorem select_all_none_getD (n : Nat) (a : List Bool) (i : Nat) :
    (fill_flags false n 0 (fill_flags true n 0 a)).getD i false
      = if i < n then false else a.getD i false := by
  rw [fill_flags_getD, fill_flags_length, fill_flags_getD]
  by_cases hi : i < n
  · by_cases hlen : i < a.length
    · have h1 : 0 ≤ i ∧ i < 0 + n ∧ i < a.length := by omega
      simp [h1, hi]
    · have h1 : ¬ (0 ≤ i ∧ i < 0 + n ∧ i < a.length) := by omega
      rw [if_neg h1, if_neg h1, if_pos hi]
      exact HD24.getD_false_of_length_le a i (by omega)
  · have h1 : ¬ (0 ≤ i ∧ i < 0 + n ∧ i < a.length) := by omega
    rw [if_neg h1, if_neg h1, if_neg hi]

theorem count_selected_eq_zero_iff (a : List Bool) (n : Nat) :
    count_selected a n = 0 ↔ ∀ i : Nat, i < n → a.getD i false = false := by
  unfold count_selected selected_tracks
  rw [Int.natCast_eq_zero, List.length_eq_zero, List.filter_eq_nil_iff]
  constructor
  · intro h i hi
    have := h i (List.mem_range.mpr hi)
    simpa using this
  · intro h i hi
    rw [h i (List.mem_range.mp hi)]
    exact Bool.false_ne_true

theorem export_tracks_rejected_iff (env : Env) (fuel : Nat) (b : Browser) :
    ((export_tracks env fuel b).status = Status.no_song
        ∨ (export_tracks env fuel b).status = Status.no_tracks)
      ↔ (b.selected_song_info = none
          ∨ ∀ i : Nat, i < current_channels b → b.track_selected.getD i false = false) := by
  unfold export_tracks current_channels
  cases hsel : b.selected_song_info with
  | none => exact iff_of_true (Or.inl rfl) (Or.inl rfl)
  | some idx =>
    dsimp only
    by_cases hcount : count_selected b.track_selected (b.songs.getD idx default).channels = 0
    · rw [if_pos hcount]
      exact iff_of_true (Or.inr rfl) (Or.inr ((count_selected_eq_zero_iff _ _).mp hcount))
    · rw [if_neg hcount]
      have hne : ¬ (some idx = none ∨ ∀ i : Nat, i < (b.songs.getD idx default).channels →
          b.track_selected.getD i false = false) := by
        rintro (h1 | h1)
        · cases h1
        · exact hcount ((count_selected_eq_zero_iff _ _).mpr h1)
      split
      · exact iff_of_false (by simp) hne
      · exact iff_of_false (by simp) hne

theorem export_tracks_rejected_untouched (env : Env) (fuel : Nat) (b : Browser)
    (h : (export_tracks env fuel b).status = Status.no_song
        ∨ (export_tracks env fuel b).status = Status.no_tracks) :
    ((export_tracks env fuel b).events = []
        ∨ (export_tracks env fuel b).events = [Event.show_no_tracks, Event.getch])
      ∧ (export_tracks env fuel b).songs = b.songs := by
  revert h
  unfold export_tracks
  cases hsel : b.selected_song_info with
  | none => simp
  | some idx =>
    dsimp only
    split
    · simp
    · split <;> simp

theorem export_tracks_accepted_mkdir (env : Env) (fuel : Nat) (b : Browser)
    (h : ¬ ((export_tracks env fuel b).status = Status.no_song
        ∨ (export_tracks env fuel b).status = Status.no_tracks)) :
    Event.mkdir b.export_dir ∈ (export_tracks env fuel b).events := by
  revert h
  unfold export_tracks
  cases hsel : b.selected_song_info with
  | none => simp
  | some idx =>
    dsimp only
    split
    · simp
    · split <;> simp

theorem step_op_keeps (env : Env) (fuel : Nat) (b : Browser) (op : SelectionOp)
    (hv : b.view_mode = 1) :
    (step env fuel b op.key).view_mode = 1
      ∧ (step env fuel b op.key).selected_song_info = b.selected_song_info
      ∧ (step env fuel b op.key).songs = b.songs := by
  cases op <;> simp [step, hv, SelectionOp.key, KEY_UP, KEY_DOWN]

theorem step_export_key (env : Env) (fuel : Nat) (b : Browser) (hv : b.view_mode = 1) :
    step env fuel b 101 = { b with songs := (export_tracks env fuel b).songs } := by
  simp [step, hv, KEY_UP, KEY_DOWN]

theorem apply_ops_keeps (env : Env) (fuel : Nat) (ops : List SelectionOp) (b : Browser)
    (hv : b.view_mode = 1) :
    (apply_ops env fuel b ops).view_mode = 1
      ∧ (apply_ops env fuel b ops).selected_song_info = b.selected_song_info
      ∧ (apply_ops env fuel b ops).songs = b.songs := by
  induction ops generalizing b with
  | nil => exact ⟨hv, rfl, rfl⟩
  | cons op rest ih =>
    obtain ⟨h1, h2, h3⟩ := step_op_keeps env fuel b op hv
    obtain ⟨k1, k2, k3⟩ := ih (step env fuel b op.key) h1
    refine ⟨k1, ?_, ?_⟩
    · rw [← h2, ← k2]
      rfl
    · rw [← h3, ← k3]
      rfl

theorem export_tracks_zero_channels (env : Env) (fuel : Nat) (b : Browser) (idx : Nat)
    (hsel : b.selected_song_info = some idx) (hch : (b.songs.getD idx default).channels = 0) :
    export_tracks env fuel b
      = ⟨Status.no_tracks, [Event.show_no_tracks, Event.getch], b.songs, 0⟩ := by
  have hcount : count_selected b.track_selected (b.songs.getD idx default).channels = 0 := by
    rw [hch]
    rfl
  unfold export_tracks
  rw [hsel]
  dsimp only
  rw [if_pos hcount]

theorem samples_to_read_eq (song_length samples_written : Nat)
    (hF : song_length + 1024 ≤ 4294967296) (hlt : samples_written < song_length) :
    samples_to_read song_length samples_written = min 1024 (song_length - samples_written) := by
  unfold samples_to_read add32 sub32 BUFFER_SIZE UINT32_MOD
  split <;> omega

theorem write_loop_bounded (env : Env) (audio : Nat → Nat → Nat) (song_length track : Nat)
    (hF : song_length + 1024 ≤ 4294967296) :
    ∀ (fuel samples_written location k : Nat) (byte_buffer : Nat → Nat),
      samples_written ≤ song_length →
      (song_length - samples_written + 1023) / 1024 ≤ fuel →
      (write_loop env audio song_length track fuel samples_written location k
          byte_buffer).returned = true
      ∧ samples_written ≤ (write_loop env audio song_length track fuel samples_written
          location k byte_buffer).samples_written
      ∧ (write_loop env audio song_length track fuel samples_written location k
          byte_buffer).samples_written ≤ song_length := by
  intro fuel
  induction fuel with
  | zero =>
    intro sw loc k buf hsw hfuel
    have hnot : ¬ sw < song_length := by omega
    simp [write_loop, hnot, hsw]
  | succ f ih =>
    intro sw loc k buf hsw hfuel
    rw [write_loop]
    by_cases hlt : sw < song_length
    · rw [if_pos hlt]
      dsimp only
      have hn := samples_to_read_eq song_length sw hF hlt
      by_cases hw : env.sf_write_raw track k
          ≠ ((mul32 (samples_to_read song_length sw) 3 : Nat) : Int)
      · rw [if_pos hw]
        exact ⟨rfl, le_refl _, hsw⟩
      · rw [if_neg hw]
        have hadd : add32 sw (samples_to_read song_length sw)
            = sw + samples_to_read song_length sw := by
          apply add32_small
          rw [hn]
          omega
        rw [hadd]
        have hrec := ih (sw + samples_to_read song_length sw)
          (read_samples audio track (samples_to_read song_length sw) 0 loc buf).location (k + 1)
          (read_samples audio track (samples_to_read song_length sw) 0 loc buf).byte_buffer
          (by rw [hn]; omega) (by rw [hn]; omega)
        have h1 := hrec.2.1
        dsimp only
        exact ⟨hrec.1, by omega, hrec.2.2⟩
    · rw [if_neg hlt]
      exact ⟨rfl, le_refl _, hsw⟩

theorem write_loop_first_chunk (env : Env) (audio : Nat → Nat → Nat) (song_length track : Nat)
    (hF : song_length + 1024 ≤ 4294967296) (fuel location : Nat) (byte_buffer : Nat → Nat)
    (hfuel : song_length / 1024 < fuel) :
    (0 < (write_loop env audio song_length track fuel 0 location 0 byte_buffer).samples_written
      ↔ (0 < song_length
          ∧ env.sf_write_raw track 0 = (((3 * min 1024 song_length : Nat) : Nat) : Int))) := by
  obtain ⟨f, rfl⟩ : ∃ f, fuel = f + 1 := ⟨fuel - 1, by omega⟩
  rw [write_loop]
  by_cases hlt : 0 < song_length
  · rw [if_pos hlt]
    dsimp only
    have hn := samples_to_read_eq song_length 0 hF hlt
    have hmul : mul32 (samples_to_read song_length 0) 3 = 3 * min 1024 song_length := by
      rw [mul32_small _ _ (by rw [hn]; omega), hn]
      omega
    rw [hmul]
    by_cases hw : env.sf_write_raw track 0 ≠ ((3 * min 1024 song_length : Nat) : Int)
    · rw [if_pos hw]
      constructor
      · intro h
        exact absurd h (lt_irrefl 0)
      · intro h
        exact absurd h.2 hw
    · rw [if_neg hw]
      have hadd : add32 0 (samples_to_read song_length 0) = 0 + samples_to_read song_length 0 := by
        apply add32_small
        rw [hn]
        omega
      rw [hadd]
      have hrec := write_loop_bounded env audio song_length track hF f
        (0 + samples_to_read song_length 0)
        (read_samples audio track (samples_to_read song_length 0) 0 location
          byte_buffer).location (0 + 1)
        (read_samples audio track (samples_to_read song_length 0) 0 location
          byte_buffer).byte_buffer
        (by rw [hn]; omega) (by rw [hn]; omega)
      constructor
      · intro _
        exact ⟨hlt, not_not.mp hw⟩
      · intro _
        have h1 := hrec.2.1
        have h2 : 0 < samples_to_read song_length 0 := by rw [hn]; omega
        dsimp only
        omega
  · rw [if_neg hlt]
    constructor
    · intro h
      exact absurd h (lt_irrefl 0)
    · intro h
      exact absurd h.1 hlt

theorem samples_to_read_max_length (samples_written : Nat) :
    samples_to_read 4294967295 samples_written = 1024 := by
  unfold samples_to_read add32 BUFFER_SIZE UINT32_MOD
  have h : ¬ ((samples_written + 1024) % 4294967296 > 4294967295) := by omega
  rw [if_neg h]

theorem write_loop_never_returns (env : Env) (audio : Nat → Nat → Nat) (track : Nat)
    (hw : ∀ k : Nat, env.sf_write_raw track k = 3072) :
    ∀ (fuel samples_written location k : Nat) (byte_buffer : Nat → Nat),
      samples_written % 1024 = 0 → samples_written < 4294967296 →
      (write_loop env audio 4294967295 track fuel samples_written location k
          byte_buffer).returned = false := by
  intro fuel
  induction fuel with
  | zero =>
    intro sw loc k buf hmod hlt
    have h : sw < 4294967295 := by omega
    simp [write_loop, h]
  | succ f ih =>
    intro sw loc k buf hmod hlt
    have h : sw < 4294967295 := by omega
    have hmul : mul32 1024 3 = 3072 := by decide
    have hsame : ¬ (env.sf_write_raw track k ≠ ((3072 : Nat) : Int)) := by
      rw [hw k]
      exact fun h1 => h1 rfl
    rw [write_loop, if_pos h]
    dsimp only
    rw [samples_to_read_max_length, hmul, if_neg hsame]
    dsimp only
    apply ih
    · unfold add32 UINT32_MOD
      omega
    · unfold add32 UINT32_MOD
      omega

theorem read_samples_no_write (audio : Nat → Nat → Nat) (track : Nat) :
    ∀ (n s location : Nat) (byte_buffer : Nat → Nat),
      written_bytes (read_samples audio track n s location byte_buffer).events = 0 := by
  intro n
  induction n with
  | zero =>
    intro s loc buf
    rfl
  | succ m ih =>
    intro s loc buf
    rw [read_samples]
    dsimp only
    rw [written_bytes]
    · exact ih _ _ _
    · intro t bytes w h
      exact Event.noConfusion h

theorem write_loop_never_returns_bytes (env : Env) (audio : Nat → Nat → Nat) (track : Nat)
    (hw : ∀ k : Nat, env.sf_write_raw track k = 3072) :
    ∀ (fuel samples_written location k : Nat) (byte_buffer : Nat → Nat),
      samples_written % 1024 = 0 → samples_written < 4294967296 →
      written_bytes (write_loop env audio 4294967295 track fuel samples_written location k
          byte_buffer).events = 3072 * fuel := by
  intro fuel
  induction fuel with
  | zero =>
    intro sw loc k buf hmod hlt
    rfl
  | succ f ih =>
    intro sw loc k buf hmod hlt
    have h : sw < 4294967295 := by omega
    have hmul : mul32 1024 3 = 3072 := by decide
    have hsame : ¬ (env.sf_write_raw track k ≠ ((3072 : Nat) : Int)) := by
      rw [hw k]
      exact fun h1 => h1 rfl
    rw [write_loop, if_pos h]
    dsimp only
    rw [samples_to_read_max_length, hmul, if_neg hsame]
    dsimp only
    have hrec := ih (add32 sw 1024) (read_samples audio track 1024 0 loc buf).location (k + 1)
      (read_samples audio track 1024 0 loc buf).byte_buffer
      (by unfold add32 UINT32_MOD; omega) (by unfold add32 UINT32_MOD; omega)
    rw [written_bytes_append, written_bytes_append, read_samples_no_write]
    simp only [written_bytes, peek_length]
    rw [hrec]
    omega

theorem read_samples_location (audio : Nat → Nat → Nat) (track : Nat) :
    ∀ (n s location : Nat) (byte_buffer : Nat → Nat),
      (read_samples audio track n s location byte_buffer).location = location + n := by
  intro n
  induction n with
  | zero =>
    intro s loc buf
    rfl
  | succ m ih =>
    intro s loc buf
    rw [read_samples]
    dsimp only
    rw [ih]
    simp only [getmultitracksample]
    omega

theorem write_loop_complete (env : Env) (audio : Nat → Nat → Nat) (song_length track : Nat)
    (hF : song_length + 1024 ≤ 4294967296)
    (hok : ∀ k : Nat, k * 1024 < song_length →
      env.sf_write_raw track k = ((3 * min 1024 (song_length - k * 1024) : Nat) : Int)) :
    ∀ (fuel samples_written location k : Nat) (byte_buffer : Nat → Nat),
      samples_written ≤ song_length →
      (samples_written = k * 1024 ∨ samples_written = song_length) →
      (song_length - samples_written + 1023) / 1024 ≤ fuel →
      (write_loop env audio song_length track fuel samples_written location k
          byte_buffer).returned = true
      ∧ (write_loop env audio song_length track fuel samples_written location k
          byte_buffer).samples_written = song_length
      ∧ (write_loop env audio song_length track fuel samples_written location k
          byte_buffer).location = location + (song_length - samples_written)
      ∧ written_bytes (write_loop env audio song_length track fuel samples_written location k
          byte_buffer).events = 3 * (song_length - samples_written) := by
  intro fuel
  induction fuel with
  | zero =>
    intro sw loc k buf hsw _ hfuel
    have heq : sw = song_length := by omega
    have hnot : ¬ sw < song_length := by omega
    subst heq
    simp [write_loop, written_bytes]
  | succ f ih =>
    intro sw loc k buf hsw hk hfuel
    rw [write_loop]
    by_cases hlt : sw < song_length
    · have hsw_k : sw = k * 1024 := by
        rcases hk with h | h
        · exact h
        · omega
      rw [if_pos hlt]
      dsimp only
      have hn := samples_to_read_eq song_length sw hF hlt
      have hmul : mul32 (samples_to_read song_length sw) 3
          = 3 * min 1024 (song_length - sw) := by
        rw [mul32_small _ _ (by rw [hn]; omega), hn]
        omega
      have hwrite := hok k (by omega)
      rw [← hsw_k] at hwrite
      have hsame : ¬ (env.sf_write_raw track k
          ≠ ((mul32 (samples_to_read song_length sw) 3 : Nat) : Int)) := by
        rw [hmul, hwrite]
        exact fun h1 => h1 rfl
      rw [if_neg hsame]
      have hadd : add32 sw (samples_to_read song_length sw)
          = sw + samples_to_read song_length sw := by
        apply add32_small
        rw [hn]
        omega
      rw [hadd]
      have hrec := ih (sw + samples_to_read song_length sw)
        (read_samples audio track (samples_to_read song_length sw) 0 loc buf).location (k + 1)
        (read_samples audio track (samples_to_read song_length sw) 0 loc buf).byte_buffer
        (by rw [hn]; omega) (by rw [hn]; omega) (by rw [hn]; omega)
      obtain ⟨h1, h2, h3, h4⟩ := hrec
      dsimp only
      refine ⟨h1, h2, ?_, ?_⟩
      · rw [h3, read_samples_location, hn]
        omega
      · rw [written_bytes_append, written_bytes_append, read_samples_no_write]
        simp only [written_bytes, peek_length]
        rw [h4, hmul, hn]
        omega
    · rw [if_neg hlt]
      have heq : sw = song_length := by omega
      subst heq
      simp [written_bytes]

theorem track_loop_total (env : Env) (fuel : Nat) (audio : Nat → Nat → Nat)
    (export_dir song_name : CString) (track_selected : List Bool)
    (sample_rate song_length : Nat) (selected_count : Int)
    (hF : song_length + 1024 ≤ 4294967296) (hfuel : song_length / 1024 < fuel) :
    ∀ (n track : Nat) (track_num total_bytes : Int) (location : Nat) (byte_buffer : Nat → Nat),
      0 ≤ total_bytes →
      (track_loop env fuel audio export_dir song_name track_selected sample_rate song_length
          selected_count n track track_num total_bytes location byte_buffer).returned = true
      ∧ 0 ≤ (track_loop env fuel audio export_dir song_name track_selected sample_rate
          song_length selected_count n track track_num total_bytes location
          byte_buffer).total_bytes
      ∧ (0 < (track_loop env fuel audio export_dir song_name track_selected sample_rate
          song_length selected_count n track track_num total_bytes location
          byte_buffer).total_bytes
        ↔ (0 < total_bytes ∨ ∃ t : Nat, track ≤ t ∧ t < track + n
            ∧ track_selected.getD t false = true ∧ env.sf_open t = true ∧ 0 < song_length
            ∧ env.sf_write_raw t 0 = ((3 * min 1024 song_length : Nat) : Int))) := by
  intro n
  induction n with
  | zero =>
    intro track tn total loc buf htot
    refine ⟨rfl, htot, ?_⟩
    constructor
    · intro h
      exact Or.inl h
    · rintro (h | ⟨t, h1, h2, _⟩)
      · exact h
      · omega
  | succ m ih =>
    intro track tn total loc buf htot
    rw [track_loop]
    by_cases hsel : track_selected.getD track false = true
    · have hsel1 : ¬ ((!(track_selected.getD track false)) = true) := bnot_ne_true _ hsel
      rw [if_neg hsel1]
      dsimp only
      by_cases hopen : env.sf_open track = true
      · have hopen1 : ¬ ((!(env.sf_open track)) = true) := bnot_ne_true _ hopen
        rw [if_neg hopen1]
        obtain ⟨hret, _, hle⟩ := write_loop_bounded env audio song_length track hF fuel 0 0 0
          buf (Nat.zero_le _) (by omega)
        have hfirst := write_loop_first_chunk env audio song_length track hF fuel 0 buf
          hfuel
        have hret1 : ¬ ((!(write_loop env audio song_length track fuel 0 0 0
            buf).returned) = true) := bnot_ne_true _ hret
        rw [if_neg hret1]
        dsimp only
        have hpos := mul32_three_pos (write_loop env audio song_length track fuel 0 0 0
          buf).samples_written (by omega)
        have hrec := ih (track + 1) (tn + 1)
          (total + ((mul32 (write_loop env audio song_length track fuel 0 0 0
            buf).samples_written 3 : Nat) : Int))
          (write_loop env audio song_length track fuel 0 0 0 buf).location
          (write_loop env audio song_length track fuel 0 0 0 buf).byte_buffer
          (by omega)
        refine ⟨hrec.1, hrec.2.1, ?_⟩
        rw [hrec.2.2]
        constructor
        · rintro (h | ⟨t, h1, h2, h3⟩)
          · by_cases h0 : 0 < total
            · exact Or.inl h0
            · have hsw : 0 < (write_loop env audio song_length track fuel 0 0 0
                  buf).samples_written := by
                rw [← hpos]
                omega
              have hf := hfirst.mp hsw
              exact Or.inr ⟨track, le_refl _, by omega, hsel, hopen, hf.1, hf.2⟩
          · exact Or.inr ⟨t, by omega, by omega, h3⟩
        · rintro (h | ⟨t, h1, h2, h3, h4, h5, h6⟩)
          · exact Or.inl (by omega)
          · by_cases ht : t = track
            · subst ht
              have hsw := hfirst.mpr ⟨h5, h6⟩
              have := hpos.mpr hsw
              exact Or.inl (by omega)
            · exact Or.inr ⟨t, by omega, by omega, h3, h4, h5, h6⟩
      · have hopen1 : (!(env.sf_open track)) = true := bnot_eq_true_of _ hopen
        rw [if_pos hopen1]
        dsimp only
        have hrec := ih (track + 1) (tn + 1) total loc buf htot
        refine ⟨hrec.1, hrec.2.1, ?_⟩
        rw [hrec.2.2]
        constructor
        · rintro (h | ⟨t, h1, h2, h3⟩)
          · exact Or.inl h
          · exact Or.inr ⟨t, by omega, by omega, h3⟩
        · rintro (h | ⟨t, h1, h2, h3, h4, h5⟩)
          · exact Or.inl h
          · have ht : t ≠ track := by
              rintro rfl
              exact hopen h4
            exact Or.inr ⟨t, by omega, by omega, h3, h4, h5⟩
    · have hsel1 : (!(track_selected.getD track false)) = true := bnot_eq_true_of _ hsel
      rw [if_pos hsel1]
      have hrec := ih (track + 1) tn total loc buf htot
      refine ⟨hrec.1, hrec.2.1, ?_⟩
      rw [hrec.2.2]
      constructor
      · rintro (h | ⟨t, h1, h2, h3⟩)
        · exact Or.inl h
        · exact Or.inr ⟨t, by omega, by omega, h3⟩
      · rintro (h | ⟨t, h1, h2, h3, h4⟩)
        · exact Or.inl h
        · have ht : t ≠ track := by
            rintro rfl
            exact hsel h3
          exact Or.inr ⟨t, by omega, by omega, h3, h4⟩

theorem mem_selected_tracks (a : List Bool) (n t : Nat) :
    t ∈ selected_tracks a n ↔ t < n ∧ a.getD t false = true := by
  unfold selected_tracks
  rw [List.mem_filter, List.mem_range]

theorem export_tracks_verdict (env : Env) (fuel : Nat) (b : Browser) (idx : Nat)
    (hsel : b.selected_song_info = some idx)
    (hcount : count_selected b.track_selected (b.songs.getD idx default).channels ≠ 0)
    (hF : u32 (b.songs.getD idx default).song.songlength_in_wamples + 1024 ≤ 4294967296)
    (hfuel : u32 (b.songs.getD idx default).song.songlength_in_wamples / 1024 < fuel) :
    (export_tracks env fuel b).status = Status.finished
    ∧ ∃ (pre : List Event) (verdict : Event),
        (export_tracks env fuel b).events = pre ++ [verdict, Event.getch]
        ∧ ((verdict = Event.show_completed
              ∧ ∃ t : Nat, t ∈ selected_tracks b.track_selected
                    (b.songs.getD idx default).channels
                  ∧ env.sf_open t = true
                  ∧ 0 < u32 (b.songs.getD idx default).song.songlength_in_wamples
                  ∧ env.sf_write_raw t 0 = ((3 * min 1024
                      (u32 (b.songs.getD idx default).song.songlength_in_wamples) : Nat) : Int))
          ∨ (verdict = Event.show_failed
              ∧ ¬ ∃ t : Nat, t ∈ selected_tracks b.track_selected
                    (b.songs.getD idx default).channels
                  ∧ env.sf_open t = true
                  ∧ 0 < u32 (b.songs.getD idx default).song.songlength_in_wamples
                  ∧ env.sf_write_raw t 0 = ((3 * min 1024
                      (u32 (b.songs.getD idx default).song.songlength_in_wamples) : Nat)
                        : Int))) := by
  obtain ⟨hret, _, hiff⟩ := track_loop_total env fuel (b.songs.getD idx default).song.audio
    b.export_dir (b.songs.getD idx default).song_name b.track_selected
    (u32 (b.songs.getD idx default).song.samplerate)
    (u32 (b.songs.getD idx default).song.songlength_in_wamples)
    (count_selected b.track_selected (b.songs.getD idx default).channels) hF hfuel
    (b.songs.getD idx default).channels 0 0 0 (b.songs.getD idx default).song.location
    env.fresh (le_refl _)
  have hret1 := bnot_ne_true _ hret
  unfold export_tracks
  rw [hsel]
  dsimp only
  rw [if_neg hcount, if_neg hret1]
  refine ⟨rfl, _, _, rfl, ?_⟩
  by_cases hpos : (track_loop env fuel (b.songs.getD idx default).song.audio
    b.export_dir (b.songs.getD idx default).song_name b.track_selected
    (u32 (b.songs.getD idx default).song.samplerate)
    (u32 (b.songs.getD idx default).song.songlength_in_wamples)
    (count_selected b.track_selected (b.songs.getD idx default).channels)
    (b.songs.getD idx default).channels 0 0 0 (b.songs.getD idx default).song.location
    env.fresh).total_bytes > 0
  · rw [if_pos hpos]
    refine Or.inl ⟨rfl, ?_⟩
    rcases hiff.mp hpos with h | ⟨t, _, h2, h3, h4⟩
    · exact absurd h (lt_irrefl 0)
    · exact ⟨t, (mem_selected_tracks _ _ _).mpr ⟨by omega, h3⟩, h4⟩
  · rw [if_neg hpos]
    refine Or.inr ⟨rfl, ?_⟩
    rintro ⟨t, hmem, h4⟩
    obtain ⟨h1, h3⟩ := (mem_selected_tracks _ _ _).mp hmem
    exact hpos (hiff.mpr (Or.inr ⟨t, Nat.zero_le _, by omega, h3, h4⟩))

theorem track_loop_hangs (env : Env) (fuel : Nat) (audio : Nat → Nat → Nat)
    (export_dir song_name : CString) (track_selected : List Bool) (sample_rate : Nat)
    (selected_count : Int) (n track : Nat) (track_num total_bytes : Int) (location : Nat)
    (byte_buffer : Nat → Nat) (hsel : track_selected.getD track false = true)
    (hopen : env.sf_open track = true) (hw : ∀ k : Nat, env.sf_write_raw track k = 3072) :
    (track_loop env fuel audio export_dir song_name track_selected sample_rate 4294967295
        selected_count (n + 1) track track_num total_bytes location byte_buffer).returned
      = false := by
  have hloop := write_loop_never_returns env audio track hw fuel 0 0 0 byte_buffer rfl
    (by decide)
  rw [track_loop, if_neg (HD24.bnot_ne_true _ hsel)]
  dsimp only
  rw [if_neg (HD24.bnot_ne_true _ hopen), hloop]
  rfl

theorem export_tracks_hangs (env : Env) (fuel : Nat) (b : Browser) (idx n : Nat)
    (hsel : b.selected_song_info = some idx)
    (hch : (b.songs.getD idx default).channels = n + 1)
    (hlen : u32 (b.songs.getD idx default).song.songlength_in_wamples = 4294967295)
    (hflag : b.track_selected.getD 0 false = true) (hopen : env.sf_open 0 = true)
    (hw : ∀ k : Nat, env.sf_write_raw 0 k = 3072) :
    (export_tracks env fuel b).status = Status.out_of_fuel := by
  have hcount : count_selected b.track_selected (b.songs.getD idx default).channels ≠ 0 := by
    intro h0
    have := (count_selected_eq_zero_iff _ _).mp h0 0 (by omega)
    rw [hflag] at this
    exact Bool.noConfusion this
  unfold export_tracks
  rw [hsel]
  dsimp only
  rw [if_neg hcount, hlen, hch,
    track_loop_hangs env fuel _ _ _ _ _ _ n 0 0 0 _ _ hflag hopen hw]
  rfl

theorem export_tracks_songs_same (env : Env) (fuel : Nat) (b : Browser) (j : Nat) :
    ∃ loc : Nat, (export_tracks env fuel b).songs.getD j default
      = { b.songs.getD j default with
          song := { (b.songs.getD j default).song with location := loc } } := by
  unfold export_tracks
  split
  · exact ⟨_, rfl⟩
  · rename_i idx _
    dsimp only
    split
    · exact ⟨_, rfl⟩
    · have key : ∀ (loc : Nat), ∃ loc2 : Nat,
          (b.songs.set idx { b.songs.getD idx default with
              song := { (b.songs.getD idx default).song with location := loc } }).getD j default
            = { b.songs.getD j default with
                song := { (b.songs.getD j default).song with location := loc2 } } := by
        intro loc
        by_cases hij : idx = j
        · subst hij
          by_cases hlen : idx < b.songs.length
          · refine ⟨loc, ?_⟩
            simp only [List.getD_eq_getElem?_getD, List.getElem?_set]
            simp [hlen]
          · refine ⟨(b.songs.getD idx default).song.location, ?_⟩
            rw [List.set_eq_of_length_le (by omega)]
        · refine ⟨(b.songs.getD j default).song.location, ?_⟩
          simp only [List.getD_eq_getElem?_getD, List.getElem?_set, if_neg hij]
      split <;> exact key _

theorem castInt_small (x : Nat) (h : x ≤ 24) : castInt x = (x : Int) := by
  unfold castInt UINT32_MOD
  have h1 : x % 4294967296 = x := Nat.mod_eq_of_lt (by omega)
  rw [h1, if_pos (by omega)]

theorem CursorInv_init (songs : List SongInfo) (output_dir : CString) (hne : songs ≠ [])
    (hch : ∀ s ∈ songs, s.channels ≤ 24) :
    CursorInv songs.length (init songs output_dir) := by
  refine ⟨rfl, ?_, by simp [init], Or.inl ⟨rfl, le_refl _, ?_⟩⟩
  · intro j
    show (songs.getD j default).channels ≤ 24
    rw [List.getD_eq_getElem?_getD]
    by_cases hj : j < songs.length
    · rw [List.getElem?_eq_getElem hj]
      exact hch _ (List.getElem_mem hj)
    · rw [List.getElem?_eq_none (by omega)]
      exact Nat.zero_le _
  · show (0 : Int) < (songs.length : Int)
    have := List.length_pos.mpr hne
    omega

theorem CursorInv_step (env : Env) (fuel : Nat) (n : Nat) (b : Browser) (ch : Int)
    (h : CursorInv n b) : CursorInv n (step env fuel b ch) := by
  obtain ⟨hlen, hchan, hflags, hview⟩ := h
  rcases hview with ⟨hv, h0, hlt⟩ | ⟨hv, h0, ⟨idx, hsel, hidx⟩, hcs⟩
  · unfold step
    rw [if_pos hv]
    split_ifs
    · exact ⟨hlen, hchan, hflags, Or.inl ⟨hv, by show 0 ≤ b.current_selection - 1; omega,
        by show b.current_selection - 1 < (n : Int); omega⟩⟩
    · exact ⟨hlen, hchan, hflags, Or.inl ⟨hv, h0, hlt⟩⟩
    · exact ⟨hlen, hchan, hflags, Or.inl ⟨hv, by show 0 ≤ b.current_selection + 1; omega, by
        rename_i hdown
        rw [hlen] at hdown
        show b.current_selection + 1 < (n : Int)
        omega⟩⟩
    · exact ⟨hlen, hchan, hflags, Or.inl ⟨hv, h0, hlt⟩⟩
    · refine ⟨hlen, hchan, by simp, Or.inr ⟨rfl, le_refl _, ⟨b.current_selection.toNat, rfl, ?_⟩,
        Or.inl rfl⟩⟩
      omega
    · exact ⟨hlen, hchan, hflags, Or.inl ⟨hv, h0, hlt⟩⟩
    · exact ⟨hlen, hchan, hflags, Or.inl ⟨hv, h0, hlt⟩⟩
  · have hv0 : ¬ b.view_mode = 0 := by rw [hv]; decide
    have hsame : ∀ x : Browser, x.songs = b.songs → x.selected_song_info = b.selected_song_info →
        current_channels x = current_channels b := by
      intro x h1 h2
      unfold current_channels
      rw [h1, h2]
    unfold step
    rw [if_neg hv0, if_pos hv]
    dsimp only
    split_ifs
    · exact ⟨hlen, hchan, hflags, Or.inr ⟨hv, by show 0 ≤ b.current_selection - 1; omega,
        ⟨idx, hsel, hidx⟩, by
          show b.current_selection - 1 = 0 ∨ b.current_selection - 1 < (current_channels b : Int)
          omega⟩⟩
    · exact ⟨hlen, hchan, hflags, Or.inr ⟨hv, h0, ⟨idx, hsel, hidx⟩, hcs⟩⟩
    · rename_i hdown
      have hle := castInt_le (current_channels b)
      exact ⟨hlen, hchan, hflags, Or.inr ⟨hv, by show 0 ≤ b.current_selection + 1; omega,
        ⟨idx, hsel, hidx⟩, by
          show b.current_selection + 1 = 0 ∨ b.current_selection + 1 < (current_channels b : Int)
          omega⟩⟩
    · exact ⟨hlen, hchan, hflags, Or.inr ⟨hv, h0, ⟨idx, hsel, hidx⟩, hcs⟩⟩
    · exact ⟨hlen, hchan, by show (set_flag_at _ _ _).length = 24; rw [set_flag_at_length, hflags],
        Or.inr ⟨hv, h0, ⟨idx, hsel, hidx⟩, hcs⟩⟩
    · exact ⟨hlen, hchan, by show (fill_flags _ _ _ _).length = 24; rw [fill_flags_length, hflags],
        Or.inr ⟨hv, h0, ⟨idx, hsel, hidx⟩, hcs⟩⟩
    · exact ⟨hlen, hchan, by show (fill_flags _ _ _ _).length = 24; rw [fill_flags_length, hflags],
        Or.inr ⟨hv, h0, ⟨idx, hsel, hidx⟩, hcs⟩⟩
    · refine ⟨?_, ?_, hflags, Or.inr ⟨hv, h0, ⟨idx, hsel, hidx⟩, ?_⟩⟩
      · show (export_tracks env fuel b).songs.length = n
        rw [export_tracks_songs_length, hlen]
      · intro j
        show ((export_tracks env fuel b).songs.getD j default).channels ≤ 24
        rw [export_tracks_songs_channels]
        exact hchan j
      · rw [current_channels_export]
        exact hcs
    · refine ⟨hlen, hchan, hflags, Or.inl ⟨rfl, le_refl _, ?_⟩⟩
      show (0 : Int) < (n : Int)
      omega
    · exact ⟨hlen, hchan, hflags, Or.inr ⟨hv, h0, ⟨idx, hsel, hidx⟩, hcs⟩⟩
    · exact ⟨hlen, hchan, hflags, Or.inr ⟨hv, h0, ⟨idx, hsel, hidx⟩, hcs⟩⟩

theorem CursorInv_reachable (env : Env) (fuel : Nat) (songs : List SongInfo)
    (output_dir : CString) (hne : songs ≠ []) (hch : ∀ s ∈ songs, s.channels ≤ 24)
    (b : Browser) (h : Reachable env fuel songs output_dir b) :
    CursorInv songs.length b := by
  induction h with
  | start => exact CursorInv_init songs output_dir hne hch
  | key b ch _ ih => exact CursorInv_step env fuel songs.length b ch ih

theorem step_export_keys (env : Env) (fuel : Nat) (b : Browser) :
    (step env fuel b 101 = { b with songs := (export_tracks env fuel b).songs }
        ∧ b.view_mode = 1
      ∨ step env fuel b 101 = b ∧ b.view_mode ≠ 1)
    ∧ step env fuel b 69 = step env fuel b 101 := by
  by_cases hv : b.view_mode = 1
  · refine ⟨Or.inl ⟨step_export_key env fuel b hv, hv⟩, ?_⟩
    simp [step, hv, KEY_UP, KEY_DOWN]
  · by_cases hv0 : b.view_mode = 0
    · refine ⟨Or.inr ⟨?_, hv⟩, ?_⟩ <;> simp [step, hv0, KEY_UP, KEY_DOWN, KEY_ENTER]
    · refine ⟨Or.inr ⟨?_, hv⟩, ?_⟩ <;> simp [step, hv0, hv]

theorem samples_to_read_bounds (song_length samples_written : Nat)
    (hlt : samples_written < song_length) :
    1 ≤ samples_to_read song_length samples_written
      ∧ samples_to_read song_length samples_written ≤ 1024 := by
  unfold samples_to_read add32 sub32 BUFFER_SIZE UINT32_MOD
  split <;> omega

theorem read_samples_bounded (audio : Nat → Nat → Nat) (track : Nat) :
    ∀ (n s location : Nat) (byte_buffer : Nat → Nat),
      ∀ e ∈ (read_samples audio track n s location byte_buffer).events, chunk_bounded e := by
  intro n
  induction n with
  | zero =>
    intro s loc buf e he
    simp [read_samples] at he
  | succ m ih =>
    intro s loc buf e he
    rw [read_samples] at he
    dsimp only at he
    rcases List.mem_cons.mp he with h | h
    · rw [h]
      trivial
    · exact ih _ _ _ e h

theorem write_loop_chunks_bounded (env : Env) (audio : Nat → Nat → Nat)
    (song_length track : Nat) :
    ∀ (fuel samples_written location k : Nat) (byte_buffer : Nat → Nat),
      ∀ e ∈ (write_loop env audio song_length track fuel samples_written location k
          byte_buffer).events, chunk_bounded e := by
  intro fuel
  induction fuel with
  | zero =>
    intro sw loc k buf e he
    simp [write_loop] at he
  | succ f ih =>
    intro sw loc k buf e he
    rw [write_loop] at he
    by_cases hlt : sw < song_length
    · rw [if_pos hlt] at he
      dsimp only at he
      obtain ⟨h1, h2⟩ := samples_to_read_bounds song_length sw hlt
      have hmul : mul32 (samples_to_read song_length sw) 3
          = samples_to_read song_length sw * 3 := mul32_small _ _ (by omega)
      have hwrite : chunk_bounded (Event.sf_write_raw track
          (peek (read_samples audio track (samples_to_read song_length sw) 0 loc
            buf).byte_buffer (mul32 (samples_to_read song_length sw) 3))
          (env.sf_write_raw track k)) := by
        show 3 ≤ (peek _ _).length ∧ (peek _ _).length ≤ BUFFER_SIZE * 3
        rw [peek_length, hmul]
        unfold BUFFER_SIZE
        omega
      by_cases hw : env.sf_write_raw track k
          ≠ ((mul32 (samples_to_read song_length sw) 3 : Nat) : Int)
      · rw [if_pos hw] at he
        dsimp only at he
        rcases List.mem_append.mp he with h | h
        · exact read_samples_bounded _ _ _ _ _ _ e h
        · rw [List.mem_singleton.mp h]
          exact hwrite
      · rw [if_neg hw] at he
        dsimp only at he
        rcases List.mem_append.mp he with h | h
        · rcases List.mem_append.mp h with h' | h'
          · exact read_samples_bounded _ _ _ _ _ _ e h'
          · rw [List.mem_singleton.mp h']
            exact hwrite
        · rcases List.mem_cons.mp h with h' | h'
          · rw [h']
            trivial
          · exact ih _ _ _ _ e h'
    · rw [if_neg hlt] at he
      simp at he

theorem track_loop_chunks_bounded (env : Env) (fuel : Nat) (audio : Nat → Nat → Nat)
    (export_dir song_name : CString) (track_selected : List Bool)
    (sample_rate song_length : Nat) (selected_count : Int) :
    ∀ (n track : Nat) (track_num total_bytes : Int) (location : Nat) (byte_buffer : Nat → Nat),
      ∀ e ∈ (track_loop env fuel audio export_dir song_name track_selected sample_rate
          song_length selected_count n track track_num total_bytes location byte_buffer).events,
        chunk_bounded e := by
  intro n
  induction n with
  | zero =>
    intro track tn total loc buf e he
    simp [track_loop] at he
  | succ m ih =>
    intro track tn total loc buf e he
    rw [track_loop] at he
    split at he
    · exact ih _ _ _ _ _ e he
    · dsimp only at he
      split at he
      · dsimp only at he
        rcases List.mem_append.mp he with h | h
        · simp only [List.mem_cons, List.mem_singleton, List.not_mem_nil, or_false] at h
          rcases h with h | h <;> (rw [h]; trivial)
        · rcases List.mem_cons.mp h with h' | h'
          · rw [h']
            trivial
          · exact ih _ _ _ _ _ e h'
      · split at he
        · dsimp only at he
          rcases List.mem_append.mp he with h | h
          · simp only [List.mem_cons, List.mem_singleton, List.not_mem_nil, or_false] at h
            rcases h with h | h <;> (rw [h]; trivial)
          · rcases List.mem_cons.mp h with h' | h'
            · rw [h']
              trivial
            · exact write_loop_chunks_bounded _ _ _ _ _ _ _ _ _ e h'
        · dsimp only at he
          rcases List.mem_append.mp he with h | h
          · simp only [List.mem_cons, List.mem_singleton, List.not_mem_nil, or_false] at h
            rcases h with h | h <;> (rw [h]; trivial)
          · rcases List.mem_cons.mp h with h' | h'
            · rw [h']
              trivial
            · rcases List.mem_append.mp h' with h2 | h2
              · exact write_loop_chunks_bounded _ _ _ _ _ _ _ _ _ e h2
              · rcases List.mem_cons.mp h2 with h3 | h3
                · rw [h3]
                  trivial
                · exact ih _ _ _ _ _ e h3

theorem export_tracks_chunks_bounded (env : Env) (fuel : Nat) (b : Browser) :
    ∀ e ∈ (export_tracks env fuel b).events, chunk_bounded e := by
  intro e he
  unfold export_tracks at he
  split at he
  · simp at he
  · dsimp only at he
    split at he
    · simp only [List.mem_cons, List.mem_singleton, List.not_mem_nil, or_false] at he
      rcases he with h | h <;> (rw [h]; trivial)
    · split at he
      · dsimp only at he
        rcases List.mem_append.mp he with h | h
        · simp only [List.mem_cons, List.mem_singleton, List.not_mem_nil, or_false] at h
          rcases h with h | h <;> (rw [h]; trivial)
        · exact track_loop_chunks_bounded _ _ _ _ _ _ _ _ _ _ _ _ _ _ _ e h
      · dsimp only at he
        rcases List.mem_append.mp he with h | h
        · rcases List.mem_append.mp h with h' | h'
          · simp only [List.mem_cons, List.mem_singleton, List.not_mem_nil, or_false] at h'
            rcases h' with h' | h' <;> (rw [h']; trivial)
          · exact track_loop_chunks_bounded _ _ _ _ _ _ _ _ _ _ _ _ _ _ _ e h'
        · simp only [List.mem_cons, List.mem_singleton, List.not_mem_nil, or_false] at h
          rcases h with h | h
          · rw [h]
            split <;> trivial
          · rw [h]
            trivial

theorem read_samples_write_count (audio : Nat → Nat → Nat) (track : Nat) :
    ∀ (n s location : Nat) (byte_buffer : Nat → Nat),
      write_count (read_samples audio track n s location byte_buffer).events = 0 := by
  intro n
  induction n with
  | zero =>
    intro s loc buf
    rfl
  | succ m ih =>
    intro s loc buf
    rw [read_samples]
    dsimp only
    rw [write_count]
    · exact ih _ _ _
    · intro t bytes w h
      exact Event.noConfusion h

theorem samples_to_read_wrap (song_length samples_written : Nat)
    (hF1 : 4294966272 < song_length) (hF2 : song_length < 4294967296)
    (hmod : samples_written % 1024 = 0) (_hsw : samples_written < 4294967296) :
    samples_to_read song_length samples_written = 1024 := by
  unfold samples_to_read add32 BUFFER_SIZE UINT32_MOD
  have h : ¬ ((samples_written + 1024) % 4294967296 > song_length) := by omega
  rw [if_neg h]

theorem write_loop_never_returns_large (env : Env) (audio : Nat → Nat → Nat)
    (song_length track : Nat) (hF1 : 4294966272 < song_length)
    (hF2 : song_length < 4294967296) (hw : ∀ k : Nat, env.sf_write_raw track k = 3072) :
    ∀ (fuel samples_written location k : Nat) (byte_buffer : Nat → Nat),
      samples_written % 1024 = 0 → samples_written < 4294967296 →
      (write_loop env audio song_length track fuel samples_written location k
          byte_buffer).returned = false
      ∧ write_count (write_loop env audio song_length track fuel samples_written location k
          byte_buffer).events = fuel := by
  intro fuel
  induction fuel with
  | zero =>
    intro sw loc k buf hmod hlt
    have h : sw < song_length := by omega
    simp [write_loop, h, write_count]
  | succ f ih =>
    intro sw loc k buf hmod hlt
    have h : sw < song_length := by omega
    have hmul : mul32 1024 3 = 3072 := by decide
    have hsame : ¬ (env.sf_write_raw track k ≠ ((3072 : Nat) : Int)) := by
      rw [hw k]
      exact fun h1 => h1 rfl
    rw [write_loop, if_pos h]
    dsimp only
    rw [samples_to_read_wrap song_length sw hF1 hF2 hmod hlt, hmul, if_neg hsame]
    dsimp only
    obtain ⟨h1, h2⟩ := ih (add32 sw 1024) (read_samples audio track 1024 0 loc buf).location
      (k + 1) (read_samples audio track 1024 0 loc buf).byte_buffer
      (by unfold add32 UINT32_MOD; omega) (by unfold add32 UINT32_MOD; omega)
    refine ⟨h1, ?_⟩
    rw [write_count_append, write_count_append, read_samples_write_count]
    simp only [write_count]
    rw [h2]
    omega

theorem write_loop_write_count (env : Env) (audio : Nat → Nat → Nat) (song_length track : Nat)
    (hF : song_length + 1024 ≤ 4294967296)
    (hok : ∀ k : Nat, k * 1024 < song_length →
      env.sf_write_raw track k = ((3 * min 1024 (song_length - k * 1024) : Nat) : Int)) :
    ∀ (fuel samples_written location k : Nat) (byte_buffer : Nat → Nat),
      samples_written ≤ song_length →
      (samples_written = k * 1024 ∨ samples_written = song_length) →
      (song_length - samples_written + 1023) / 1024 ≤ fuel →
      write_count (write_loop env audio song_length track fuel samples_written location k
          byte_buffer).events = (song_length - samples_written + 1023) / 1024 := by
  intro fuel
  induction fuel with
  | zero =>
    intro sw loc k buf hsw _ hfuel
    have heq : sw = song_length := by omega
    subst heq
    simp [write_loop, write_count]
  | succ f ih =>
    intro sw loc k buf hsw hk hfuel
    rw [write_loop]
    by_cases hlt : sw < song_length
    · have hsw_k : sw = k * 1024 := by
        rcases hk with h | h
        · exact h
        · omega
      rw [if_pos hlt]
      dsimp only
      have hn := samples_to_read_eq song_length sw hF hlt
      have hmul : mul32 (samples_to_read song_length sw) 3
          = 3 * min 1024 (song_length - sw) := by
        rw [mul32_small _ _ (by rw [hn]; omega), hn]
        omega
      have hwrite := hok k (by omega)
      rw [← hsw_k] at hwrite
      have hsame : ¬ (env.sf_write_raw track k
          ≠ ((mul32 (samples_to_read song_length sw) 3 : Nat) : Int)) := by
        rw [hmul, hwrite]
        exact fun h1 => h1 rfl
      rw [if_neg hsame]
      have hadd : add32 sw (samples_to_read song_length sw)
          = sw + samples_to_read song_length sw := by
        apply add32_small
        rw [hn]
        omega
      rw [hadd]
      have hrec := ih (sw + samples_to_read song_length sw)
        (read_samples audio track (samples_to_read song_length sw) 0 loc buf).location (k + 1)
        (read_samples audio track (samples_to_read song_length sw) 0 loc buf).byte_buffer
        (by rw [hn]; omega) (by rw [hn]; omega) (by rw [hn]; omega)
      dsimp only
      rw [write_count_append, write_count_append, read_samples_write_count]
      simp only [write_count]
      rw [hrec, hn]
      omega
    · rw [if_neg hlt]
      have heq : sw = song_length := by omega
      subst heq
      simp [write_count]

theorem write_loop_done (env : Env) (audio : Nat → Nat → Nat) (song_length track : Nat)
    (fuel samples_written location k : Nat) (byte_buffer : Nat → Nat)
    (h : ¬ samples_written < song_length) :
    (write_loop env audio song_length track fuel samples_written location k
        byte_buffer).events = [] := by
  cases fuel with
  | zero => rfl
  | succ f => rw [write_loop, if_neg h]

theorem write_loop_last_progress (env : Env) (audio : Nat → Nat → Nat)
    (song_length track : Nat) (hF : song_length + 1024 ≤ 4294967296)
    (hok : ∀ k : Nat, k * 1024 < song_length →
      env.sf_write_raw track k = ((3 * min 1024 (song_length - k * 1024) : Nat) : Int)) :
    ∀ (fuel samples_written location k : Nat) (byte_buffer : Nat → Nat),
      samples_written < song_length → samples_written = k * 1024 →
      (song_length - samples_written + 1023) / 1024 ≤ fuel →
      ∃ pre : List Event,
        (write_loop env audio song_length track fuel samples_written location k
            byte_buffer).events
          = pre ++ [Event.show_progress (castInt (mul32 song_length 100 / song_length))] := by
  intro fuel
  induction fuel with
  | zero =>
    intro sw loc k buf hlt _ hfuel
    omega
  | succ f ih =>
    intro sw loc k buf hlt hsw_k hfuel
    rw [write_loop, if_pos hlt]
    dsimp only
    have hn := samples_to_read_eq song_length sw hF hlt
    have hmul : mul32 (samples_to_read song_length sw) 3
        = 3 * min 1024 (song_length - sw) := by
      rw [mul32_small _ _ (by rw [hn]; omega), hn]
      omega
    have hwrite := hok k (by omega)
    rw [← hsw_k] at hwrite
    have hsame : ¬ (env.sf_write_raw track k
        ≠ ((mul32 (samples_to_read song_length sw) 3 : Nat) : Int)) := by
      rw [hmul, hwrite]
      exact fun h1 => h1 rfl
    rw [if_neg hsame]
    have hadd : add32 sw (samples_to_read song_length sw)
        = sw + samples_to_read song_length sw := by
      apply add32_small
      rw [hn]
      omega
    rw [hadd]
    dsimp only
    by_cases hlast : sw + samples_to_read song_length sw < song_length
    · obtain ⟨pre, hpre⟩ := ih (sw + samples_to_read song_length sw)
        (read_samples audio track (samples_to_read song_length sw) 0 loc buf).location (k + 1)
        (read_samples audio track (samples_to_read song_length sw) 0 loc buf).byte_buffer
        hlast (by rw [hn] at hlast ⊢; omega) (by rw [hn] at hlast ⊢; omega)
      rw [hpre]
      exact ⟨_, HD24.append_cons_snoc _ _ _ _⟩
    · rw [write_loop_done _ _ _ _ _ _ _ _ _ hlast]
      have heq : sw + samples_to_read song_length sw = song_length := by
        rw [hn] at hlast ⊢
        omega
      rw [heq]
      exact ⟨_, rfl⟩

theorem song_loop_pairs (proj : hd24project) (i count : Nat) (hcount : count < 4294967295) :
    ∀ (fuel n j : Nat), j + n = count + 1 → n < fuel →
      (song_loop proj i count fuel j).returned = true
      ∧ (song_loop proj i count fuel j).songs.map (fun s => (s.project_id, s.song_id))
        = ((List.range' j n).filter (fun j => (proj.getsong j).isSome)).map
            (fun j => (i, j)) := by
  intro fuel
  induction fuel with
  | zero =>
    intro n j _ h
    exact absurd h (Nat.not_lt_zero _)
  | succ f ih =>
    intro n j hj hf
    rw [song_loop]
    cases n with
    | zero =>
      rw [if_neg (by omega)]
      exact ⟨rfl, rfl⟩
    | succ m =>
      rw [if_pos (by omega), add32_small j 1 (by omega), List.range'_succ]
      obtain ⟨h1, h2⟩ := ih m (j + 1) (by omega) (by omega)
      cases hs : proj.getsong j with
      | none =>
        rw [List.filter_cons_of_neg (by simp [hs])]
        exact ⟨h1, h2⟩
      | some song =>
        rw [List.filter_cons_of_pos (by simp [hs])]
        refine ⟨h1, ?_⟩
        simp only [List.map_cons]
        rw [h2]
        rfl

theorem project_loop_pairs (fs : hd24fs) (count inner_fuel : Nat)
    (hcount : count < 4294967295)
    (hsongs : ∀ (i : Nat) (proj : hd24project), fs.getproject i = some proj →
      u32 proj.songcount < 4294967295 ∧ u32 proj.songcount < inner_fuel) :
    ∀ (fuel n i : Nat), i + n = count + 1 → n < fuel →
      (project_loop fs count inner_fuel fuel i).returned = true
      ∧ (project_loop fs count inner_fuel fuel i).songs.map
          (fun s => (s.project_id, s.song_id))
        = (List.range' i n).flatMap (fun i =>
            match fs.getproject i with
            | none => []
            | some proj =>
              ((List.range' 1 (u32 proj.songcount)).filter
                (fun j => (proj.getsong j).isSome)).map (fun j => (i, j))) := by
  intro fuel
  induction fuel with
  | zero =>
    intro n i _ h
    exact absurd h (Nat.not_lt_zero _)
  | succ f ih =>
    intro n i hi hf
    rw [project_loop]
    cases n with
    | zero =>
      rw [if_neg (by omega)]
      exact ⟨rfl, rfl⟩
    | succ m =>
      rw [if_pos (by omega), add32_small i 1 (by omega), List.range'_succ, List.flatMap_cons]
      obtain ⟨h1, h2⟩ := ih m (i + 1) (by omega) (by omega)
      cases hp : fs.getproject i with
      | none =>
        simp only [List.nil_append]
        exact ⟨h1, h2⟩
      | some proj =>
        obtain ⟨hc, hfuel⟩ := hsongs i proj hp
        obtain ⟨k1, k2⟩ := song_loop_pairs proj i (u32 proj.songcount) hc inner_fuel
          (u32 proj.songcount) 1 (by omega) hfuel
        dsimp only
        rw [if_neg (HD24.bnot_ne_true _ k1)]
        refine ⟨h1, ?_⟩
        simp only [List.map_append]
        rw [k2, h2]

theorem song_loop_entries (proj : hd24project) (i count : Nat) :
    ∀ (fuel j : Nat), ∀ s ∈ (song_loop proj i count fuel j).songs,
      ∃ song : hd24song, proj.getsong s.song_id = some song
        ∧ s = song_entry proj song i s.song_id := by
  intro fuel
  induction fuel with
  | zero =>
    intro j s hs
    simp [song_loop] at hs
  | succ f ih =>
    intro j s hs
    rw [song_loop] at hs
    by_cases hle : j ≤ count
    · rw [if_pos hle] at hs
      cases hg : proj.getsong j with
      | none =>
        rw [hg] at hs
        exact ih _ s hs
      | some song =>
        rw [hg] at hs
        rcases List.mem_cons.mp hs with h | h
        · rw [h]
          exact ⟨song, hg, rfl⟩
        · exact ih _ s h
    · rw [if_neg hle] at hs
      simp at hs

theorem project_loop_entries (fs : hd24fs) (count inner_fuel : Nat) :
    ∀ (fuel i : Nat), ∀ s ∈ (project_loop fs count inner_fuel fuel i).songs,
      ∃ (proj : hd24project) (song : hd24song), fs.getproject s.project_id = some proj
        ∧ proj.getsong s.song_id = some song
        ∧ s = song_entry proj song s.project_id s.song_id := by
  intro fuel
  induction fuel with
  | zero =>
    intro i s hs
    simp [project_loop] at hs
  | succ f ih =>
    intro i s hs
    rw [project_loop] at hs
    by_cases hle : i ≤ count
    · rw [if_pos hle] at hs
      cases hg : fs.getproject i with
      | none =>
        rw [hg] at hs
        exact ih _ s hs
      | some proj =>
        rw [hg] at hs
        dsimp only at hs
        have hinner : ∀ s ∈ (song_loop proj i (u32 proj.songcount) inner_fuel 1).songs,
            ∃ (proj : hd24project) (song : hd24song), fs.getproject s.project_id = some proj
              ∧ proj.getsong s.song_id = some song
              ∧ s = song_entry proj song s.project_id s.song_id := by
          intro s h
          obtain ⟨song, h1, h2⟩ := song_loop_entries proj i _ _ _ s h
          have hid : s.project_id = i := by rw [h2]; rfl
          rw [hid]
          exact ⟨proj, song, hg, h1, h2⟩
        split at hs
        · exact hinner s hs
        · rcases List.mem_append.mp hs with h | h
          · exact hinner s h
          · exact ih _ s h
    · rw [if_neg hle] at hs
      simp at hs

theorem song_loop_never_returns (proj : hd24project) (i : Nat) :
    ∀ (fuel j : Nat), j < 4294967296 →
      (song_loop proj i 4294967295 fuel j).returned = false := by
  intro fuel
  induction fuel with
  | zero =>
    intro j hj
    exact decide_eq_false (by omega)
  | succ f ih =>
    intro j hj
    have hnext : add32 j 1 < 4294967296 := by
      unfold add32 UINT32_MOD
      omega
    rw [song_loop, if_pos (by omega)]
    cases proj.getsong j with
    | none => exact ih _ hnext
    | some song => exact ih _ hnext

theorem song_loop_length (proj : hd24project) (i : Nat)
    (hall : ∀ j : Nat, (proj.getsong j).isSome = true) :
    ∀ (fuel j : Nat), j < 4294967296 →
      (song_loop proj i 4294967295 fuel j).songs.length = fuel := by
  intro fuel
  induction fuel with
  | zero =>
    intro j _
    rfl
  | succ f ih =>
    intro j hj
    have hnext : add32 j 1 < 4294967296 := by
      unfold add32 UINT32_MOD
      omega
    rw [song_loop, if_pos (by omega)]
    cases hs : proj.getsong j with
    | none =>
      have h := hall j
      rw [hs] at h
      cases h
    | some song =>
      show (song_loop proj i 4294967295 f (add32 j 1)).songs.length + 1 = f + 1
      rw [ih _ hnext]

theorem project_loop_never_returns (fs : hd24fs) (inner_fuel : Nat) :
    ∀ (fuel i : Nat), i < 4294967296 →
      (project_loop fs 4294967295 inner_fuel fuel i).returned = false := by
  intro fuel
  induction fuel with
  | zero =>
    intro i hi
    exact decide_eq_false (by omega)
  | succ f ih =>
    intro i hi
    have hnext : add32 i 1 < 4294967296 := by
      unfold add32 UINT32_MOD
      omega
    rw [project_loop, if_pos (by omega)]
    cases fs.getproject i with
    | none => exact ih _ hnext
    | some proj =>
      dsimp only
      split
      · rfl
      · exact ih _ hnext

theorem project_loop_max_songs (fuel : Nat) :
    (project_loop max_songs_fs 1 fuel fuel 1).returned = false
    ∧ (project_loop max_songs_fs 1 fuel fuel 1).songs.length = fuel := by
  have hcount : u32 max_songs_project.songcount = 4294967295 := by decide
  cases fuel with
  | zero => exact ⟨rfl, rfl⟩
  | succ f =>
    have hproj : max_songs_fs.getproject 1 = some max_songs_project := rfl
    have hret := song_loop_never_returns max_songs_project 1 (f + 1) 1 (by decide)
    have hlen := song_loop_length max_songs_project 1 (fun _ => rfl) (f + 1) 1 (by decide)
    rw [project_loop, if_pos (le_refl 1), hproj]
    dsimp only
    rw [hcount, hret]
    exact ⟨rfl, hlen⟩

theorem list_all_songs_below_max (fs : hd24fs) (fuel : Nat)
    (hprojects : u32 fs.projectcount < 4294967295)
    (hsongs : ∀ (i : Nat) (proj : hd24project), fs.getproject i = some proj →
      u32 proj.songcount < 4294967295)
    (hfuel : u32 fs.projectcount < fuel)
    (hfuel_songs : ∀ (i : Nat) (proj : hd24project), fs.getproject i = some proj →
      u32 proj.songcount < fuel) :
    (list_all_songs fs fuel).returned = true
    ∧ (list_all_songs fs fuel).songs.map (fun s => (s.project_id, s.song_id))
        = catalog_pairs fs
    ∧ ((list_all_songs fs fuel).songs.map (fun s => (s.project_id, s.song_id))).Nodup
    ∧ ∀ s ∈ (list_all_songs fs fuel).songs,
        ∃ (proj : hd24project) (song : hd24song), fs.getproject s.project_id = some proj
          ∧ proj.getsong s.song_id = some song
          ∧ s = song_entry proj song s.project_id s.song_id := by
  obtain ⟨h1, h2⟩ := project_loop_pairs fs (u32 fs.projectcount) fuel hprojects
    (fun i proj h => ⟨hsongs i proj h, hfuel_songs i proj h⟩) fuel (u32 fs.projectcount) 1
    (by omega) hfuel
  have hpairs : (list_all_songs fs fuel).songs.map (fun s => (s.project_id, s.song_id))
      = catalog_pairs fs := h2
  refine ⟨h1, hpairs, ?_, project_loop_entries fs _ _ fuel 1⟩
  rw [hpairs]
  exact catalog_pairs_nodup fs

theorem list_all_songs_demo :
    (list_all_songs demo_fs 4).returned = true
    ∧ (list_all_songs demo_fs 4).songs.map (fun s => (s.project_id, s.song_id))
        = [(1, 1), (1, 3), (3, 1)]
    ∧ catalog_pairs demo_fs = [(1, 1), (1, 3), (3, 1)] := by
  refine ⟨by decide, by decide, by decide⟩

theorem read_samples_stream (audio : Nat → Nat → Nat) (track : Nat) (state : Option Nat) :
    ∀ (n s location : Nat) (byte_buffer : Nat → Nat),
      (read_samples audio track n s location byte_buffer).events.foldl stream_step (some state)
          = some state
      ∧ opened_tracks (read_samples audio track n s location byte_buffer).events = [] := by
  intro n
  induction n with
  | zero =>
    intro s loc buf
    exact ⟨rfl, rfl⟩
  | succ m ih =>
    intro s loc buf
    rw [read_samples]
    dsimp only
    exact ih _ _ _

theorem write_loop_stream (env : Env) (audio : Nat → Nat → Nat) (song_length track : Nat) :
    ∀ (fuel samples_written location k : Nat) (byte_buffer : Nat → Nat),
      (write_loop env audio song_length track fuel samples_written location k
          byte_buffer).events.foldl stream_step (some (some track)) = some (some track)
      ∧ opened_tracks (write_loop env audio song_length track fuel samples_written location k
          byte_buffer).events = [] := by
  intro fuel
  induction fuel with
  | zero =>
    intro sw loc k buf
    exact ⟨rfl, rfl⟩
  | succ f ih =>
    intro sw loc k buf
    rw [write_loop]
    by_cases hlt : sw < song_length
    · rw [if_pos hlt]
      dsimp only
      obtain ⟨h1, h2⟩ := read_samples_stream audio track (some track)
        (samples_to_read song_length sw) 0 loc buf
      by_cases hw : env.sf_write_raw track k
          ≠ ((mul32 (samples_to_read song_length sw) 3 : Nat) : Int)
      · rw [if_pos hw]
        dsimp only
        rw [List.foldl_append, h1, opened_tracks_append, h2]
        simp [stream_step, opened_tracks]
      · rw [if_neg hw]
        dsimp only
        obtain ⟨k1, k2⟩ := ih (add32 sw (samples_to_read song_length sw))
          (read_samples audio track (samples_to_read song_length sw) 0 loc buf).location (k + 1)
          (read_samples audio track (samples_to_read song_length sw) 0 loc buf).byte_buffer
        rw [List.foldl_append, List.foldl_append, h1, opened_tracks_append,
          opened_tracks_append, h2]
        simp only [List.foldl_cons, List.foldl_nil, stream_step, if_true, opened_tracks,
          List.nil_append]
        exact ⟨k1, k2⟩
    · rw [if_neg hlt]
      exact ⟨rfl, rfl⟩

theorem track_loop_stream (env : Env) (fuel : Nat) (audio : Nat → Nat → Nat)
    (export_dir song_name : CString) (track_selected : List Bool)
    (sample_rate song_length : Nat) (selected_count : Int) :
    ∀ (n track : Nat) (track_num total_bytes : Int) (location : Nat) (byte_buffer : Nat → Nat),
      (∃ state : Option Nat,
        (track_loop env fuel audio export_dir song_name track_selected sample_rate song_length
            selected_count n track track_num total_bytes location byte_buffer).events.foldl
          stream_step (some none) = some state
        ∧ ((track_loop env fuel audio export_dir song_name track_selected sample_rate
            song_length selected_count n track track_num total_bytes location
            byte_buffer).returned = true → state = none))
      ∧ (opened_tracks (track_loop env fuel audio export_dir song_name track_selected
            sample_rate song_length selected_count n track track_num total_bytes location
            byte_buffer).events
          <+: (List.range' track n).filter (fun i => track_selected.getD i false))
      ∧ ((track_loop env fuel audio export_dir song_name track_selected sample_rate
            song_length selected_count n track track_num total_bytes location
            byte_buffer).returned = true →
          opened_tracks (track_loop env fuel audio export_dir song_name track_selected
            sample_rate song_length selected_count n track track_num total_bytes location
            byte_buffer).events
          = (List.range' track n).filter (fun i => track_selected.getD i false)) := by
  intro n
  induction n with
  | zero =>
    intro track tn total loc buf
    exact ⟨⟨none, rfl, fun _ => rfl⟩, List.prefix_refl _, fun _ => rfl⟩
  | succ m ih =>
    intro track tn total loc buf
    rw [track_loop, List.range'_succ]
    by_cases hsel : track_selected.getD track false = true
    · rw [if_neg (HD24.bnot_ne_true _ hsel),
        List.filter_cons_of_pos (p := fun i => track_selected.getD i false) hsel]
      dsimp only
      by_cases hopen : env.sf_open track = true
      · rw [if_neg (HD24.bnot_ne_true _ hopen)]
        obtain ⟨w1, w2⟩ := write_loop_stream env audio song_length track fuel 0 0 0 buf
        by_cases hret : (write_loop env audio song_length track fuel 0 0 0 buf).returned = true
        · rw [if_neg (HD24.bnot_ne_true _ hret)]
          dsimp only
          obtain ⟨⟨st, h1, h2⟩, h3, h4⟩ := ih (track + 1) (tn + 1)
            (total + ((mul32 (write_loop env audio song_length track fuel 0 0 0
              buf).samples_written 3 : Nat) : Int))
            (write_loop env audio song_length track fuel 0 0 0 buf).location
            (write_loop env audio song_length track fuel 0 0 0 buf).byte_buffer
          refine ⟨⟨st, ?_, h2⟩, ?_, ?_⟩
          · simp only [List.foldl_append, List.foldl_cons, List.foldl_nil, stream_step, hopen,
              if_true, w1]
            exact h1
          · simp only [opened_tracks_append, opened_tracks, w2, List.nil_append,
              List.cons_append]
            exact (List.prefix_cons_inj track).mpr h3
          · intro hr
            simp only [opened_tracks_append, opened_tracks, w2, List.nil_append,
              List.cons_append]
            rw [h4 hr]
        · rw [if_pos (HD24.bnot_eq_true_of _ hret)]
          refine ⟨⟨some track, ?_, fun h => absurd h (by simp)⟩, ?_, fun h => absurd h (by simp)⟩
          · simp only [List.foldl_append, List.foldl_cons, List.foldl_nil, stream_step, hopen,
              if_true, w1]
          · simp only [opened_tracks_append, opened_tracks, w2, List.nil_append,
              List.cons_append, List.append_nil]
            exact (List.prefix_cons_inj track).mpr List.nil_prefix
      · rw [if_pos (HD24.bnot_eq_true_of _ hopen)]
        dsimp only
        obtain ⟨⟨st, h1, h2⟩, h3, h4⟩ := ih (track + 1) (tn + 1) total loc buf
        have hfalse : env.sf_open track = false := by
          cases h : env.sf_open track
          · rfl
          · exact absurd h hopen
        refine ⟨⟨st, ?_, h2⟩, ?_, ?_⟩
        · simp only [List.foldl_append, List.foldl_cons, List.foldl_nil, stream_step, hfalse]
          exact h1
        · simp only [opened_tracks_append, opened_tracks, List.nil_append, List.cons_append]
          exact (List.prefix_cons_inj track).mpr h3
        · intro hr
          simp only [opened_tracks_append, opened_tracks, List.nil_append, List.cons_append]
          rw [h4 hr]
    · rw [if_pos (HD24.bnot_eq_true_of _ hsel),
        List.filter_cons_of_neg (p := fun i => track_selected.getD i false) hsel]
      exact ih (track + 1) tn total loc buf

theorem export_tracks_stream (env : Env) (fuel : Nat) (b : Browser) :
    (∃ state : Option Nat,
      (export_tracks env fuel b).events.foldl stream_step (some none) = some state
      ∧ ((export_tracks env fuel b).status ≠ Status.out_of_fuel → state = none))
    ∧ (opened_tracks (export_tracks env fuel b).events
        <+: selected_tracks b.track_selected (current_channels b))
    ∧ ((export_tracks env fuel b).status = Status.finished →
        opened_tracks (export_tracks env fuel b).events
          = selected_tracks b.track_selected (current_channels b)) := by
  unfold export_tracks current_channels selected_tracks
  cases hsel : b.selected_song_info with
  | none => exact ⟨⟨none, rfl, fun _ => rfl⟩, List.prefix_refl _, fun _ => rfl⟩
  | some idx =>
    dsimp only
    split
    · exact ⟨⟨none, rfl, fun _ => rfl⟩, List.nil_prefix, fun h => by cases h⟩
    · obtain ⟨⟨st, h1, h2⟩, h3, h4⟩ := track_loop_stream env fuel
        (b.songs.getD idx default).song.audio b.export_dir (b.songs.getD idx default).song_name
        b.track_selected (u32 (b.songs.getD idx default).song.samplerate)
        (u32 (b.songs.getD idx default).song.songlength_in_wamples)
        (count_selected b.track_selected (b.songs.getD idx default).channels)
        (b.songs.getD idx default).channels 0 0 0 (b.songs.getD idx default).song.location
        env.fresh
      rw [← List.range_eq_range'] at h3 h4
      split
      · rename_i hret
        refine ⟨⟨st, ?_, fun h => absurd rfl h⟩, ?_, fun h => by cases h⟩
        · simp only [List.foldl_append, List.foldl_cons, List.foldl_nil, stream_step]
          exact h1
        · simp only [opened_tracks_append, opened_tracks, List.nil_append]
          exact h3
      · rename_i hret
        have hr : (track_loop env fuel (b.songs.getD idx default).song.audio b.export_dir
            (b.songs.getD idx default).song_name b.track_selected
            (u32 (b.songs.getD idx default).song.samplerate)
            (u32 (b.songs.getD idx default).song.songlength_in_wamples)
            (count_selected b.track_selected (b.songs.getD idx default).channels)
            (b.songs.getD idx default).channels 0 0 0 (b.songs.getD idx default).song.location
            env.fresh).returned = true := by
          simpa using hret
        have hst := h2 hr
        rw [hst] at h1
        have e1 : ∀ (c : Int) (d : CString),
            opened_tracks [Event.show_exporting c, Event.mkdir d] = [] := fun _ _ => rfl
        have e2 : ∀ v : Event, v = Event.show_completed ∨ v = Event.show_failed →
            opened_tracks [v, Event.getch] = [] := by
          intro v hv
          rcases hv with rfl | rfl <;> rfl
        split
        · refine ⟨⟨none, ?_, fun _ => rfl⟩, ?_, fun _ => ?_⟩
          · rw [List.foldl_append, List.foldl_append]
            simp only [List.foldl_cons, List.foldl_nil, stream_step]
            rw [h1]
          · rw [opened_tracks_append, opened_tracks_append, e1, e2 _ (by simp),
              List.nil_append, List.append_nil]
            exact h3
          · rw [opened_tracks_append, opened_tracks_append, e1, e2 _ (by simp),
              List.nil_append, List.append_nil]
            exact h4 hr
        · refine ⟨⟨none, ?_, fun _ => rfl⟩, ?_, fun _ => ?_⟩
          · rw [List.foldl_append, List.foldl_append]
            simp only [List.foldl_cons, List.foldl_nil, stream_step]
            rw [h1]
          · rw [opened_tracks_append, opened_tracks_append, e1, e2 _ (by simp),
              List.nil_append, List.append_nil]
            exact h3
          · rw [opened_tracks_append, opened_tracks_append, e1, e2 _ (by simp),
              List.nil_append, List.append_nil]
            exact h4 hr

theorem selected_tracks_pairwise (track_selected : List Bool) (channels : Nat) :
    (selected_tracks track_selected channels).Pairwise (fun a b => a < b) := by
  unfold selected_tracks
  exact List.Pairwise.filter _ (List.pairwise_lt_range channels)

theorem read_samples_truncation (audio : Nat → Nat → Nat) (track : Nat) :
    ∀ (n s location : Nat) (byte_buffer : Nat → Nat),
      (read_samples audio track n s location byte_buffer).events.foldl truncation_step
          (some none) = some none
      ∧ ok_bytes (read_samples audio track n s location byte_buffer).events = 0
      ∧ ∀ e ∈ (read_samples audio track n s location byte_buffer).events,
          truncated e = false := by
  intro n
  induction n with
  | zero =>
    intro s loc buf
    exact ⟨rfl, rfl, fun e he => by cases he⟩
  | succ m ih =>
    intro s loc buf
    rw [read_samples]
    dsimp only
    obtain ⟨h1, h2, h3⟩ := ih (s + 1) (getmultitracksample audio loc).2
      (store_sample buf s ((getmultitracksample audio loc).1 track))
    refine ⟨h1, h2, ?_⟩
    intro e he
    rcases List.mem_cons.mp he with rfl | he
    · rfl
    · exact h3 e he

theorem write_loop_truncation (env : Env) (audio : Nat → Nat → Nat) (song_length track : Nat) :
    ∀ (fuel samples_written location k : Nat) (byte_buffer : Nat → Nat),
      ((write_loop env audio song_length track fuel samples_written location k
          byte_buffer).events.foldl truncation_step (some none) = some none
        ∧ ∀ e ∈ (write_loop env audio song_length track fuel samples_written location k
            byte_buffer).events, truncated e = false)
      ∨ ((write_loop env audio song_length track fuel samples_written location k
            byte_buffer).events.foldl truncation_step (some none) = some (some track)
          ∧ (write_loop env audio song_length track fuel samples_written location k
            byte_buffer).returned = true
          ∧ ∃ (pre : List Event) (bytes : List Nat) (written : Int),
              (write_loop env audio song_length track fuel samples_written location k
                byte_buffer).events = pre ++ [Event.sf_write_raw track bytes written]
              ∧ written ≠ ((bytes.length : Nat) : Int)
              ∧ ∀ e ∈ pre, truncated e = false) := by
  intro fuel
  induction fuel with
  | zero =>
    intro sw loc k buf
    exact Or.inl ⟨rfl, fun e he => by cases he⟩
  | succ f ih =>
    intro sw loc k buf
    rw [write_loop]
    by_cases hlt : sw < song_length
    · rw [if_pos hlt]
      dsimp only
      obtain ⟨h1, _, h3⟩ := read_samples_truncation audio track
        (samples_to_read song_length sw) 0 loc buf
      have hlen := peek_length
        (read_samples audio track (samples_to_read song_length sw) 0 loc buf).byte_buffer
        (mul32 (samples_to_read song_length sw) 3)
      by_cases hw : env.sf_write_raw track k
          ≠ ((mul32 (samples_to_read song_length sw) 3 : Nat) : Int)
      · rw [if_pos hw]
        dsimp only
        refine Or.inr ⟨?_, rfl, _, _, _, rfl, ?_, h3⟩
        · rw [List.foldl_append, h1]
          simp only [List.foldl_cons, List.foldl_nil, truncation_step, hlen]
          rw [if_pos hw]
        · rw [hlen]
          exact hw
      · rw [if_neg hw]
        dsimp only
        have hstep : (([Event.sf_write_raw track
            (peek (read_samples audio track (samples_to_read song_length sw) 0 loc
              buf).byte_buffer (mul32 (samples_to_read song_length sw) 3))
            (env.sf_write_raw track k)] : List Event)).foldl truncation_step (some none)
            = some none := by
          simp only [List.foldl_cons, List.foldl_nil, truncation_step, hlen]
          rw [if_neg hw]
        have hnot : truncated (Event.sf_write_raw track
            (peek (read_samples audio track (samples_to_read song_length sw) 0 loc
              buf).byte_buffer (mul32 (samples_to_read song_length sw) 3))
            (env.sf_write_raw track k)) = false := by
          simp only [truncated, hlen]
          exact decide_eq_false hw
        have hpre : ∀ e ∈ (read_samples audio track (samples_to_read song_length sw) 0 loc
            buf).events ++ [Event.sf_write_raw track
              (peek (read_samples audio track (samples_to_read song_length sw) 0 loc
                buf).byte_buffer (mul32 (samples_to_read song_length sw) 3))
              (env.sf_write_raw track k)], truncated e = false := by
          intro e he
          rcases List.mem_append.mp he with he | he
          · exact h3 e he
          · rw [List.mem_singleton] at he
            rw [he]
            exact hnot
        have hfold : ((read_samples audio track (samples_to_read song_length sw) 0 loc
            buf).events ++ [Event.sf_write_raw track
              (peek (read_samples audio track (samples_to_read song_length sw) 0 loc
                buf).byte_buffer (mul32 (samples_to_read song_length sw) 3))
              (env.sf_write_raw track k)]).foldl truncation_step (some none) = some none := by
          rw [List.foldl_append, h1, hstep]
        generalize (read_samples audio track (samples_to_read song_length sw) 0 loc
            buf).events ++ [Event.sf_write_raw track
              (peek (read_samples audio track (samples_to_read song_length sw) 0 loc
                buf).byte_buffer (mul32 (samples_to_read song_length sw) 3))
              (env.sf_write_raw track k)] = xs at hpre hfold ⊢
        rcases ih (add32 sw (samples_to_read song_length sw))
          (read_samples audio track (samples_to_read song_length sw) 0 loc buf).location (k + 1)
          (read_samples audio track (samples_to_read song_length sw) 0 loc buf).byte_buffer
          with ⟨k1, k2⟩ | ⟨k1, k2, pre, bytes, written, k3, k4, k5⟩
        · refine Or.inl ⟨?_, ?_⟩
          · rw [List.foldl_append, hfold]
            exact k1
          · intro e he
            rcases List.mem_append.mp he with he | he
            · exact hpre e he
            · rcases List.mem_cons.mp he with rfl | he
              · rfl
              · exact k2 e he
        · refine Or.inr ⟨?_, k2, xs ++ Event.show_progress
              (castInt (mul32 (add32 sw (samples_to_read song_length sw)) 100 / song_length))
              :: pre, bytes, written, ?_, k4, ?_⟩
          · rw [List.foldl_append, hfold]
            exact k1
          · rw [k3]
            exact HD24.append_cons_snoc _ _ pre _
          · intro e he
            rcases List.mem_append.mp he with he | he
            · exact hpre e he
            · rcases List.mem_cons.mp he with rfl | he
              · rfl
              · exact k5 e he
    · rw [if_neg hlt]
      exact Or.inl ⟨rfl, fun e he => by cases he⟩

theorem write_loop_counter (env : Env) (audio : Nat → Nat → Nat) (song_length track : Nat) :
    ∀ (fuel samples_written location k : Nat) (byte_buffer : Nat → Nat),
      samples_written < 4294967296 →
      (write_loop env audio song_length track fuel samples_written location k
          byte_buffer).samples_written
        = u32 (samples_written + ok_bytes (write_loop env audio song_length track fuel
            samples_written location k byte_buffer).events / 3) := by
  intro fuel
  induction fuel with
  | zero =>
    intro sw loc k buf hsw
    show sw = u32 (sw + 0 / 3)
    unfold u32 UINT32_MOD
    omega
  | succ f ih =>
    intro sw loc k buf hsw
    rw [write_loop]
    by_cases hlt : sw < song_length
    · rw [if_pos hlt]
      dsimp only
      obtain ⟨_, h2, _⟩ := read_samples_truncation audio track
        (samples_to_read song_length sw) 0 loc buf
      have hlen := peek_length
        (read_samples audio track (samples_to_read song_length sw) 0 loc buf).byte_buffer
        (mul32 (samples_to_read song_length sw) 3)
      obtain ⟨hn1, hn2⟩ := samples_to_read_bounds song_length sw hlt
      have hm := mul32_small (samples_to_read song_length sw) 3 (by omega)
      by_cases hw : env.sf_write_raw track k
          ≠ ((mul32 (samples_to_read song_length sw) 3 : Nat) : Int)
      · rw [if_pos hw]
        dsimp only
        rw [ok_bytes_append, h2]
        simp only [ok_bytes, hlen]
        rw [if_neg hw]
        unfold u32 UINT32_MOD
        omega
      · rw [if_neg hw]
        dsimp only
        have hw1 : env.sf_write_raw track k
            = ((mul32 (samples_to_read song_length sw) 3 : Nat) : Int) := not_not.mp hw
        have hlt1 : add32 sw (samples_to_read song_length sw) < 4294967296 := by
          unfold add32 UINT32_MOD
          omega
        rw [ih (add32 sw (samples_to_read song_length sw))
          (read_samples audio track (samples_to_read song_length sw) 0 loc buf).location (k + 1)
          (read_samples audio track (samples_to_read song_length sw) 0 loc buf).byte_buffer
          hlt1, ok_bytes_append, ok_bytes_append, h2]
        simp only [ok_bytes, hlen]
        rw [if_pos hw1, hm]
        unfold u32 add32 UINT32_MOD
        omega
    · rw [if_neg hlt]
      show sw = u32 (sw + 0 / 3)
      unfold u32 UINT32_MOD
      omega

theorem track_loop_truncation (env : Env) (fuel : Nat) (audio : Nat → Nat → Nat)
    (export_dir song_name : CString) (track_selected : List Bool)
    (sample_rate song_length : Nat) (selected_count : Int) :
    ∀ (n track : Nat) (track_num total_bytes : Int) (location : Nat) (byte_buffer : Nat → Nat),
      (track_loop env fuel audio export_dir song_name track_selected sample_rate song_length
          selected_count n track track_num total_bytes location byte_buffer).events.foldl
        truncation_step (some none) = some none := by
  intro n
  induction n with
  | zero =>
    intro track tn tb loc buf
    rfl
  | succ m ih =>
    intro track tn tb loc buf
    rw [track_loop]
    by_cases hsel : track_selected.getD track false = true
    · rw [if_neg (HD24.bnot_ne_true _ hsel)]
      dsimp only
      by_cases hopen : env.sf_open track = true
      · rw [if_neg (HD24.bnot_ne_true _ hopen)]
        by_cases hret : (write_loop env audio song_length track fuel 0 0 0 buf).returned = true
        · rw [if_neg (HD24.bnot_ne_true _ hret)]
          dsimp only
          have hrest := ih (track + 1) (tn + 1)
            (tb + ((mul32 (write_loop env audio song_length track fuel 0 0 0
              buf).samples_written 3 : Nat) : Int))
            (write_loop env audio song_length track fuel 0 0 0 buf).location
            (write_loop env audio song_length track fuel 0 0 0 buf).byte_buffer
          rcases write_loop_truncation env audio song_length track fuel 0 0 0 buf
            with ⟨k1, _⟩ | ⟨k1, _, _⟩
          · simp only [List.foldl_append, List.foldl_cons, List.foldl_nil, truncation_step, k1]
            exact hrest
          · simp only [List.foldl_append, List.foldl_cons, List.foldl_nil, truncation_step, k1,
              if_true]
            exact hrest
        · rw [if_pos (HD24.bnot_eq_true_of _ hret)]
          rcases write_loop_truncation env audio song_length track fuel 0 0 0 buf
            with ⟨k1, _⟩ | ⟨_, k2, _⟩
          · simp only [List.foldl_append, List.foldl_cons, List.foldl_nil, truncation_step, k1]
          · exact absurd k2 hret
      · rw [if_pos (HD24.bnot_eq_true_of _ hopen)]
        dsimp only
        simp only [List.foldl_append, List.foldl_cons, List.foldl_nil, truncation_step]
        exact ih (track + 1) (tn + 1) tb loc buf
    · rw [if_pos (HD24.bnot_eq_true_of _ hsel)]
      exact ih (track + 1) tn tb loc buf

theorem export_tracks_truncation (env : Env) (fuel : Nat) (b : Browser) :
    (export_tracks env fuel b).events.foldl truncation_step (some none) = some none := by
  unfold export_tracks
  cases hsel : b.selected_song_info with
  | none => rfl
  | some idx =>
    dsimp only
    have h1 := track_loop_truncation env fuel
      (b.songs.getD idx default).song.audio b.export_dir (b.songs.getD idx default).song_name
      b.track_selected (u32 (b.songs.getD idx default).song.samplerate)
      (u32 (b.songs.getD idx default).song.songlength_in_wamples)
      (count_selected b.track_selected (b.songs.getD idx default).channels)
      (b.songs.getD idx default).channels 0 0 0 (b.songs.getD idx default).song.location
      env.fresh
    split
    · rfl
    · split
      · simp only [List.foldl_append, List.foldl_cons, List.foldl_nil, truncation_step]
        exact h1
      · split
        · rw [List.foldl_append, List.foldl_append]
          simp only [List.foldl_cons, List.foldl_nil, truncation_step]
          rw [h1]
        · rw [List.foldl_append, List.foldl_append]
          simp only [List.foldl_cons, List.foldl_nil, truncation_step]
          rw [h1]

theorem write_loop_truncated_step (env : Env) (audio : Nat → Nat → Nat)
    (song_length track fuel samples_written location k : Nat) (byte_buffer : Nat → Nat)
    (hloop : samples_written < song_length)
    (htrunc : env.sf_write_raw track k
      ≠ ((mul32 (samples_to_read song_length samples_written) 3 : Nat) : Int)) :
    (write_loop env audio song_length track (fuel + 1) samples_written location k
        byte_buffer).returned = true
    ∧ (write_loop env audio song_length track (fuel + 1) samples_written location k
        byte_buffer).samples_written = samples_written
    ∧ (write_loop env audio song_length track (fuel + 1) samples_written location k
        byte_buffer).events
      = (read_samples audio track (samples_to_read song_length samples_written) 0 location
          byte_buffer).events
        ++ [Event.sf_write_raw track
            (peek (read_samples audio track (samples_to_read song_length samples_written) 0
              location byte_buffer).byte_buffer
              (mul32 (samples_to_read song_length samples_written) 3))
            (env.sf_write_raw track k)] := by
  rw [write_loop, if_pos hloop]
  dsimp only
  rw [if_pos htrunc]
  exact ⟨rfl, rfl, rfl⟩

theorem write_loop_truncated_last (env : Env) (audio : Nat → Nat → Nat)
    (song_length track fuel samples_written location k : Nat) (byte_buffer : Nat → Nat)
    (h : ∃ e ∈ (write_loop env audio song_length track fuel samples_written location k
      byte_buffer).events, truncated e = true) :
    (write_loop env audio song_length track fuel samples_written location k
        byte_buffer).returned = true
    ∧ ∃ (pre : List Event) (bytes : List Nat) (written : Int),
        (write_loop env audio song_length track fuel samples_written location k
          byte_buffer).events = pre ++ [Event.sf_write_raw track bytes written]
        ∧ written ≠ ((bytes.length : Nat) : Int)
        ∧ ∀ e ∈ pre, truncated e = false := by
  rcases write_loop_truncation env audio song_length track fuel samples_written location k
    byte_buffer with ⟨_, k2⟩ | ⟨_, k2, k3⟩
  · obtain ⟨e, he, ht⟩ := h
    rw [k2 e he] at ht
    cases ht
  · exact ⟨k2, k3⟩

theorem track_loop_after_truncation (env : Env) (fuel : Nat) (audio : Nat → Nat → Nat)
    (export_dir song_name : CString) (track_selected : List Bool)
    (sample_rate song_length : Nat) (selected_count : Int) (n track : Nat)
    (track_num total_bytes : Int) (location : Nat) (byte_buffer : Nat → Nat)
    (hsel : track_selected.getD track false = true) (hopen : env.sf_open track = true)
    (h : ∃ e ∈ (write_loop env audio song_length track fuel 0 0 0 byte_buffer).events,
      truncated e = true) :
    (track_loop env fuel audio export_dir song_name track_selected sample_rate song_length
        selected_count (n + 1) track track_num total_bytes location byte_buffer).events
      = [Event.show_track (track_num + 1) selected_count,
          Event.sf_open track (filename export_dir song_name track) (castInt sample_rate) 1
            (SF_FORMAT_AIFF ||| SF_FORMAT_PCM_24) true,
          Event.currentlocation track 0]
        ++ (write_loop env audio song_length track fuel 0 0 0 byte_buffer).events
        ++ Event.sf_close track ::
          (track_loop env fuel audio export_dir song_name track_selected sample_rate
            song_length selected_count n (track + 1) (track_num + 1)
            (total_bytes + ((mul32 (write_loop env audio song_length track fuel 0 0 0
              byte_buffer).samples_written 3 : Nat) : Int))
            (write_loop env audio song_length track fuel 0 0 0 byte_buffer).location
            (write_loop env audio song_length track fuel 0 0 0 byte_buffer).byte_buffer).events
            := by
  have hret := (write_loop_truncated_last env audio song_length track fuel 0 0 0 byte_buffer
    h).1
  rw [track_loop, if_neg (HD24.bnot_ne_true _ hsel)]
  dsimp only
  rw [if_neg (HD24.bnot_ne_true _ hopen), if_neg (HD24.bnot_ne_true _ hret), hopen]
  simp

theorem store_sample_agree (b1 b2 : Nat → Nat) (s sample : Nat)
    (h : ∀ i : Nat, i < 3 * s → b1 i = b2 i) :
    ∀ i : Nat, i < 3 * (s + 1) → store_sample b1 s sample i = store_sample b2 s sample i := by
  intro i hi
  unfold store_sample poke
  by_cases h2 : i = s * 3 + 2
  · rw [if_pos h2, if_pos h2]
  · rw [if_neg h2, if_neg h2]
    by_cases h1 : i = s * 3 + 1
    · rw [if_pos h1, if_pos h1]
    · rw [if_neg h1, if_neg h1]
      by_cases h0 : i = s * 3 + 0
      · rw [if_pos h0, if_pos h0]
      · rw [if_neg h0, if_neg h0]
        exact h i (by omega)

theorem read_samples_agree (audio : Nat → Nat → Nat) (track : Nat) :
    ∀ (n s location : Nat) (b1 b2 : Nat → Nat), (∀ i : Nat, i < 3 * s → b1 i = b2 i) →
      (read_samples audio track n s location b1).events
          = (read_samples audio track n s location b2).events
      ∧ (read_samples audio track n s location b1).location
          = (read_samples audio track n s location b2).location
      ∧ ∀ i : Nat, i < 3 * (s + n) →
          (read_samples audio track n s location b1).byte_buffer i
            = (read_samples audio track n s location b2).byte_buffer i := by
  intro n
  induction n with
  | zero =>
    intro s loc b1 b2 h
    exact ⟨rfl, rfl, h⟩
  | succ m ih =>
    intro s loc b1 b2 h
    rw [read_samples, read_samples]
    dsimp only
    obtain ⟨h1, h2, h3⟩ := ih (s + 1) (getmultitracksample audio loc).2
      (store_sample b1 s ((getmultitracksample audio loc).1 track))
      (store_sample b2 s ((getmultitracksample audio loc).1 track))
      (store_sample_agree b1 b2 s _ h)
    refine ⟨by rw [h1], h2, ?_⟩
    intro i hi
    exact h3 i (by omega)

theorem read_samples_cursor (audio : Nat → Nat → Nat) (track : Nat) :
    ∀ (n s location : Nat) (byte_buffer : Nat → Nat),
      (read_samples audio track n s location byte_buffer).events.foldl cursor_step
          (some (some location))
        = some (some (read_samples audio track n s location byte_buffer).location) := by
  intro n
  induction n with
  | zero =>
    intro s loc buf
    rfl
  | succ m ih =>
    intro s loc buf
    rw [read_samples]
    dsimp only
    rw [List.foldl_cons]
    simp only [cursor_step, if_true]
    exact ih (s + 1) (loc + 1) (store_sample buf s (audio loc track))

theorem write_loop_agree (env1 env2 : Env) (audio : Nat → Nat → Nat) (song_length track : Nat)
    (hw : env1.sf_write_raw = env2.sf_write_raw) :
    ∀ (fuel samples_written location k : Nat) (b1 b2 : Nat → Nat),
      (write_loop env1 audio song_length track fuel samples_written location k b1).events
          = (write_loop env2 audio song_length track fuel samples_written location k b2).events
      ∧ (write_loop env1 audio song_length track fuel samples_written location k b1).returned
          = (write_loop env2 audio song_length track fuel samples_written location k
              b2).returned
      ∧ (write_loop env1 audio song_length track fuel samples_written location k
            b1).samples_written
          = (write_loop env2 audio song_length track fuel samples_written location k
              b2).samples_written
      ∧ (write_loop env1 audio song_length track fuel samples_written location k b1).location
          = (write_loop env2 audio song_length track fuel samples_written location k
              b2).location := by
  intro fuel
  induction fuel with
  | zero =>
    intro sw loc k b1 b2
    exact ⟨rfl, rfl, rfl, rfl⟩
  | succ f ih =>
    intro sw loc k b1 b2
    rw [write_loop, write_loop]
    by_cases hlt : sw < song_length
    · rw [if_pos hlt, if_pos hlt]
      dsimp only
      obtain ⟨h1, h2, h3⟩ := read_samples_agree audio track (samples_to_read song_length sw) 0
        loc b1 b2 (fun i hi => absurd hi (by omega))
      have hpeek := HD24.peek_congr _ _ (3 * (0 + samples_to_read song_length sw))
        (mul32 (samples_to_read song_length sw) 3)
        (by unfold mul32; exact le_trans (Nat.mod_le _ _) (by omega)) h3
      rw [← hw, ← h1, ← h2, ← hpeek]
      by_cases hwr : env1.sf_write_raw track k
          ≠ ((mul32 (samples_to_read song_length sw) 3 : Nat) : Int)
      · rw [if_pos hwr, if_pos hwr]
        exact ⟨rfl, rfl, rfl, rfl⟩
      · rw [if_neg hwr, if_neg hwr]
        dsimp only
        obtain ⟨k1, k2, k3, k4⟩ := ih (add32 sw (samples_to_read song_length sw))
          (read_samples audio track (samples_to_read song_length sw) 0 loc b1).location (k + 1)
          (read_samples audio track (samples_to_read song_length sw) 0 loc b1).byte_buffer
          (read_samples audio track (samples_to_read song_length sw) 0 loc b2).byte_buffer
        exact ⟨by rw [k1], k2, k3, k4⟩
    · rw [if_neg hlt, if_neg hlt]
      exact ⟨rfl, rfl, rfl, rfl⟩

theorem write_loop_cursor (env : Env) (audio : Nat → Nat → Nat) (song_length track : Nat) :
    ∀ (fuel samples_written location k : Nat) (byte_buffer : Nat → Nat),
      (write_loop env audio song_length track fuel samples_written location k
          byte_buffer).events.foldl cursor_step (some (some location))
        = some (some (write_loop env audio song_length track fuel samples_written location k
            byte_buffer).location) := by
  intro fuel
  induction fuel with
  | zero =>
    intro sw loc k buf
    rfl
  | succ f ih =>
    intro sw loc k buf
    rw [write_loop]
    by_cases hlt : sw < song_length
    · rw [if_pos hlt]
      dsimp only
      have h1 := read_samples_cursor audio track (samples_to_read song_length sw) 0 loc buf
      by_cases hwr : env.sf_write_raw track k
          ≠ ((mul32 (samples_to_read song_length sw) 3 : Nat) : Int)
      · rw [if_pos hwr]
        dsimp only
        rw [List.foldl_append, h1]
        rfl
      · rw [if_neg hwr]
        dsimp only
        rw [List.foldl_append, List.foldl_append, h1]
        exact ih (add32 sw (samples_to_read song_length sw))
          (read_samples audio track (samples_to_read song_length sw) 0 loc buf).location (k + 1)
          (read_samples audio track (samples_to_read song_length sw) 0 loc buf).byte_buffer
    · rw [if_neg hlt]
      rfl

theorem track_loop_agree (env1 env2 : Env) (fuel : Nat) (audio : Nat → Nat → Nat)
    (export_dir song_name : CString) (track_selected : List Bool)
    (sample_rate song_length : Nat) (selected_count : Int)
    (ho : env1.sf_open = env2.sf_open) (hw : env1.sf_write_raw = env2.sf_write_raw) :
    ∀ (n track : Nat) (track_num total_bytes : Int) (l1 l2 : Nat) (b1 b2 : Nat → Nat),
      (track_loop env1 fuel audio export_dir song_name track_selected sample_rate song_length
          selected_count n track track_num total_bytes l1 b1).events
        = (track_loop env2 fuel audio export_dir song_name track_selected sample_rate
            song_length selected_count n track track_num total_bytes l2 b2).events
      ∧ (track_loop env1 fuel audio export_dir song_name track_selected sample_rate song_length
          selected_count n track track_num total_bytes l1 b1).returned
        = (track_loop env2 fuel audio export_dir song_name track_selected sample_rate
            song_length selected_count n track track_num total_bytes l2 b2).returned
      ∧ (track_loop env1 fuel audio export_dir song_name track_selected sample_rate song_length
          selected_count n track track_num total_bytes l1 b1).total_bytes
        = (track_loop env2 fuel audio export_dir song_name track_selected sample_rate
            song_length selected_count n track track_num total_bytes l2 b2).total_bytes := by
  intro n
  induction n with
  | zero =>
    intro track tn tb l1 l2 b1 b2
    exact ⟨rfl, rfl, rfl⟩
  | succ m ih =>
    intro track tn tb l1 l2 b1 b2
    rw [track_loop, track_loop]
    by_cases hsel : track_selected.getD track false = true
    · rw [if_neg (HD24.bnot_ne_true _ hsel), if_neg (HD24.bnot_ne_true _ hsel)]
      dsimp only
      rw [← ho]
      by_cases hopen : env1.sf_open track = true
      · rw [if_neg (HD24.bnot_ne_true _ hopen), if_neg (HD24.bnot_ne_true _ hopen)]
        obtain ⟨w1, w2, w3, w4⟩ := write_loop_agree env1 env2 audio song_length track hw fuel
          0 0 0 b1 b2
        rw [← w1, ← w2, ← w3, ← w4]
        by_cases hret : (write_loop env1 audio song_length track fuel 0 0 0 b1).returned = true
        · rw [if_neg (HD24.bnot_ne_true _ hret), if_neg (HD24.bnot_ne_true _ hret)]
          dsimp only
          obtain ⟨k1, k2, k3⟩ := ih (track + 1) (tn + 1)
            (tb + ((mul32 (write_loop env1 audio song_length track fuel 0 0 0
              b1).samples_written 3 : Nat) : Int))
            (write_loop env1 audio song_length track fuel 0 0 0 b1).location
            (write_loop env1 audio song_length track fuel 0 0 0 b1).location
            (write_loop env1 audio song_length track fuel 0 0 0 b1).byte_buffer
            (write_loop env2 audio song_length track fuel 0 0 0 b2).byte_buffer
          exact ⟨by rw [k1], k2, k3⟩
        · rw [if_pos (HD24.bnot_eq_true_of _ hret), if_pos (HD24.bnot_eq_true_of _ hret)]
          exact ⟨rfl, rfl, rfl⟩
      · rw [if_pos (HD24.bnot_eq_true_of _ hopen), if_pos (HD24.bnot_eq_true_of _ hopen)]
        dsimp only
        obtain ⟨k1, k2, k3⟩ := ih (track + 1) (tn + 1) tb l1 l2 b1 b2
        exact ⟨by rw [k1], k2, k3⟩
    · rw [if_pos (HD24.bnot_eq_true_of _ hsel), if_pos (HD24.bnot_eq_true_of _ hsel)]
      exact ih (track + 1) tn tb l1 l2 b1 b2

theorem track_loop_cursor (env : Env) (fuel : Nat) (audio : Nat → Nat → Nat)
    (export_dir song_name : CString) (track_selected : List Bool)
    (sample_rate song_length : Nat) (selected_count : Int) :
    ∀ (n track : Nat) (track_num total_bytes : Int) (location : Nat) (byte_buffer : Nat → Nat)
      (cursor : Option Nat),
      ∃ cursor2 : Option Nat,
        (track_loop env fuel audio export_dir song_name track_selected sample_rate song_length
            selected_count n track track_num total_bytes location byte_buffer).events.foldl
          cursor_step (some cursor) = some cursor2 := by
  intro n
  induction n with
  | zero =>
    intro track tn tb loc buf c
    exact ⟨c, rfl⟩
  | succ m ih =>
    intro track tn tb loc buf c
    rw [track_loop]
    by_cases hsel : track_selected.getD track false = true
    · rw [if_neg (HD24.bnot_ne_true _ hsel)]
      dsimp only
      by_cases hopen : env.sf_open track = true
      · rw [if_neg (HD24.bnot_ne_true _ hopen)]
        have hl := write_loop_cursor env audio song_length track fuel 0 0 0 buf
        by_cases hret : (write_loop env audio song_length track fuel 0 0 0 buf).returned = true
        · rw [if_neg (HD24.bnot_ne_true _ hret)]
          dsimp only
          obtain ⟨c2, h2⟩ := ih (track + 1) (tn + 1)
            (tb + ((mul32 (write_loop env audio song_length track fuel 0 0 0
              buf).samples_written 3 : Nat) : Int))
            (write_loop env audio song_length track fuel 0 0 0 buf).location
            (write_loop env audio song_length track fuel 0 0 0 buf).byte_buffer
            (some (write_loop env audio song_length track fuel 0 0 0 buf).location)
          refine ⟨c2, ?_⟩
          simp only [List.foldl_append, List.foldl_cons, List.foldl_nil, cursor_step, eq_self, if_true,
            hl]
          exact h2
        · rw [if_pos (HD24.bnot_eq_true_of _ hret)]
          refine ⟨some (write_loop env audio song_length track fuel 0 0 0 buf).location, ?_⟩
          simp only [List.foldl_append, List.foldl_cons, List.foldl_nil, cursor_step, eq_self, if_true,
            hl]
      · rw [if_pos (HD24.bnot_eq_true_of _ hopen)]
        dsimp only
        obtain ⟨c2, h2⟩ := ih (track + 1) (tn + 1) tb loc buf none
        refine ⟨c2, ?_⟩
        simp only [List.foldl_append, List.foldl_cons, List.foldl_nil, cursor_step]
        exact h2
    · rw [if_pos (HD24.bnot_eq_true_of _ hsel)]
      exact ih (track + 1) tn tb loc buf c

theorem export_tracks_cursor (env : Env) (fuel : Nat) (b : Browser) :
    ∃ cursor : Option Nat,
      (export_tracks env fuel b).events.foldl cursor_step (some none) = some cursor := by
  unfold export_tracks
  cases hsel : b.selected_song_info with
  | none => exact ⟨none, rfl⟩
  | some idx =>
    dsimp only
    obtain ⟨c, h1⟩ := track_loop_cursor env fuel
      (b.songs.getD idx default).song.audio b.export_dir (b.songs.getD idx default).song_name
      b.track_selected (u32 (b.songs.getD idx default).song.samplerate)
      (u32 (b.songs.getD idx default).song.songlength_in_wamples)
      (count_selected b.track_selected (b.songs.getD idx default).channels)
      (b.songs.getD idx default).channels 0 0 0 (b.songs.getD idx default).song.location
      env.fresh none
    split
    · exact ⟨none, rfl⟩
    · split
      · refine ⟨c, ?_⟩
        simp only [List.foldl_append, List.foldl_cons, List.foldl_nil, cursor_step]
        exact h1
      · refine ⟨c, ?_⟩
        split
        · rw [List.foldl_append, List.foldl_append]
          simp only [List.foldl_cons, List.foldl_nil, cursor_step]
          rw [h1]
        · rw [List.foldl_append, List.foldl_append]
          simp only [List.foldl_cons, List.foldl_nil, cursor_step]
          rw [h1]

theorem export_tracks_agree (env1 env2 : Env) (fuel : Nat) (b1 b2 : Browser)
    (ho : env1.sf_open = env2.sf_open) (hw : env1.sf_write_raw = env2.sf_write_raw)
    (hsel : b2.selected_song_info = b1.selected_song_info)
    (hflags : b2.track_selected = b1.track_selected) (hdir : b2.export_dir = b1.export_dir)
    (hsongs : ∀ j : Nat, ∃ loc : Nat, b2.songs.getD j default
      = { b1.songs.getD j default with
          song := { (b1.songs.getD j default).song with location := loc } }) :
    (export_tracks env1 fuel b1).events = (export_tracks env2 fuel b2).events
    ∧ (export_tracks env1 fuel b1).status = (export_tracks env2 fuel b2).status
    ∧ (export_tracks env1 fuel b1).total_bytes = (export_tracks env2 fuel b2).total_bytes := by
  unfold export_tracks
  rw [hsel, hflags, hdir]
  cases b1.selected_song_info with
  | none => exact ⟨rfl, rfl, rfl⟩
  | some idx =>
    dsimp only
    obtain ⟨loc, hloc⟩ := hsongs idx
    rw [hloc]
    dsimp only
    by_cases hcount : count_selected b1.track_selected (b1.songs.getD idx default).channels = 0
    · rw [if_pos hcount, if_pos hcount]
      exact ⟨rfl, rfl, rfl⟩
    · rw [if_neg hcount, if_neg hcount]
      obtain ⟨k1, k2, k3⟩ := track_loop_agree env1 env2 fuel
        (b1.songs.getD idx default).song.audio b1.export_dir
        (b1.songs.getD idx default).song_name b1.track_selected
        (u32 (b1.songs.getD idx default).song.samplerate)
        (u32 (b1.songs.getD idx default).song.songlength_in_wamples)
        (count_selected b1.track_selected (b1.songs.getD idx default).channels) ho hw
        (b1.songs.getD idx default).channels 0 0 0 (b1.songs.getD idx default).song.location
        loc env1.fresh env2.fresh
      rw [← k1, ← k2, ← k3]
      split
      · exact ⟨rfl, rfl, rfl⟩
      · exact ⟨rfl, rfl, rfl⟩

theorem read_samples_config (rate : Int) (audio : Nat → Nat → Nat) (track : Nat) :
    ∀ (n s location : Nat) (byte_buffer : Nat → Nat),
      ∀ e ∈ (read_samples audio track n s location byte_buffer).events,
        open_config rate e = true := by
  intro n
  induction n with
  | zero =>
    intro s loc buf e he
    simp [read_samples] at he
  | succ m ih =>
    intro s loc buf e he
    rw [read_samples] at he
    dsimp only at he
    rcases List.mem_cons.mp he with h | h
    · rw [h]
      rfl
    · exact ih _ _ _ e h

theorem write_loop_config (rate : Int) (env : Env) (audio : Nat → Nat → Nat)
    (song_length track : Nat) :
    ∀ (fuel samples_written location k : Nat) (byte_buffer : Nat → Nat),
      ∀ e ∈ (write_loop env audio song_length track fuel samples_written location k
          byte_buffer).events, open_config rate e = true := by
  intro fuel
  induction fuel with
  | zero =>
    intro sw loc k buf e he
    simp [write_loop] at he
  | succ f ih =>
    intro sw loc k buf e he
    rw [write_loop] at he
    by_cases hlt : sw < song_length
    · rw [if_pos hlt] at he
      dsimp only at he
      by_cases hw : env.sf_write_raw track k
          ≠ ((mul32 (samples_to_read song_length sw) 3 : Nat) : Int)
      · rw [if_pos hw] at he
        dsimp only at he
        rcases List.mem_append.mp he with h | h
        · exact read_samples_config rate _ _ _ _ _ _ e h
        · rw [List.mem_singleton.mp h]
          rfl
      · rw [if_neg hw] at he
        dsimp only at he
        rcases List.mem_append.mp he with h | h
        · rcases List.mem_append.mp h with h' | h'
          · exact read_samples_config rate _ _ _ _ _ _ e h'
          · rw [List.mem_singleton.mp h']
            rfl
        · rcases List.mem_cons.mp h with h' | h'
          · rw [h']
            rfl
          · exact ih _ _ _ _ e h'
    · rw [if_neg hlt] at he
      simp at he

theorem track_loop_config (env : Env) (fuel : Nat) (audio : Nat → Nat → Nat)
    (export_dir song_name : CString) (track_selected : List Bool)
    (sample_rate song_length : Nat) (selected_count : Int) :
    ∀ (n track : Nat) (track_num total_bytes : Int) (location : Nat) (byte_buffer : Nat → Nat),
      ∀ e ∈ (track_loop env fuel audio export_dir song_name track_selected sample_rate
          song_length selected_count n track track_num total_bytes location byte_buffer).events,
        open_config (castInt sample_rate) e = true := by
  have hopening : ∀ (a c : Int) (t : Nat) (f : CString) (ok : Bool) (e : Event),
      e ∈ [Event.show_track a c, Event.sf_open t f (castInt sample_rate) 1
        (SF_FORMAT_AIFF ||| SF_FORMAT_PCM_24) ok] → open_config (castInt sample_rate) e = true := by
    intro a c t f ok e h
    simp only [List.mem_cons, List.mem_singleton, List.not_mem_nil, or_false] at h
    rcases h with h | h
    · rw [h]
      rfl
    · rw [h]
      show decide (castInt sample_rate = castInt sample_rate ∧ 1 = 1
        ∧ SF_FORMAT_AIFF ||| SF_FORMAT_PCM_24 = 0x020003) = true
      exact decide_eq_true ⟨rfl, rfl, by decide⟩
  intro n
  induction n with
  | zero =>
    intro track tn total loc buf e he
    simp [track_loop] at he
  | succ m ih =>
    intro track tn total loc buf e he
    rw [track_loop] at he
    split at he
    · exact ih _ _ _ _ _ e he
    · dsimp only at he
      split at he
      · dsimp only at he
        rcases List.mem_append.mp he with h | h
        · exact hopening _ _ _ _ _ e h
        · rcases List.mem_cons.mp h with h' | h'
          · rw [h']
            rfl
          · exact ih _ _ _ _ _ e h'
      · split at he
        · dsimp only at he
          rcases List.mem_append.mp he with h | h
          · exact hopening _ _ _ _ _ e h
          · rcases List.mem_cons.mp h with h' | h'
            · rw [h']
              rfl
            · exact write_loop_config _ _ _ _ _ _ _ _ _ _ e h'
        · dsimp only at he
          rcases List.mem_append.mp he with h | h
          · exact hopening _ _ _ _ _ e h
          · rcases List.mem_cons.mp h with h' | h'
            · rw [h']
              rfl
            · rcases List.mem_append.mp h' with h2 | h2
              · exact write_loop_config _ _ _ _ _ _ _ _ _ _ e h2
              · rcases List.mem_cons.mp h2 with h3 | h3
                · rw [h3]
                  rfl
                · exact ih _ _ _ _ _ e h3

theorem export_tracks_config (env : Env) (fuel : Nat) (b : Browser) (idx : Nat)
    (hsel : b.selected_song_info = some idx) :
    ∀ e ∈ (export_tracks env fuel b).events,
      open_config (castInt (u32 (b.songs.getD idx default).song.samplerate)) e = true := by
  intro e he
  unfold export_tracks at he
  rw [hsel] at he
  dsimp only at he
  split at he
  · simp only [List.mem_cons, List.mem_singleton, List.not_mem_nil, or_false] at he
    rcases he with h | h <;> (rw [h]; rfl)
  · split at he
    · dsimp only at he
      rcases List.mem_append.mp he with h | h
      · simp only [List.mem_cons, List.mem_singleton, List.not_mem_nil, or_false] at h
        rcases h with h | h <;> (rw [h]; rfl)
      · exact track_loop_config _ _ _ _ _ _ _ _ _ _ _ _ _ _ _ e h
    · dsimp only at he
      rcases List.mem_append.mp he with h | h
      · rcases List.mem_append.mp h with h' | h'
        · simp only [List.mem_cons, List.mem_singleton, List.not_mem_nil, or_false] at h'
          rcases h' with h' | h' <;> (rw [h']; rfl)
        · exact track_loop_config _ _ _ _ _ _ _ _ _ _ _ _ _ _ _ e h'
      · simp only [List.mem_cons, List.mem_singleton, List.not_mem_nil, or_false] at h
        rcases h with h | h
        · rw [h]
          split <;> rfl
        · rw [h]
          rfl

theorem filename_truncated (d n : CString) (c : Nat) (h : 511 ≤ d.length) :
    filename d n c = d.take 511 := by
  simp only [filename, snprintf, List.append_assoc]
  exact List.take_append_of_le_length h

end HD24Browser

namespace HD24BrowserGUI

open HD24

theorem add_tracks_append (n : Nat) (l : List Bool) :
    add_tracks n l = l ++ List.replicate n false := by
  induction n generalizing l with
  | zero => simp [add_tracks]
  | succ k ih =>
    rw [add_tracks, ih, List.replicate_succ, List.append_assoc]
    rfl

theorem add_tracks_nil (n : Nat) : add_tracks n [] = List.replicate n false := by
  rw [add_tracks_append, List.nil_append]

theorem checked_replicate_false (n : Nat) (t : Int) :
    checked (List.replicate n false) t = false := by
  unfold checked
  split
  · rfl
  · exact getD_replicate_false n _

theorem selected_items_replicate_false (n : Nat) :
    selected_items (List.replicate n false) = [] := by
  unfold selected_items
  rw [List.filter_eq_nil_iff]
  intro t _
  simp [checked_replicate_false]

theorem checked_succ (tb : List Bool) (i : Nat) :
    checked tb ((i : Int) + 1) = tb.getD i false := by
  have hneg : ¬ ((i : Int) + 1 < 1) := by omega
  have hnat : ((i : Int) + 1 - 1).toNat = i := by omega
  rw [checked, if_neg hneg, hnat]

theorem gui_count_selected_eq_zero_iff (tb : List Bool) :
    count_selected tb = 0 ↔ ∀ i : Nat, i < tb.length → tb.getD i false = false := by
  unfold count_selected selected_items
  rw [Int.natCast_eq_zero, List.length_eq_zero, List.filter_eq_nil_iff]
  constructor
  · intro h i hi
    have h1 := h ((i : Int) + 1) (List.mem_map.mpr ⟨i, List.mem_range.mpr hi, rfl⟩)
    rw [checked_succ] at h1
    exact Bool.eq_false_iff.mpr h1
  · intro h t ht
    obtain ⟨i, hi, rfl⟩ := List.mem_map.mp ht
    rw [checked_succ, h i (List.mem_range.mp hi)]
    exact Bool.false_ne_true

theorem gui_export_tracks_rejected_iff (env : Env) (fuel : Nat) (g : Gui) :
    ((export_tracks env fuel g).status = Status.no_song
        ∨ (export_tracks env fuel g).status = Status.no_tracks)
      ↔ ((g.song_browser_value < 1 ∨ g.song_browser_value > (g.songs.length : Int))
          ∨ ∀ i : Nat, i < g.track_browser.length → g.track_browser.getD i false = false) := by
  unfold export_tracks
  dsimp only
  by_cases hidx : g.song_browser_value < 1 ∨ g.song_browser_value > (g.songs.length : Int)
  · rw [if_pos hidx]
    exact iff_of_true (Or.inl rfl) (Or.inl hidx)
  · rw [if_neg hidx]
    by_cases hcount : count_selected g.track_browser = 0
    · rw [if_pos hcount]
      exact iff_of_true (Or.inr rfl) (Or.inr ((gui_count_selected_eq_zero_iff _).mp hcount))
    · rw [if_neg hcount]
      have hne : ¬ ((g.song_browser_value < 1 ∨ g.song_browser_value > (g.songs.length : Int))
          ∨ ∀ i : Nat, i < g.track_browser.length → g.track_browser.getD i false = false) := by
        rintro (h1 | h1)
        · exact hidx h1
        · exact hcount ((gui_count_selected_eq_zero_iff _).mpr h1)
      split
      · exact iff_of_false (by simp) hne
      · exact iff_of_false (by simp) hne

theorem gui_export_tracks_rejected_untouched (env : Env) (fuel : Nat) (g : Gui)
    (h : (export_tracks env fuel g).status = Status.no_song
        ∨ (export_tracks env fuel g).status = Status.no_tracks) :
    ((export_tracks env fuel g).events = []
        ∨ (export_tracks env fuel g).events = [Event.show_no_tracks])
      ∧ (export_tracks env fuel g).songs = g.songs := by
  revert h
  unfold export_tracks
  dsimp only
  split
  · simp
  · split
    · simp
    · split <;> simp

theorem gui_export_tracks_accepted_mkdir (env : Env) (fuel : Nat) (g : Gui)
    (h : ¬ ((export_tracks env fuel g).status = Status.no_song
        ∨ (export_tracks env fuel g).status = Status.no_tracks)) :
    Event.mkdir g.export_dir ∈ (export_tracks env fuel g).events := by
  revert h
  unfold export_tracks
  dsimp only
  split
  · simp
  · split
    · simp
    · split <;> simp

theorem gui_samples_to_read_eq (song_length samples_written : Nat)
    (hF : song_length + 1024 ≤ 4294967296) (hlt : samples_written < song_length) :
    samples_to_read song_length samples_written = min 1024 (song_length - samples_written) := by
  unfold samples_to_read add32 sub32 BUFFER_SIZE UINT32_MOD
  split <;> omega

theorem gui_write_loop_bounded (env : Env) (audio : Nat → Nat → Nat) (fname : CString)
    (track_num total_tracks : Int) (song_length track : Nat)
    (hF : song_length + 1024 ≤ 4294967296) :
    ∀ (fuel samples_written location k : Nat) (byte_buffer : Nat → Nat),
      samples_written ≤ song_length →
      (song_length - samples_written + 1023) / 1024 ≤ fuel →
      (write_loop env audio fname track_num total_tracks song_length track fuel samples_written location k
          byte_buffer).returned = true
      ∧ samples_written ≤ (write_loop env audio fname track_num total_tracks song_length track fuel samples_written
          location k byte_buffer).samples_written
      ∧ (write_loop env audio fname track_num total_tracks song_length track fuel samples_written location k
          byte_buffer).samples_written ≤ song_length := by
  intro fuel
  induction fuel with
  | zero =>
    intro sw loc k buf hsw hfuel
    have hnot : ¬ sw < song_length := by omega
    simp [write_loop, hnot, hsw]
  | succ f ih =>
    intro sw loc k buf hsw hfuel
    rw [write_loop]
    by_cases hlt : sw < song_length
    · rw [if_pos hlt]
      dsimp only
      have hn := gui_samples_to_read_eq song_length sw hF hlt
      by_cases hw : env.sf_write_raw track k
          ≠ ((mul32 (samples_to_read song_length sw) 3 : Nat) : Int)
      · rw [if_pos hw]
        exact ⟨rfl, le_refl _, hsw⟩
      · rw [if_neg hw]
        have hadd : add32 sw (samples_to_read song_length sw)
            = sw + samples_to_read song_length sw := by
          apply add32_small
          rw [hn]
          omega
        rw [hadd]
        have hrec := ih (sw + samples_to_read song_length sw)
          (read_samples audio track (samples_to_read song_length sw) 0 loc buf).location (k + 1)
          (read_samples audio track (samples_to_read song_length sw) 0 loc buf).byte_buffer
          (by rw [hn]; omega) (by rw [hn]; omega)
        have h1 := hrec.2.1
        dsimp only
        exact ⟨hrec.1, by omega, hrec.2.2⟩
    · rw [if_neg hlt]
      exact ⟨rfl, le_refl _, hsw⟩

theorem gui_samples_to_read_max_length (samples_written : Nat) :
    samples_to_read 4294967295 samples_written = 1024 := by
  unfold samples_to_read add32 BUFFER_SIZE UINT32_MOD
  have h : ¬ ((samples_written + 1024) % 4294967296 > 4294967295) := by omega
  rw [if_neg h]

theorem gui_write_loop_never_returns (env : Env) (audio : Nat → Nat → Nat) (fname : CString)
    (track_num total_tracks : Int) (track : Nat)
    (hw : ∀ k : Nat, env.sf_write_raw track k = 3072) :
    ∀ (fuel samples_written location k : Nat) (byte_buffer : Nat → Nat),
      samples_written % 1024 = 0 → samples_written < 4294967296 →
      (write_loop env audio fname track_num total_tracks 4294967295 track fuel samples_written location k
          byte_buffer).returned = false := by
  intro fuel
  induction fuel with
  | zero =>
    intro sw loc k buf hmod hlt
    have h : sw < 4294967295 := by omega
    simp [write_loop, h]
  | succ f ih =>
    intro sw loc k buf hmod hlt
    have h : sw < 4294967295 := by omega
    have hmul : mul32 1024 3 = 3072 := by decide
    have hsame : ¬ (env.sf_write_raw track k ≠ ((3072 : Nat) : Int)) := by
      rw [hw k]
      exact fun h1 => h1 rfl
    rw [write_loop, if_pos h]
    dsimp only
    rw [gui_samples_to_read_max_length, hmul, if_neg hsame]
    dsimp only
    apply ih
    · unfold add32 UINT32_MOD
      omega
    · unfold add32 UINT32_MOD
      omega

theorem gui_read_samples_no_write (audio : Nat → Nat → Nat) (track : Nat) :
    ∀ (n s location : Nat) (byte_buffer : Nat → Nat),
      written_bytes (read_samples audio track n s location byte_buffer).events = 0 := by
  intro n
  induction n with
  | zero =>
    intro s loc buf
    rfl
  | succ m ih =>
    intro s loc buf
    rw [read_samples]
    dsimp only
    rw [written_bytes]
    · exact ih _ _ _
    · intro t bytes w h
      exact Event.noConfusion h

theorem gui_write_loop_never_returns_bytes (env : Env) (audio : Nat → Nat → Nat) (fname : CString)
    (track_num total_tracks : Int) (track : Nat)
    (hw : ∀ k : Nat, env.sf_write_raw track k = 3072) :
    ∀ (fuel samples_written location k : Nat) (byte_buffer : Nat → Nat),
      samples_written % 1024 = 0 → samples_written < 4294967296 →
      written_bytes (write_loop env audio fname track_num total_tracks 4294967295 track fuel samples_written location k
          byte_buffer).events = 3072 * fuel := by
  intro fuel
  induction fuel with
  | zero =>
    intro sw loc k buf hmod hlt
    rfl
  | succ f ih =>
    intro sw loc k buf hmod hlt
    have h : sw < 4294967295 := by omega
    have hmul : mul32 1024 3 = 3072 := by decide
    have hsame : ¬ (env.sf_write_raw track k ≠ ((3072 : Nat) : Int)) := by
      rw [hw k]
      exact fun h1 => h1 rfl
    rw [write_loop, if_pos h]
    dsimp only
    rw [gui_samples_to_read_max_length, hmul, if_neg hsame]
    dsimp only
    have hrec := ih (add32 sw 1024) (read_samples audio track 1024 0 loc buf).location (k + 1)
      (read_samples audio track 1024 0 loc buf).byte_buffer
      (by unfold add32 UINT32_MOD; omega) (by unfold add32 UINT32_MOD; omega)
    rw [written_bytes_append, written_bytes_append, gui_read_samples_no_write]
    simp only [written_bytes, peek_length]
    rw [hrec]
    omega

theorem gui_read_samples_location (audio : Nat → Nat → Nat) (track : Nat) :
    ∀ (n s location : Nat) (byte_buffer : Nat → Nat),
      (read_samples audio track n s location byte_buffer).location = location + n := by
  intro n
  induction n with
  | zero =>
    intro s loc buf
    rfl
  | succ m ih =>
    intro s loc buf
    rw [read_samples]
    dsimp only
    rw [ih]
    simp only [getmultitracksample]
    omega

theorem gui_write_loop_complete (env : Env) (audio : Nat → Nat → Nat) (fname : CString)
    (track_num total_tracks : Int) (song_length track : Nat)
    (hF : song_length + 1024 ≤ 4294967296)
    (hok : ∀ k : Nat, k * 1024 < song_length →
      env.sf_write_raw track k = ((3 * min 1024 (song_length - k * 1024) : Nat) : Int)) :
    ∀ (fuel samples_written location k : Nat) (byte_buffer : Nat → Nat),
      samples_written ≤ song_length →
      (samples_written = k * 1024 ∨ samples_written = song_length) →
      (song_length - samples_written + 1023) / 1024 ≤ fuel →
      (write_loop env audio fname track_num total_tracks song_length track fuel samples_written location k
          byte_buffer).returned = true
      ∧ (write_loop env audio fname track_num total_tracks song_length track fuel samples_written location k
          byte_buffer).samples_written = song_length
      ∧ (write_loop env audio fname track_num total_tracks song_length track fuel samples_written location k
          byte_buffer).location = location + (song_length - samples_written)
      ∧ written_bytes (write_loop env audio fname track_num total_tracks song_length track fuel samples_written location k
          byte_buffer).events = 3 * (song_length - samples_written) := by
  intro fuel
  induction fuel with
  | zero =>
    intro sw loc k buf hsw _ hfuel
    have heq : sw = song_length := by omega
    have hnot : ¬ sw < song_length := by omega
    subst heq
    simp [write_loop, written_bytes]
  | succ f ih =>
    intro sw loc k buf hsw hk hfuel
    rw [write_loop]
    by_cases hlt : sw < song_length
    · have hsw_k : sw = k * 1024 := by
        rcases hk with h | h
        · exact h
        · omega
      rw [if_pos hlt]
      dsimp only
      have hn := gui_samples_to_read_eq song_length sw hF hlt
      have hmul : mul32 (samples_to_read song_length sw) 3
          = 3 * min 1024 (song_length - sw) := by
        rw [mul32_small _ _ (by rw [hn]; omega), hn]
        omega
      have hwrite := hok k (by omega)
      rw [← hsw_k] at hwrite
      have hsame : ¬ (env.sf_write_raw track k
          ≠ ((mul32 (samples_to_read song_length sw) 3 : Nat) : Int)) := by
        rw [hmul, hwrite]
        exact fun h1 => h1 rfl
      rw [if_neg hsame]
      have hadd : add32 sw (samples_to_read song_length sw)
          = sw + samples_to_read song_length sw := by
        apply add32_small
        rw [hn]
        omega
      rw [hadd]
      have hrec := ih (sw + samples_to_read song_length sw)
        (read_samples audio track (samples_to_read song_length sw) 0 loc buf).location (k + 1)
        (read_samples audio track (samples_to_read song_length sw) 0 loc buf).byte_buffer
        (by rw [hn]; omega) (by rw [hn]; omega) (by rw [hn]; omega)
      obtain ⟨h1, h2, h3, h4⟩ := hrec
      dsimp only
      refine ⟨h1, h2, ?_, ?_⟩
      · rw [h3, gui_read_samples_location, hn]
        omega
      · rw [written_bytes_append, written_bytes_append, gui_read_samples_no_write]
        simp only [written_bytes, peek_length]
        rw [h4, hmul, hn]
        omega
    · rw [if_neg hlt]
      have heq : sw = song_length := by omega
      subst heq
      simp [written_bytes]

theorem gui_track_loop_returns (env : Env) (fuel : Nat) (audio : Nat → Nat → Nat)
    (export_dir song_name : CString) (track_browser : List Bool)
    (sample_rate song_length : Nat) (total_tracks : Int)
    (hF : song_length + 1024 ≤ 4294967296) (hfuel : song_length / 1024 < fuel) :
    ∀ (n : Nat) (t track_num : Int) (location : Nat) (byte_buffer : Nat → Nat),
      (track_loop env fuel audio export_dir song_name track_browser sample_rate song_length
          total_tracks n t track_num location byte_buffer).returned = true := by
  intro n
  induction n with
  | zero =>
    intro t tn loc buf
    rfl
  | succ m ih =>
    intro t tn loc buf
    rw [track_loop]
    split
    · exact ih _ _ _ _
    · dsimp only
      split
      · exact ih _ _ _ _
      · have hret := (gui_write_loop_bounded env audio (filename export_dir song_name t)
          (tn + 1) total_tracks song_length (t - 1).toNat hF fuel 0 0 0 buf (Nat.zero_le _)
          (by omega)).1
        rw [if_neg (HD24.bnot_ne_true _ hret)]
        exact ih _ _ _ _

theorem gui_export_tracks_completed (env : Env) (fuel : Nat) (g : Gui)
    (h1 : 1 ≤ g.song_browser_value) (h2 : g.song_browser_value ≤ (g.songs.length : Int))
    (hcount : count_selected g.track_browser ≠ 0)
    (hF : u32 (g.songs.getD (g.song_browser_value - 1).toNat default).song_length + 1024
        ≤ 4294967296)
    (hfuel : u32 (g.songs.getD (g.song_browser_value - 1).toNat default).song_length / 1024
        < fuel) :
    (export_tracks env fuel g).status = Status.finished
    ∧ ∃ pre : List Event, (export_tracks env fuel g).events = pre ++ [Event.show_completed] := by
  have hidx : ¬ (g.song_browser_value < 1 ∨ g.song_browser_value > (g.songs.length : Int)) := by
    omega
  have hret := gui_track_loop_returns env fuel
    (g.songs.getD (g.song_browser_value - 1).toNat default).song.audio g.export_dir
    (g.songs.getD (g.song_browser_value - 1).toNat default).song_name g.track_browser
    (u32 (g.songs.getD (g.song_browser_value - 1).toNat default).sample_rate)
    (u32 (g.songs.getD (g.song_browser_value - 1).toNat default).song_length)
    (count_selected g.track_browser) hF hfuel g.track_browser.length 1 0
    (g.songs.getD (g.song_browser_value - 1).toNat default).song.location env.fresh
  unfold export_tracks
  dsimp only
  rw [if_neg hidx, if_neg hcount, if_neg (HD24.bnot_ne_true _ hret)]
  exact ⟨rfl, _, rfl⟩

theorem gui_track_loop_hangs (env : Env) (fuel : Nat) (audio : Nat → Nat → Nat)
    (export_dir song_name : CString) (track_browser : List Bool) (sample_rate : Nat)
    (total_tracks : Int) (n : Nat) (track_num : Int) (location : Nat)
    (byte_buffer : Nat → Nat) (hsel : checked track_browser 1 = true)
    (hopen : env.sf_open 0 = true) (hw : ∀ k : Nat, env.sf_write_raw 0 k = 3072) :
    (track_loop env fuel audio export_dir song_name track_browser sample_rate 4294967295
        total_tracks (n + 1) 1 track_num location byte_buffer).returned = false := by
  have hloop := gui_write_loop_never_returns env audio (filename export_dir song_name 1)
    (track_num + 1) total_tracks 0 hw fuel 0 0 0 byte_buffer rfl (by decide)
  have ht : ((1 : Int) - 1).toNat = 0 := rfl
  rw [track_loop, if_neg (HD24.bnot_ne_true _ hsel)]
  dsimp only
  rw [ht, if_neg (HD24.bnot_ne_true _ hopen), hloop]
  rfl

theorem gui_export_tracks_hangs (env : Env) (fuel : Nat) (g : Gui) (n : Nat)
    (h1 : 1 ≤ g.song_browser_value) (h2 : g.song_browser_value ≤ (g.songs.length : Int))
    (hitems : g.track_browser.length = n + 1)
    (hlen : u32 (g.songs.getD (g.song_browser_value - 1).toNat default).song_length
      = 4294967295)
    (hflag : g.track_browser.getD 0 false = true) (hopen : env.sf_open 0 = true)
    (hw : ∀ k : Nat, env.sf_write_raw 0 k = 3072) :
    (export_tracks env fuel g).status = Status.out_of_fuel := by
  have hidx : ¬ (g.song_browser_value < 1 ∨ g.song_browser_value > (g.songs.length : Int)) := by
    omega
  have hcount : count_selected g.track_browser ≠ 0 := by
    intro h0
    have := (gui_count_selected_eq_zero_iff _).mp h0 0 (by omega)
    rw [hflag] at this
    exact Bool.noConfusion this
  have hsel : checked g.track_browser 1 = true := by
    have := checked_succ g.track_browser 0
    simp only [Nat.cast_zero, zero_add] at this
    rw [this, hflag]
  unfold export_tracks
  dsimp only
  rw [if_neg hidx, if_neg hcount, hlen, hitems,
    gui_track_loop_hangs env fuel _ _ _ _ _ _ n 0 _ _ hsel hopen hw]
  rfl

theorem gui_samples_to_read_bounds (song_length samples_written : Nat)
    (hlt : samples_written < song_length) :
    1 ≤ samples_to_read song_length samples_written
      ∧ samples_to_read song_length samples_written ≤ 1024 := by
  unfold samples_to_read add32 sub32 BUFFER_SIZE UINT32_MOD
  split <;> omega

theorem gui_read_samples_bounded (audio : Nat → Nat → Nat) (track : Nat) :
    ∀ (n s location : Nat) (byte_buffer : Nat → Nat),
      ∀ e ∈ (read_samples audio track n s location byte_buffer).events, chunk_bounded e := by
  intro n
  induction n with
  | zero =>
    intro s loc buf e he
    simp [read_samples] at he
  | succ m ih =>
    intro s loc buf e he
    rw [read_samples] at he
    dsimp only at he
    rcases List.mem_cons.mp he with h | h
    · rw [h]
      trivial
    · exact ih _ _ _ e h

theorem gui_write_loop_chunks_bounded (env : Env) (audio : Nat → Nat → Nat)
    (fname : CString) (track_num total_tracks : Int) (song_length track : Nat) :
    ∀ (fuel samples_written location k : Nat) (byte_buffer : Nat → Nat),
      ∀ e ∈ (write_loop env audio fname track_num total_tracks song_length track fuel samples_written location k
          byte_buffer).events, chunk_bounded e := by
  intro fuel
  induction fuel with
  | zero =>
    intro sw loc k buf e he
    simp [write_loop] at he
  | succ f ih =>
    intro sw loc k buf e he
    rw [write_loop] at he
    by_cases hlt : sw < song_length
    · rw [if_pos hlt] at he
      dsimp only at he
      obtain ⟨h1, h2⟩ := gui_samples_to_read_bounds song_length sw hlt
      have hmul : mul32 (samples_to_read song_length sw) 3
          = samples_to_read song_length sw * 3 := mul32_small _ _ (by omega)
      have hwrite : chunk_bounded (Event.sf_write_raw track
          (peek (read_samples audio track (samples_to_read song_length sw) 0 loc
            buf).byte_buffer (mul32 (samples_to_read song_length sw) 3))
          (env.sf_write_raw track k)) := by
        show 3 ≤ (peek _ _).length ∧ (peek _ _).length ≤ BUFFER_SIZE * 3
        rw [peek_length, hmul]
        unfold BUFFER_SIZE
        omega
      by_cases hw : env.sf_write_raw track k
          ≠ ((mul32 (samples_to_read song_length sw) 3 : Nat) : Int)
      · rw [if_pos hw] at he
        dsimp only at he
        rcases List.mem_append.mp he with h | h
        · rcases List.mem_append.mp h with h' | h'
          · exact gui_read_samples_bounded _ _ _ _ _ _ e h'
          · rw [List.mem_singleton.mp h']
            exact hwrite
        · rw [List.mem_singleton.mp h]
          trivial
      · rw [if_neg hw] at he
        dsimp only at he
        rcases List.mem_append.mp he with h | h
        · rcases List.mem_append.mp h with h' | h'
          · exact gui_read_samples_bounded _ _ _ _ _ _ e h'
          · rw [List.mem_singleton.mp h']
            exact hwrite
        · rcases List.mem_cons.mp h with h' | h'
          · rw [h']
            trivial
          · exact ih _ _ _ _ e h'
    · rw [if_neg hlt] at he
      simp at he

theorem gui_track_loop_chunks_bounded (env : Env) (fuel : Nat) (audio : Nat → Nat → Nat)
    (export_dir song_name : CString) (track_browser : List Bool)
    (sample_rate song_length : Nat) (total_tracks : Int) :
    ∀ (n : Nat) (t track_num : Int) (location : Nat) (byte_buffer : Nat → Nat),
      ∀ e ∈ (track_loop env fuel audio export_dir song_name track_browser sample_rate
          song_length total_tracks n t track_num location byte_buffer).events,
        chunk_bounded e := by
  intro n
  induction n with
  | zero =>
    intro t tn loc buf e he
    simp [track_loop] at he
  | succ m ih =>
    intro t tn loc buf e he
    rw [track_loop] at he
    split at he
    · exact ih _ _ _ _ e he
    · dsimp only at he
      split at he
      · dsimp only at he
        rcases List.mem_append.mp he with h | h
        · simp only [List.mem_cons, List.mem_singleton, List.not_mem_nil, or_false] at h
          rcases h with h | h <;> (rw [h]; trivial)
        · rcases List.mem_cons.mp h with h' | h'
          · rw [h']
            trivial
          · exact ih _ _ _ _ e h'
      · split at he
        · dsimp only at he
          rcases List.mem_append.mp he with h | h
          · simp only [List.mem_cons, List.mem_singleton, List.not_mem_nil, or_false] at h
            rcases h with h | h <;> (rw [h]; trivial)
          · rcases List.mem_cons.mp h with h' | h'
            · rw [h']
              trivial
            · exact gui_write_loop_chunks_bounded _ _ _ _ _ _ _ _ _ _ _ _ e h'
        · dsimp only at he
          rcases List.mem_append.mp he with h | h
          · simp only [List.mem_cons, List.mem_singleton, List.not_mem_nil, or_false] at h
            rcases h with h | h <;> (rw [h]; trivial)
          · rcases List.mem_cons.mp h with h' | h'
            · rw [h']
              trivial
            · rcases List.mem_append.mp h' with h2 | h2
              · exact gui_write_loop_chunks_bounded _ _ _ _ _ _ _ _ _ _ _ _ e h2
              · rcases List.mem_cons.mp h2 with h3 | h3
                · rw [h3]
                  trivial
                · exact ih _ _ _ _ e h3

theorem gui_export_tracks_chunks_bounded (env : Env) (fuel : Nat) (g : Gui) :
    ∀ e ∈ (export_tracks env fuel g).events, chunk_bounded e := by
  intro e he
  unfold export_tracks at he
  dsimp only at he
  split at he
  · simp at he
  · split at he
    · simp only [List.mem_singleton] at he
      rw [he]
      trivial
    · split at he
      · dsimp only at he
        rcases List.mem_append.mp he with h | h
        · rw [List.mem_singleton.mp h]
          trivial
        · exact gui_track_loop_chunks_bounded _ _ _ _ _ _ _ _ _ _ _ _ _ _ e h
      · dsimp only at he
        rcases List.mem_append.mp he with h | h
        · rcases List.mem_append.mp h with h' | h'
          · rw [List.mem_singleton.mp h']
            trivial
          · exact gui_track_loop_chunks_bounded _ _ _ _ _ _ _ _ _ _ _ _ _ _ e h'
        · rw [List.mem_singleton.mp h]
          trivial

theorem gui_read_samples_write_count (audio : Nat → Nat → Nat) (track : Nat) :
    ∀ (n s location : Nat) (byte_buffer : Nat → Nat),
      write_count (read_samples audio track n s location byte_buffer).events = 0 := by
  intro n
  induction n with
  | zero =>
    intro s loc buf
    rfl
  | succ m ih =>
    intro s loc buf
    rw [read_samples]
    dsimp only
    rw [write_count]
    · exact ih _ _ _
    · intro t bytes w h
      exact Event.noConfusion h

theorem gui_samples_to_read_wrap (song_length samples_written : Nat)
    (hF1 : 4294966272 < song_length) (hF2 : song_length < 4294967296)
    (hmod : samples_written % 1024 = 0) (_hsw : samples_written < 4294967296) :
    samples_to_read song_length samples_written = 1024 := by
  unfold samples_to_read add32 BUFFER_SIZE UINT32_MOD
  have h : ¬ ((samples_written + 1024) % 4294967296 > song_length) := by omega
  rw [if_neg h]

theorem gui_write_loop_never_returns_large (env : Env) (audio : Nat → Nat → Nat) (fname : CString)
    (track_num total_tracks : Int) (song_length track : Nat) (hF1 : 4294966272 < song_length)
    (hF2 : song_length < 4294967296) (hw : ∀ k : Nat, env.sf_write_raw track k = 3072) :
    ∀ (fuel samples_written location k : Nat) (byte_buffer : Nat → Nat),
      samples_written % 1024 = 0 → samples_written < 4294967296 →
      (write_loop env audio fname track_num total_tracks song_length track fuel samples_written location k
          byte_buffer).returned = false
      ∧ write_count (write_loop env audio fname track_num total_tracks song_length track fuel samples_written location k
          byte_buffer).events = fuel := by
  intro fuel
  induction fuel with
  | zero =>
    intro sw loc k buf hmod hlt
    have h : sw < song_length := by omega
    simp [write_loop, h, write_count]
  | succ f ih =>
    intro sw loc k buf hmod hlt
    have h : sw < song_length := by omega
    have hmul : mul32 1024 3 = 3072 := by decide
    have hsame : ¬ (env.sf_write_raw track k ≠ ((3072 : Nat) : Int)) := by
      rw [hw k]
      exact fun h1 => h1 rfl
    rw [write_loop, if_pos h]
    dsimp only
    rw [gui_samples_to_read_wrap song_length sw hF1 hF2 hmod hlt, hmul, if_neg hsame]
    dsimp only
    obtain ⟨h1, h2⟩ := ih (add32 sw 1024) (read_samples audio track 1024 0 loc buf).location
      (k + 1) (read_samples audio track 1024 0 loc buf).byte_buffer
      (by unfold add32 UINT32_MOD; omega) (by unfold add32 UINT32_MOD; omega)
    refine ⟨h1, ?_⟩
    rw [write_count_append, write_count_append, gui_read_samples_write_count]
    simp only [write_count]
    rw [h2]
    omega

theorem gui_write_loop_write_count (env : Env) (audio : Nat → Nat → Nat) (fname : CString)
    (track_num total_tracks : Int) (song_length track : Nat)
    (hF : song_length + 1024 ≤ 4294967296)
    (hok : ∀ k : Nat, k * 1024 < song_length →
      env.sf_write_raw track k = ((3 * min 1024 (song_length - k * 1024) : Nat) : Int)) :
    ∀ (fuel samples_written location k : Nat) (byte_buffer : Nat → Nat),
      samples_written ≤ song_length →
      (samples_written = k * 1024 ∨ samples_written = song_length) →
      (song_length - samples_written + 1023) / 1024 ≤ fuel →
      write_count (write_loop env audio fname track_num total_tracks song_length track fuel samples_written location k
          byte_buffer).events = (song_length - samples_written + 1023) / 1024 := by
  intro fuel
  induction fuel with
  | zero =>
    intro sw loc k buf hsw _ hfuel
    have heq : sw = song_length := by omega
    subst heq
    simp [write_loop, write_count]
  | succ f ih =>
    intro sw loc k buf hsw hk hfuel
    rw [write_loop]
    by_cases hlt : sw < song_length
    · have hsw_k : sw = k * 1024 := by
        rcases hk with h | h
        · exact h
        · omega
      rw [if_pos hlt]
      dsimp only
      have hn := gui_samples_to_read_eq song_length sw hF hlt
      have hmul : mul32 (samples_to_read song_length sw) 3
          = 3 * min 1024 (song_length - sw) := by
        rw [mul32_small _ _ (by rw [hn]; omega), hn]
        omega
      have hwrite := hok k (by omega)
      rw [← hsw_k] at hwrite
      have hsame : ¬ (env.sf_write_raw track k
          ≠ ((mul32 (samples_to_read song_length sw) 3 : Nat) : Int)) := by
        rw [hmul, hwrite]
        exact fun h1 => h1 rfl
      rw [if_neg hsame]
      have hadd : add32 sw (samples_to_read song_length sw)
          = sw + samples_to_read song_length sw := by
        apply add32_small
        rw [hn]
        omega
      rw [hadd]
      have hrec := ih (sw + samples_to_read song_length sw)
        (read_samples audio track (samples_to_read song_length sw) 0 loc buf).location (k + 1)
        (read_samples audio track (samples_to_read song_length sw) 0 loc buf).byte_buffer
        (by rw [hn]; omega) (by rw [hn]; omega) (by rw [hn]; omega)
      dsimp only
      rw [write_count_append, write_count_append, gui_read_samples_write_count]
      simp only [write_count]
      rw [hrec, hn]
      omega
    · rw [if_neg hlt]
      have heq : sw = song_length := by omega
      subst heq
      simp [write_count]

theorem gui_song_loop_pairs (proj : hd24project) (i count : Nat) (hcount : count < 4294967295) :
    ∀ (fuel n j : Nat), j + n = count + 1 → n < fuel →
      (song_loop proj i count fuel j).returned = true
      ∧ (song_loop proj i count fuel j).songs.map (fun s => (s.project_id, s.song_id))
        = ((List.range' j n).filter (fun j => (proj.getsong j).isSome)).map
            (fun j => (i, j)) := by
  intro fuel
  induction fuel with
  | zero =>
    intro n j _ h
    exact absurd h (Nat.not_lt_zero _)
  | succ f ih =>
    intro n j hj hf
    rw [song_loop]
    cases n with
    | zero =>
      rw [if_neg (by omega)]
      exact ⟨rfl, rfl⟩
    | succ m =>
      rw [if_pos (by omega), add32_small j 1 (by omega), List.range'_succ]
      obtain ⟨h1, h2⟩ := ih m (j + 1) (by omega) (by omega)
      cases hs : proj.getsong j with
      | none =>
        rw [List.filter_cons_of_neg (by simp [hs])]
        exact ⟨h1, h2⟩
      | some song =>
        rw [List.filter_cons_of_pos (by simp [hs])]
        refine ⟨h1, ?_⟩
        simp only [List.map_cons]
        rw [h2]
        rfl

theorem gui_project_loop_pairs (fs : hd24fs) (count inner_fuel : Nat)
    (hcount : count < 4294967295)
    (hsongs : ∀ (i : Nat) (proj : hd24project), fs.getproject i = some proj →
      u32 proj.songcount < 4294967295 ∧ u32 proj.songcount < inner_fuel) :
    ∀ (fuel n i : Nat), i + n = count + 1 → n < fuel →
      (project_loop fs count inner_fuel fuel i).returned = true
      ∧ (project_loop fs count inner_fuel fuel i).songs.map
          (fun s => (s.project_id, s.song_id))
        = (List.range' i n).flatMap (fun i =>
            match fs.getproject i with
            | none => []
            | some proj =>
              ((List.range' 1 (u32 proj.songcount)).filter
                (fun j => (proj.getsong j).isSome)).map (fun j => (i, j))) := by
  intro fuel
  induction fuel with
  | zero =>
    intro n i _ h
    exact absurd h (Nat.not_lt_zero _)
  | succ f ih =>
    intro n i hi hf
    rw [project_loop]
    cases n with
    | zero =>
      rw [if_neg (by omega)]
      exact ⟨rfl, rfl⟩
    | succ m =>
      rw [if_pos (by omega), add32_small i 1 (by omega), List.range'_succ, List.flatMap_cons]
      obtain ⟨h1, h2⟩ := ih m (i + 1) (by omega) (by omega)
      cases hp : fs.getproject i with
      | none =>
        simp only [List.nil_append]
        exact ⟨h1, h2⟩
      | some proj =>
        obtain ⟨hc, hfuel⟩ := hsongs i proj hp
        obtain ⟨k1, k2⟩ := gui_song_loop_pairs proj i (u32 proj.songcount) hc inner_fuel
          (u32 proj.songcount) 1 (by omega) hfuel
        dsimp only
        rw [if_neg (HD24.bnot_ne_true _ k1)]
        refine ⟨h1, ?_⟩
        simp only [List.map_append]
        rw [k2, h2]

theorem gui_song_loop_entries (proj : hd24project) (i count : Nat) :
    ∀ (fuel j : Nat), ∀ s ∈ (song_loop proj i count fuel j).songs,
      ∃ song : hd24song, proj.getsong s.song_id = some song
        ∧ s = song_entry proj song i s.song_id := by
  intro fuel
  induction fuel with
  | zero =>
    intro j s hs
    simp [song_loop] at hs
  | succ f ih =>
    intro j s hs
    rw [song_loop] at hs
    by_cases hle : j ≤ count
    · rw [if_pos hle] at hs
      cases hg : proj.getsong j with
      | none =>
        rw [hg] at hs
        exact ih _ s hs
      | some song =>
        rw [hg] at hs
        rcases List.mem_cons.mp hs with h | h
        · rw [h]
          exact ⟨song, hg, rfl⟩
        · exact ih _ s h
    · rw [if_neg hle] at hs
      simp at hs

theorem gui_project_loop_entries (fs : hd24fs) (count inner_fuel : Nat) :
    ∀ (fuel i : Nat), ∀ s ∈ (project_loop fs count inner_fuel fuel i).songs,
      ∃ (proj : hd24project) (song : hd24song), fs.getproject s.project_id = some proj
        ∧ proj.getsong s.song_id = some song
        ∧ s = song_entry proj song s.project_id s.song_id := by
  intro fuel
  induction fuel with
  | zero =>
    intro i s hs
    simp [project_loop] at hs
  | succ f ih =>
    intro i s hs
    rw [project_loop] at hs
    by_cases hle : i ≤ count
    · rw [if_pos hle] at hs
      cases hg : fs.getproject i with
      | none =>
        rw [hg] at hs
        exact ih _ s hs
      | some proj =>
        rw [hg] at hs
        dsimp only at hs
        have hinner : ∀ s ∈ (song_loop proj i (u32 proj.songcount) inner_fuel 1).songs,
            ∃ (proj : hd24project) (song : hd24song), fs.getproject s.project_id = some proj
              ∧ proj.getsong s.song_id = some song
              ∧ s = song_entry proj song s.project_id s.song_id := by
          intro s h
          obtain ⟨song, h1, h2⟩ := gui_song_loop_entries proj i _ _ _ s h
          have hid : s.project_id = i := by rw [h2]; rfl
          rw [hid]
          exact ⟨proj, song, hg, h1, h2⟩
        split at hs
        · exact hinner s hs
        · rcases List.mem_append.mp hs with h | h
          · exact hinner s h
          · exact ih _ s h
    · rw [if_neg hle] at hs
      simp at hs

theorem gui_song_loop_never_returns (proj : hd24project) (i : Nat) :
    ∀ (fuel j : Nat), j < 4294967296 →
      (song_loop proj i 4294967295 fuel j).returned = false := by
  intro fuel
  induction fuel with
  | zero =>
    intro j hj
    exact decide_eq_false (by omega)
  | succ f ih =>
    intro j hj
    have hnext : add32 j 1 < 4294967296 := by
      unfold add32 UINT32_MOD
      omega
    rw [song_loop, if_pos (by omega)]
    cases proj.getsong j with
    | none => exact ih _ hnext
    | some song => exact ih _ hnext

theorem gui_song_loop_length (proj : hd24project) (i : Nat)
    (hall : ∀ j : Nat, (proj.getsong j).isSome = true) :
    ∀ (fuel j : Nat), j < 4294967296 →
      (song_loop proj i 4294967295 fuel j).songs.length = fuel := by
  intro fuel
  induction fuel with
  | zero =>
    intro j _
    rfl
  | succ f ih =>
    intro j hj
    have hnext : add32 j 1 < 4294967296 := by
      unfold add32 UINT32_MOD
      omega
    rw [song_loop, if_pos (by omega)]
    cases hs : proj.getsong j with
    | none =>
      have h := hall j
      rw [hs] at h
      cases h
    | some song =>
      show (song_loop proj i 4294967295 f (add32 j 1)).songs.length + 1 = f + 1
      rw [ih _ hnext]

theorem gui_project_loop_never_returns (fs : hd24fs) (inner_fuel : Nat) :
    ∀ (fuel i : Nat), i < 4294967296 →
      (project_loop fs 4294967295 inner_fuel fuel i).returned = false := by
  intro fuel
  induction fuel with
  | zero =>
    intro i hi
    exact decide_eq_false (by omega)
  | succ f ih =>
    intro i hi
    have hnext : add32 i 1 < 4294967296 := by
      unfold add32 UINT32_MOD
      omega
    rw [project_loop, if_pos (by omega)]
    cases fs.getproject i with
    | none => exact ih _ hnext
    | some proj =>
      dsimp only
      split
      · rfl
      · exact ih _ hnext

theorem gui_project_loop_max_songs (fuel : Nat) :
    (project_loop max_songs_fs 1 fuel fuel 1).returned = false
    ∧ (project_loop max_songs_fs 1 fuel fuel 1).songs.length = fuel := by
  have hcount : u32 max_songs_project.songcount = 4294967295 := by decide
  cases fuel with
  | zero => exact ⟨rfl, rfl⟩
  | succ f =>
    have hproj : max_songs_fs.getproject 1 = some max_songs_project := rfl
    have hret := gui_song_loop_never_returns max_songs_project 1 (f + 1) 1 (by decide)
    have hlen := gui_song_loop_length max_songs_project 1 (fun _ => rfl) (f + 1) 1 (by decide)
    rw [project_loop, if_pos (le_refl 1), hproj]
    dsimp only
    rw [hcount, hret]
    exact ⟨rfl, hlen⟩

theorem gui_load_songs_open (g : Gui) (fs : hd24fs) (fuel : Nat) (hopen : fs.isOpen = true) :
    (load_songs g fs fuel).returned
      = (project_loop fs (u32 fs.projectcount) fuel fuel 1).returned
    ∧ (load_songs g fs fuel).gui.songs
      = (project_loop fs (u32 fs.projectcount) fuel fuel 1).songs := by
  unfold load_songs
  rw [if_neg (HD24.bnot_ne_true _ hopen)]
  exact ⟨rfl, rfl⟩

theorem gui_load_songs_below_max (g : Gui) (fs : hd24fs) (fuel : Nat)
    (hopen : fs.isOpen = true)
    (hprojects : u32 fs.projectcount < 4294967295)
    (hsongs : ∀ (i : Nat) (proj : hd24project), fs.getproject i = some proj →
      u32 proj.songcount < 4294967295)
    (hfuel : u32 fs.projectcount < fuel)
    (hfuel_songs : ∀ (i : Nat) (proj : hd24project), fs.getproject i = some proj →
      u32 proj.songcount < fuel) :
    (load_songs g fs fuel).returned = true
    ∧ (load_songs g fs fuel).gui.songs.map (fun s => (s.project_id, s.song_id))
        = catalog_pairs fs
    ∧ ((load_songs g fs fuel).gui.songs.map (fun s => (s.project_id, s.song_id))).Nodup
    ∧ ∀ s ∈ (load_songs g fs fuel).gui.songs,
        ∃ (proj : hd24project) (song : hd24song), fs.getproject s.project_id = some proj
          ∧ proj.getsong s.song_id = some song
          ∧ s = song_entry proj song s.project_id s.song_id := by
  obtain ⟨h1, h2⟩ := gui_project_loop_pairs fs (u32 fs.projectcount) fuel hprojects
    (fun i proj h => ⟨hsongs i proj h, hfuel_songs i proj h⟩) fuel (u32 fs.projectcount) 1
    (by omega) hfuel
  obtain ⟨k1, k2⟩ := gui_load_songs_open g fs fuel hopen
  rw [k1, k2]
  refine ⟨h1, h2, ?_, gui_project_loop_entries fs _ _ fuel 1⟩
  rw [h2]
  exact catalog_pairs_nodup fs

theorem gui_read_samples_stream (audio : Nat → Nat → Nat) (track : Nat) (state : Option Nat) :
    ∀ (n s location : Nat) (byte_buffer : Nat → Nat),
      (read_samples audio track n s location byte_buffer).events.foldl stream_step (some state)
          = some state
      ∧ opened_tracks (read_samples audio track n s location byte_buffer).events = [] := by
  intro n
  induction n with
  | zero =>
    intro s loc buf
    exact ⟨rfl, rfl⟩
  | succ m ih =>
    intro s loc buf
    rw [read_samples]
    dsimp only
    exact ih _ _ _

theorem gui_write_loop_stream (env : Env) (audio : Nat → Nat → Nat) (fname : CString)
    (track_num total_tracks : Int) (song_length track : Nat) :
    ∀ (fuel samples_written location k : Nat) (byte_buffer : Nat → Nat),
      (write_loop env audio fname track_num total_tracks song_length track fuel samples_written location k
          byte_buffer).events.foldl stream_step (some (some track)) = some (some track)
      ∧ opened_tracks (write_loop env audio fname track_num total_tracks song_length track fuel samples_written location k
          byte_buffer).events = [] := by
  intro fuel
  induction fuel with
  | zero =>
    intro sw loc k buf
    exact ⟨rfl, rfl⟩
  | succ f ih =>
    intro sw loc k buf
    rw [write_loop]
    by_cases hlt : sw < song_length
    · rw [if_pos hlt]
      dsimp only
      obtain ⟨h1, h2⟩ := gui_read_samples_stream audio track (some track)
        (samples_to_read song_length sw) 0 loc buf
      by_cases hw : env.sf_write_raw track k
          ≠ ((mul32 (samples_to_read song_length sw) 3 : Nat) : Int)
      · rw [if_pos hw]
        dsimp only
        rw [List.foldl_append, List.foldl_append, h1, opened_tracks_append,
          opened_tracks_append, h2]
        simp [stream_step, opened_tracks]
      · rw [if_neg hw]
        dsimp only
        obtain ⟨k1, k2⟩ := ih (add32 sw (samples_to_read song_length sw))
          (read_samples audio track (samples_to_read song_length sw) 0 loc buf).location (k + 1)
          (read_samples audio track (samples_to_read song_length sw) 0 loc buf).byte_buffer
        rw [List.foldl_append, List.foldl_append, h1, opened_tracks_append,
          opened_tracks_append, h2]
        simp only [List.foldl_cons, List.foldl_nil, stream_step, if_true, opened_tracks,
          List.nil_append]
        exact ⟨k1, k2⟩
    · rw [if_neg hlt]
      exact ⟨rfl, rfl⟩

theorem gui_track_loop_stream (env : Env) (fuel : Nat) (audio : Nat → Nat → Nat)
    (export_dir song_name : CString) (track_browser : List Bool)
    (sample_rate song_length : Nat) (total_tracks : Int) :
    ∀ (n i : Nat) (track_num : Int) (location : Nat) (byte_buffer : Nat → Nat),
      (∃ state : Option Nat,
        (track_loop env fuel audio export_dir song_name track_browser sample_rate song_length
            total_tracks n ((i : Int) + 1) track_num location byte_buffer).events.foldl
          stream_step (some none) = some state
        ∧ ((track_loop env fuel audio export_dir song_name track_browser sample_rate
            song_length total_tracks n ((i : Int) + 1) track_num location
            byte_buffer).returned = true → state = none))
      ∧ (opened_tracks (track_loop env fuel audio export_dir song_name track_browser
            sample_rate song_length total_tracks n ((i : Int) + 1) track_num location
            byte_buffer).events
          <+: (List.range' i n).filter (fun i => track_browser.getD i false))
      ∧ ((track_loop env fuel audio export_dir song_name track_browser sample_rate
            song_length total_tracks n ((i : Int) + 1) track_num location
            byte_buffer).returned = true →
          opened_tracks (track_loop env fuel audio export_dir song_name track_browser
            sample_rate song_length total_tracks n ((i : Int) + 1) track_num location
            byte_buffer).events
          = (List.range' i n).filter (fun i => track_browser.getD i false)) := by
  intro n
  induction n with
  | zero =>
    intro i tn loc buf
    exact ⟨⟨none, rfl, fun _ => rfl⟩, List.prefix_refl _, fun _ => rfl⟩
  | succ m ih =>
    intro i tn loc buf
    have hcast : (i : Int) + 1 + 1 = ((i + 1 : Nat) : Int) + 1 := by push_cast; ring
    have htrack : ((i : Int) + 1 - 1).toNat = i := by omega
    rw [track_loop, List.range'_succ, checked_succ, htrack, hcast]
    by_cases hsel : track_browser.getD i false = true
    · rw [if_neg (HD24.bnot_ne_true _ hsel),
        List.filter_cons_of_pos (p := fun i => track_browser.getD i false) hsel]
      dsimp only
      by_cases hopen : env.sf_open i = true
      · rw [if_neg (HD24.bnot_ne_true _ hopen)]
        obtain ⟨w1, w2⟩ := gui_write_loop_stream env audio
          (filename export_dir song_name ((i : Int) + 1)) (tn + 1) total_tracks song_length i
          fuel 0 0 0 buf
        by_cases hret : (write_loop env audio (filename export_dir song_name ((i : Int) + 1))
            (tn + 1) total_tracks song_length i fuel 0 0 0 buf).returned = true
        · rw [if_neg (HD24.bnot_ne_true _ hret)]
          dsimp only
          obtain ⟨⟨st, h1, h2⟩, h3, h4⟩ := ih (i + 1) (tn + 1)
            (write_loop env audio (filename export_dir song_name ((i : Int) + 1)) (tn + 1)
              total_tracks song_length i fuel 0 0 0 buf).location
            (write_loop env audio (filename export_dir song_name ((i : Int) + 1)) (tn + 1)
              total_tracks song_length i fuel 0 0 0 buf).byte_buffer
          refine ⟨⟨st, ?_, h2⟩, ?_, ?_⟩
          · simp only [List.foldl_append, List.foldl_cons, List.foldl_nil, stream_step, hopen,
              if_true, w1]
            exact h1
          · simp only [opened_tracks_append, opened_tracks, w2, List.nil_append,
              List.cons_append]
            exact (List.prefix_cons_inj i).mpr h3
          · intro hr
            simp only [opened_tracks_append, opened_tracks, w2, List.nil_append,
              List.cons_append]
            rw [h4 hr]
        · rw [if_pos (HD24.bnot_eq_true_of _ hret)]
          refine ⟨⟨some i, ?_, fun h => absurd h (by simp)⟩, ?_, fun h => absurd h (by simp)⟩
          · simp only [List.foldl_append, List.foldl_cons, List.foldl_nil, stream_step, hopen,
              if_true, w1]
          · simp only [opened_tracks_append, opened_tracks, w2, List.nil_append,
              List.cons_append, List.append_nil]
            exact (List.prefix_cons_inj i).mpr List.nil_prefix
      · rw [if_pos (HD24.bnot_eq_true_of _ hopen)]
        dsimp only
        obtain ⟨⟨st, h1, h2⟩, h3, h4⟩ := ih (i + 1) (tn + 1) loc buf
        have hfalse : env.sf_open i = false := by
          cases h : env.sf_open i
          · rfl
          · exact absurd h hopen
        refine ⟨⟨st, ?_, h2⟩, ?_, ?_⟩
        · simp only [List.foldl_append, List.foldl_cons, List.foldl_nil, stream_step, hfalse]
          exact h1
        · simp only [opened_tracks_append, opened_tracks, List.nil_append, List.cons_append]
          exact (List.prefix_cons_inj i).mpr h3
        · intro hr
          simp only [opened_tracks_append, opened_tracks, List.nil_append, List.cons_append]
          rw [h4 hr]
    · rw [if_pos (HD24.bnot_eq_true_of _ hsel),
        List.filter_cons_of_neg (p := fun i => track_browser.getD i false) hsel]
      exact ih (i + 1) tn loc buf

theorem gui_selected_tracks_eq (track_browser : List Bool) :
    selected_tracks track_browser
      = (List.range track_browser.length).filter (fun i => track_browser.getD i false) := by
  unfold selected_tracks selected_items
  rw [List.filter_map, List.map_map]
  have hf : (fun t => checked track_browser t) ∘ (fun (i : Nat) => (i : Int) + 1)
      = fun i => track_browser.getD i false := by
    funext i
    exact checked_succ track_browser i
  have hg : (fun (t : Int) => (t - 1).toNat) ∘ (fun (i : Nat) => (i : Int) + 1) = id := by
    funext i
    show ((i : Int) + 1 - 1).toNat = i
    omega
  rw [hf, hg, List.map_id]

theorem gui_export_tracks_stream (env : Env) (fuel : Nat) (g : Gui) :
    (∃ state : Option Nat,
      (export_tracks env fuel g).events.foldl stream_step (some none) = some state
      ∧ ((export_tracks env fuel g).status ≠ Status.out_of_fuel → state = none))
    ∧ (opened_tracks (export_tracks env fuel g).events <+: selected_tracks g.track_browser)
    ∧ ((export_tracks env fuel g).status = Status.finished →
        opened_tracks (export_tracks env fuel g).events = selected_tracks g.track_browser) := by
  rw [gui_selected_tracks_eq]
  unfold export_tracks
  dsimp only
  split
  · exact ⟨⟨none, rfl, fun _ => rfl⟩, List.nil_prefix, fun h => by cases h⟩
  · split
    · exact ⟨⟨none, rfl, fun _ => rfl⟩, List.nil_prefix, fun h => by cases h⟩
    · obtain ⟨⟨st, h1, h2⟩, h3, h4⟩ := gui_track_loop_stream env fuel
        (g.songs.getD (g.song_browser_value - 1).toNat default).song.audio g.export_dir
        (g.songs.getD (g.song_browser_value - 1).toNat default).song_name g.track_browser
        (u32 (g.songs.getD (g.song_browser_value - 1).toNat default).sample_rate)
        (u32 (g.songs.getD (g.song_browser_value - 1).toNat default).song_length)
        (count_selected g.track_browser) g.track_browser.length 0 0
        (g.songs.getD (g.song_browser_value - 1).toNat default).song.location env.fresh
      rw [← List.range_eq_range'] at h3 h4
      have h01 : ((0 : Nat) : Int) + 1 = 1 := rfl
      rw [h01] at h1 h2 h3 h4
      split
      · refine ⟨⟨st, ?_, fun h => absurd rfl h⟩, ?_, fun h => by cases h⟩
        · simp only [List.foldl_append, List.foldl_cons, List.foldl_nil, stream_step]
          exact h1
        · simp only [opened_tracks_append, opened_tracks, List.nil_append]
          exact h3
      · rename_i hret
        have hr : (track_loop env fuel
            (g.songs.getD (g.song_browser_value - 1).toNat default).song.audio g.export_dir
            (g.songs.getD (g.song_browser_value - 1).toNat default).song_name g.track_browser
            (u32 (g.songs.getD (g.song_browser_value - 1).toNat default).sample_rate)
            (u32 (g.songs.getD (g.song_browser_value - 1).toNat default).song_length)
            (count_selected g.track_browser) g.track_browser.length 1 0
            (g.songs.getD (g.song_browser_value - 1).toNat default).song.location
            env.fresh).returned = true := by
          simpa using hret
        have hst := h2 hr
        rw [hst] at h1
        have e1 : ∀ d : CString, opened_tracks [Event.mkdir d] = [] := fun _ => rfl
        have e2 : opened_tracks [Event.show_completed] = [] := rfl
        refine ⟨⟨none, ?_, fun _ => rfl⟩, ?_, fun _ => ?_⟩
        · rw [List.foldl_append, List.foldl_append]
          simp only [List.foldl_cons, List.foldl_nil, stream_step]
          rw [h1]
        · rw [opened_tracks_append, opened_tracks_append, e1, e2, List.nil_append,
            List.append_nil]
          exact h3
        · rw [opened_tracks_append, opened_tracks_append, e1, e2, List.nil_append,
            List.append_nil]
          exact h4 hr

theorem gui_selected_tracks_pairwise (track_browser : List Bool) :
    (selected_tracks track_browser).Pairwise (fun a b => a < b) := by
  rw [gui_selected_tracks_eq]
  exact List.Pairwise.filter _ (List.pairwise_lt_range track_browser.length)

theorem gui_mem_selected_tracks (track_browser : List Bool) (t : Nat) :
    t ∈ selected_tracks track_browser ↔ checked track_browser ((t : Int) + 1) = true := by
  rw [gui_selected_tracks_eq, List.mem_filter, List.mem_range, checked_succ]
  constructor
  · exact fun h => h.2
  · intro h
    refine ⟨?_, h⟩
    by_contra hlt
    rw [List.getD_eq_default _ _ (by omega)] at h
    cases h

theorem gui_read_samples_truncation (audio : Nat → Nat → Nat) (track : Nat) :
    ∀ (n s location : Nat) (byte_buffer : Nat → Nat),
      (read_samples audio track n s location byte_buffer).events.foldl truncation_step
          (some none) = some none
      ∧ ok_bytes (read_samples audio track n s location byte_buffer).events = 0
      ∧ ∀ e ∈ (read_samples audio track n s location byte_buffer).events,
          truncated e = false := by
  intro n
  induction n with
  | zero =>
    intro s loc buf
    exact ⟨rfl, rfl, fun e he => by cases he⟩
  | succ m ih =>
    intro s loc buf
    rw [read_samples]
    dsimp only
    obtain ⟨h1, h2, h3⟩ := ih (s + 1) (getmultitracksample audio loc).2
      (store_sample buf s ((getmultitracksample audio loc).1 track))
    refine ⟨h1, h2, ?_⟩
    intro e he
    rcases List.mem_cons.mp he with rfl | he
    · rfl
    · exact h3 e he

theorem gui_write_loop_truncation (env : Env) (audio : Nat → Nat → Nat) (fname : CString)
    (track_num total_tracks : Int) (song_length track : Nat) :
    ∀ (fuel samples_written location k : Nat) (byte_buffer : Nat → Nat),
      ((write_loop env audio fname track_num total_tracks song_length track fuel samples_written location k
          byte_buffer).events.foldl truncation_step (some none) = some none
        ∧ ∀ e ∈ (write_loop env audio fname track_num total_tracks song_length track fuel samples_written location k
            byte_buffer).events, truncated e = false)
      ∨ ((write_loop env audio fname track_num total_tracks song_length track fuel samples_written location k
            byte_buffer).events.foldl truncation_step (some none) = some (some track)
          ∧ (write_loop env audio fname track_num total_tracks song_length track fuel samples_written location k
            byte_buffer).returned = true
          ∧ ∃ (pre : List Event) (bytes : List Nat) (written : Int),
              (write_loop env audio fname track_num total_tracks song_length track fuel samples_written location k
                byte_buffer).events
                = pre ++ [Event.sf_write_raw track bytes written, Event.show_write_error fname]
              ∧ written ≠ ((bytes.length : Nat) : Int)
              ∧ ∀ e ∈ pre, truncated e = false) := by
  intro fuel
  induction fuel with
  | zero =>
    intro sw loc k buf
    exact Or.inl ⟨rfl, fun e he => by cases he⟩
  | succ f ih =>
    intro sw loc k buf
    rw [write_loop]
    by_cases hlt : sw < song_length
    · rw [if_pos hlt]
      dsimp only
      obtain ⟨h1, _, h3⟩ := gui_read_samples_truncation audio track
        (samples_to_read song_length sw) 0 loc buf
      have hlen := peek_length
        (read_samples audio track (samples_to_read song_length sw) 0 loc buf).byte_buffer
        (mul32 (samples_to_read song_length sw) 3)
      by_cases hw : env.sf_write_raw track k
          ≠ ((mul32 (samples_to_read song_length sw) 3 : Nat) : Int)
      · rw [if_pos hw]
        dsimp only
        refine Or.inr ⟨?_, rfl, _, _, _, List.append_assoc _ _ _, ?_, h3⟩
        · rw [List.foldl_append, List.foldl_append, h1]
          simp only [List.foldl_cons, List.foldl_nil, truncation_step, hlen]
          rw [if_pos hw]
        · rw [hlen]
          exact hw
      · rw [if_neg hw]
        dsimp only
        have hstep : (([Event.sf_write_raw track
            (peek (read_samples audio track (samples_to_read song_length sw) 0 loc
              buf).byte_buffer (mul32 (samples_to_read song_length sw) 3))
            (env.sf_write_raw track k)] : List Event)).foldl truncation_step (some none)
            = some none := by
          simp only [List.foldl_cons, List.foldl_nil, truncation_step, hlen]
          rw [if_neg hw]
        have hnot : truncated (Event.sf_write_raw track
            (peek (read_samples audio track (samples_to_read song_length sw) 0 loc
              buf).byte_buffer (mul32 (samples_to_read song_length sw) 3))
            (env.sf_write_raw track k)) = false := by
          simp only [truncated, hlen]
          exact decide_eq_false hw
        have hpre : ∀ e ∈ (read_samples audio track (samples_to_read song_length sw) 0 loc
            buf).events ++ [Event.sf_write_raw track
              (peek (read_samples audio track (samples_to_read song_length sw) 0 loc
                buf).byte_buffer (mul32 (samples_to_read song_length sw) 3))
              (env.sf_write_raw track k)], truncated e = false := by
          intro e he
          rcases List.mem_append.mp he with he | he
          · exact h3 e he
          · rw [List.mem_singleton] at he
            rw [he]
            exact hnot
        have hfold : ((read_samples audio track (samples_to_read song_length sw) 0 loc
            buf).events ++ [Event.sf_write_raw track
              (peek (read_samples audio track (samples_to_read song_length sw) 0 loc
                buf).byte_buffer (mul32 (samples_to_read song_length sw) 3))
              (env.sf_write_raw track k)]).foldl truncation_step (some none) = some none := by
          rw [List.foldl_append, h1, hstep]
        generalize (read_samples audio track (samples_to_read song_length sw) 0 loc
            buf).events ++ [Event.sf_write_raw track
              (peek (read_samples audio track (samples_to_read song_length sw) 0 loc
                buf).byte_buffer (mul32 (samples_to_read song_length sw) 3))
              (env.sf_write_raw track k)] = xs at hpre hfold ⊢
        rcases ih (add32 sw (samples_to_read song_length sw))
          (read_samples audio track (samples_to_read song_length sw) 0 loc buf).location (k + 1)
          (read_samples audio track (samples_to_read song_length sw) 0 loc buf).byte_buffer
          with ⟨k1, k2⟩ | ⟨k1, k2, pre, bytes, written, k3, k4, k5⟩
        · refine Or.inl ⟨?_, ?_⟩
          · rw [List.foldl_append, hfold]
            exact k1
          · intro e he
            rcases List.mem_append.mp he with he | he
            · exact hpre e he
            · rcases List.mem_cons.mp he with rfl | he
              · rfl
              · exact k2 e he
        · refine Or.inr ⟨?_, k2, xs ++ Event.show_progress
              (progress_percent track_num total_tracks
                (add32 sw (samples_to_read song_length sw)) song_length) :: pre, bytes, written, ?_, k4, ?_⟩
          · rw [List.foldl_append, hfold]
            exact k1
          · rw [k3]
            simp
          · intro e he
            rcases List.mem_append.mp he with he | he
            · exact hpre e he
            · rcases List.mem_cons.mp he with rfl | he
              · rfl
              · exact k5 e he
    · rw [if_neg hlt]
      exact Or.inl ⟨rfl, fun e he => by cases he⟩

theorem gui_write_loop_counter (env : Env) (audio : Nat → Nat → Nat) (fname : CString)
    (track_num total_tracks : Int) (song_length track : Nat) :
    ∀ (fuel samples_written location k : Nat) (byte_buffer : Nat → Nat),
      samples_written < 4294967296 →
      (write_loop env audio fname track_num total_tracks song_length track fuel samples_written location k
          byte_buffer).samples_written
        = u32 (samples_written + ok_bytes (write_loop env audio fname track_num total_tracks song_length track fuel
            samples_written location k byte_buffer).events / 3) := by
  intro fuel
  induction fuel with
  | zero =>
    intro sw loc k buf hsw
    show sw = u32 (sw + 0 / 3)
    unfold u32 UINT32_MOD
    omega
  | succ f ih =>
    intro sw loc k buf hsw
    rw [write_loop]
    by_cases hlt : sw < song_length
    · rw [if_pos hlt]
      dsimp only
      obtain ⟨_, h2, _⟩ := gui_read_samples_truncation audio track
        (samples_to_read song_length sw) 0 loc buf
      have hlen := peek_length
        (read_samples audio track (samples_to_read song_length sw) 0 loc buf).byte_buffer
        (mul32 (samples_to_read song_length sw) 3)
      obtain ⟨hn1, hn2⟩ := gui_samples_to_read_bounds song_length sw hlt
      have hm := mul32_small (samples_to_read song_length sw) 3 (by omega)
      by_cases hw : env.sf_write_raw track k
          ≠ ((mul32 (samples_to_read song_length sw) 3 : Nat) : Int)
      · rw [if_pos hw]
        dsimp only
        rw [ok_bytes_append, ok_bytes_append, h2]
        simp only [ok_bytes, hlen]
        rw [if_neg hw]
        unfold u32 UINT32_MOD
        omega
      · rw [if_neg hw]
        dsimp only
        have hw1 : env.sf_write_raw track k
            = ((mul32 (samples_to_read song_length sw) 3 : Nat) : Int) := not_not.mp hw
        have hlt1 : add32 sw (samples_to_read song_length sw) < 4294967296 := by
          unfold add32 UINT32_MOD
          omega
        rw [ih (add32 sw (samples_to_read song_length sw))
          (read_samples audio track (samples_to_read song_length sw) 0 loc buf).location (k + 1)
          (read_samples audio track (samples_to_read song_length sw) 0 loc buf).byte_buffer
          hlt1, ok_bytes_append, ok_bytes_append, h2]
        simp only [ok_bytes, hlen]
        rw [if_pos hw1, hm]
        unfold u32 add32 UINT32_MOD
        omega
    · rw [if_neg hlt]
      show sw = u32 (sw + 0 / 3)
      unfold u32 UINT32_MOD
      omega

theorem gui_track_loop_truncation (env : Env) (fuel : Nat) (audio : Nat → Nat → Nat)
    (export_dir song_name : CString) (track_browser : List Bool)
    (sample_rate song_length : Nat) (total_tracks : Int) :
    ∀ (n : Nat) (t track_num : Int) (location : Nat) (byte_buffer : Nat → Nat),
      (track_loop env fuel audio export_dir song_name track_browser sample_rate song_length
          total_tracks n t track_num location byte_buffer).events.foldl
        truncation_step (some none) = some none := by
  intro n
  induction n with
  | zero =>
    intro t tn loc buf
    rfl
  | succ m ih =>
    intro t tn loc buf
    rw [track_loop]
    by_cases hsel : checked track_browser t = true
    · rw [if_neg (HD24.bnot_ne_true _ hsel)]
      dsimp only
      by_cases hopen : env.sf_open (t - 1).toNat = true
      · rw [if_neg (HD24.bnot_ne_true _ hopen)]
        by_cases hret : (write_loop env audio (filename export_dir song_name t) (tn + 1)
            total_tracks song_length (t - 1).toNat fuel 0 0 0 buf).returned = true
        · rw [if_neg (HD24.bnot_ne_true _ hret)]
          dsimp only
          have hrest := ih (t + 1) (tn + 1)
            (write_loop env audio (filename export_dir song_name t) (tn + 1) total_tracks
              song_length (t - 1).toNat fuel 0 0 0 buf).location
            (write_loop env audio (filename export_dir song_name t) (tn + 1) total_tracks
              song_length (t - 1).toNat fuel 0 0 0 buf).byte_buffer
          rcases gui_write_loop_truncation env audio (filename export_dir song_name t) (tn + 1)
            total_tracks song_length (t - 1).toNat fuel 0 0 0 buf
            with ⟨k1, _⟩ | ⟨k1, _, _⟩
          · simp only [List.foldl_append, List.foldl_cons, List.foldl_nil, truncation_step, k1]
            exact hrest
          · simp only [List.foldl_append, List.foldl_cons, List.foldl_nil, truncation_step, k1,
              if_true]
            exact hrest
        · rw [if_pos (HD24.bnot_eq_true_of _ hret)]
          rcases gui_write_loop_truncation env audio (filename export_dir song_name t) (tn + 1)
            total_tracks song_length (t - 1).toNat fuel 0 0 0 buf
            with ⟨k1, _⟩ | ⟨_, k2, _⟩
          · simp only [List.foldl_append, List.foldl_cons, List.foldl_nil, truncation_step, k1]
          · exact absurd k2 hret
      · rw [if_pos (HD24.bnot_eq_true_of _ hopen)]
        dsimp only
        simp only [List.foldl_append, List.foldl_cons, List.foldl_nil, truncation_step]
        exact ih (t + 1) (tn + 1) loc buf
    · rw [if_pos (HD24.bnot_eq_true_of _ hsel)]
      exact ih (t + 1) tn loc buf

theorem gui_export_tracks_truncation (env : Env) (fuel : Nat) (g : Gui) :
    (export_tracks env fuel g).events.foldl truncation_step (some none) = some none := by
  unfold export_tracks
  dsimp only
  have h1 := gui_track_loop_truncation env fuel
    (g.songs.getD (g.song_browser_value - 1).toNat default).song.audio g.export_dir
    (g.songs.getD (g.song_browser_value - 1).toNat default).song_name g.track_browser
    (u32 (g.songs.getD (g.song_browser_value - 1).toNat default).sample_rate)
    (u32 (g.songs.getD (g.song_browser_value - 1).toNat default).song_length)
    (count_selected g.track_browser) g.track_browser.length 1 0
    (g.songs.getD (g.song_browser_value - 1).toNat default).song.location env.fresh
  split
  · rfl
  · split
    · rfl
    · split
      · simp only [List.foldl_append, List.foldl_cons, List.foldl_nil, truncation_step]
        exact h1
      · rw [List.foldl_append, List.foldl_append]
        simp only [List.foldl_cons, List.foldl_nil, truncation_step]
        rw [h1]

theorem gui_write_loop_truncated_step (env : Env) (audio : Nat → Nat → Nat) (fname : CString)
    (track_num total_tracks : Int)
    (song_length track fuel samples_written location k : Nat) (byte_buffer : Nat → Nat)
    (hloop : samples_written < song_length)
    (htrunc : env.sf_write_raw track k
      ≠ ((mul32 (samples_to_read song_length samples_written) 3 : Nat) : Int)) :
    (write_loop env audio fname track_num total_tracks song_length track (fuel + 1)
        samples_written location k byte_buffer).returned = true
    ∧ (write_loop env audio fname track_num total_tracks song_length track (fuel + 1)
        samples_written location k byte_buffer).samples_written = samples_written
    ∧ (write_loop env audio fname track_num total_tracks song_length track (fuel + 1)
        samples_written location k byte_buffer).events
      = (read_samples audio track (samples_to_read song_length samples_written) 0 location
          byte_buffer).events
        ++ [Event.sf_write_raw track
            (peek (read_samples audio track (samples_to_read song_length samples_written) 0
              location byte_buffer).byte_buffer
              (mul32 (samples_to_read song_length samples_written) 3))
            (env.sf_write_raw track k),
          Event.show_write_error fname] := by
  rw [write_loop, if_pos hloop]
  dsimp only
  rw [if_pos htrunc]
  exact ⟨rfl, rfl, List.append_assoc _ _ _⟩

theorem gui_write_loop_truncated_last (env : Env) (audio : Nat → Nat → Nat) (fname : CString)
    (track_num total_tracks : Int)
    (song_length track fuel samples_written location k : Nat) (byte_buffer : Nat → Nat)
    (h : ∃ e ∈ (write_loop env audio fname track_num total_tracks song_length track fuel
      samples_written location k byte_buffer).events, truncated e = true) :
    (write_loop env audio fname track_num total_tracks song_length track fuel samples_written
        location k byte_buffer).returned = true
    ∧ ∃ (pre : List Event) (bytes : List Nat) (written : Int),
        (write_loop env audio fname track_num total_tracks song_length track fuel
          samples_written location k byte_buffer).events
          = pre ++ [Event.sf_write_raw track bytes written, Event.show_write_error fname]
        ∧ written ≠ ((bytes.length : Nat) : Int)
        ∧ ∀ e ∈ pre, truncated e = false := by
  rcases gui_write_loop_truncation env audio fname track_num total_tracks song_length track
    fuel samples_written location k byte_buffer with ⟨_, k2⟩ | ⟨_, k2, k3⟩
  · obtain ⟨e, he, ht⟩ := h
    rw [k2 e he] at ht
    cases ht
  · exact ⟨k2, k3⟩

theorem gui_track_loop_after_truncation (env : Env) (fuel : Nat) (audio : Nat → Nat → Nat)
    (export_dir song_name : CString) (track_browser : List Bool)
    (sample_rate song_length : Nat) (total_tracks : Int) (n : Nat) (t track_num : Int)
    (location : Nat) (byte_buffer : Nat → Nat)
    (hsel : checked track_browser t = true) (hopen : env.sf_open (t - 1).toNat = true)
    (h : ∃ e ∈ (write_loop env audio (filename export_dir song_name t) (track_num + 1)
      total_tracks song_length (t - 1).toNat fuel 0 0 0 byte_buffer).events,
      truncated e = true) :
    (track_loop env fuel audio export_dir song_name track_browser sample_rate song_length
        total_tracks (n + 1) t track_num location byte_buffer).events
      = [Event.show_track (track_num + 1) total_tracks,
          Event.sf_open (t - 1).toNat (filename export_dir song_name t) (castInt sample_rate) 1
            (SF_FORMAT_AIFF ||| SF_FORMAT_PCM_24) true,
          Event.currentlocation (t - 1).toNat 0]
        ++ (write_loop env audio (filename export_dir song_name t) (track_num + 1)
            total_tracks song_length (t - 1).toNat fuel 0 0 0 byte_buffer).events
        ++ Event.sf_close (t - 1).toNat ::
          (track_loop env fuel audio export_dir song_name track_browser sample_rate
            song_length total_tracks n (t + 1) (track_num + 1)
            (write_loop env audio (filename export_dir song_name t) (track_num + 1)
              total_tracks song_length (t - 1).toNat fuel 0 0 0 byte_buffer).location
            (write_loop env audio (filename export_dir song_name t) (track_num + 1)
              total_tracks song_length (t - 1).toNat fuel 0 0 0 byte_buffer).byte_buffer).events
            := by
  have hret := (gui_write_loop_truncated_last env audio (filename export_dir song_name t)
    (track_num + 1) total_tracks song_length (t - 1).toNat fuel 0 0 0 byte_buffer h).1
  rw [track_loop, if_neg (HD24.bnot_ne_true _ hsel)]
  dsimp only
  rw [if_neg (HD24.bnot_ne_true _ hopen), if_neg (HD24.bnot_ne_true _ hret), hopen]
  simp

theorem gui_store_sample_agree (b1 b2 : Nat → Nat) (s sample : Nat)
    (h : ∀ i : Nat, i < 3 * s → b1 i = b2 i) :
    ∀ i : Nat, i < 3 * (s + 1) → store_sample b1 s sample i = store_sample b2 s sample i := by
  intro i hi
  unfold store_sample poke
  by_cases h2 : i = s * 3 + 2
  · rw [if_pos h2, if_pos h2]
  · rw [if_neg h2, if_neg h2]
    by_cases h1 : i = s * 3 + 1
    · rw [if_pos h1, if_pos h1]
    · rw [if_neg h1, if_neg h1]
      by_cases h0 : i = s * 3 + 0
      · rw [if_pos h0, if_pos h0]
      · rw [if_neg h0, if_neg h0]
        exact h i (by omega)

theorem gui_read_samples_agree (audio : Nat → Nat → Nat) (track : Nat) :
    ∀ (n s location : Nat) (b1 b2 : Nat → Nat), (∀ i : Nat, i < 3 * s → b1 i = b2 i) →
      (read_samples audio track n s location b1).events
          = (read_samples audio track n s location b2).events
      ∧ (read_samples audio track n s location b1).location
          = (read_samples audio track n s location b2).location
      ∧ ∀ i : Nat, i < 3 * (s + n) →
          (read_samples audio track n s location b1).byte_buffer i
            = (read_samples audio track n s location b2).byte_buffer i := by
  intro n
  induction n with
  | zero =>
    intro s loc b1 b2 h
    exact ⟨rfl, rfl, h⟩
  | succ m ih =>
    intro s loc b1 b2 h
    rw [read_samples, read_samples]
    dsimp only
    obtain ⟨h1, h2, h3⟩ := ih (s + 1) (getmultitracksample audio loc).2
      (store_sample b1 s ((getmultitracksample audio loc).1 track))
      (store_sample b2 s ((getmultitracksample audio loc).1 track))
      (gui_store_sample_agree b1 b2 s _ h)
    refine ⟨by rw [h1], h2, ?_⟩
    intro i hi
    exact h3 i (by omega)

theorem gui_read_samples_cursor (audio : Nat → Nat → Nat) (track : Nat) :
    ∀ (n s location : Nat) (byte_buffer : Nat → Nat),
      (read_samples audio track n s location byte_buffer).events.foldl cursor_step
          (some (some location))
        = some (some (read_samples audio track n s location byte_buffer).location) := by
  intro n
  induction n with
  | zero =>
    intro s loc buf
    rfl
  | succ m ih =>
    intro s loc buf
    rw [read_samples]
    dsimp only
    rw [List.foldl_cons]
    simp only [cursor_step, if_true]
    exact ih (s + 1) (loc + 1) (store_sample buf s (audio loc track))

theorem gui_write_loop_agree (env1 env2 : Env) (audio : Nat → Nat → Nat) (fname : CString)
    (track_num total_tracks : Int) (song_length track : Nat)
    (hw : env1.sf_write_raw = env2.sf_write_raw) :
    ∀ (fuel samples_written location k : Nat) (b1 b2 : Nat → Nat),
      (write_loop env1 audio fname track_num total_tracks song_length track fuel samples_written location k b1).events
          = (write_loop env2 audio fname track_num total_tracks song_length track fuel samples_written location k b2).events
      ∧ (write_loop env1 audio fname track_num total_tracks song_length track fuel samples_written location k b1).returned
          = (write_loop env2 audio fname track_num total_tracks song_length track fuel samples_written location k
              b2).returned
      ∧ (write_loop env1 audio fname track_num total_tracks song_length track fuel samples_written location k
            b1).samples_written
          = (write_loop env2 audio fname track_num total_tracks song_length track fuel samples_written location k
              b2).samples_written
      ∧ (write_loop env1 audio fname track_num total_tracks song_length track fuel samples_written location k b1).location
          = (write_loop env2 audio fname track_num total_tracks song_length track fuel samples_written location k
              b2).location := by
  intro fuel
  induction fuel with
  | zero =>
    intro sw loc k b1 b2
    exact ⟨rfl, rfl, rfl, rfl⟩
  | succ f ih =>
    intro sw loc k b1 b2
    rw [write_loop, write_loop]
    by_cases hlt : sw < song_length
    · rw [if_pos hlt, if_pos hlt]
      dsimp only
      obtain ⟨h1, h2, h3⟩ := gui_read_samples_agree audio track (samples_to_read song_length sw) 0
        loc b1 b2 (fun i hi => absurd hi (by omega))
      have hpeek := HD24.peek_congr _ _ (3 * (0 + samples_to_read song_length sw))
        (mul32 (samples_to_read song_length sw) 3)
        (by unfold mul32; exact le_trans (Nat.mod_le _ _) (by omega)) h3
      rw [← hw, ← h1, ← h2, ← hpeek]
      by_cases hwr : env1.sf_write_raw track k
          ≠ ((mul32 (samples_to_read song_length sw) 3 : Nat) : Int)
      · rw [if_pos hwr, if_pos hwr]
        exact ⟨rfl, rfl, rfl, rfl⟩
      · rw [if_neg hwr, if_neg hwr]
        dsimp only
        obtain ⟨k1, k2, k3, k4⟩ := ih (add32 sw (samples_to_read song_length sw))
          (read_samples audio track (samples_to_read song_length sw) 0 loc b1).location (k + 1)
          (read_samples audio track (samples_to_read song_length sw) 0 loc b1).byte_buffer
          (read_samples audio track (samples_to_read song_length sw) 0 loc b2).byte_buffer
        exact ⟨by rw [k1], k2, k3, k4⟩
    · rw [if_neg hlt, if_neg hlt]
      exact ⟨rfl, rfl, rfl, rfl⟩

theorem gui_write_loop_cursor (env : Env) (audio : Nat → Nat → Nat) (fname : CString)
    (track_num total_tracks : Int) (song_length track : Nat) :
    ∀ (fuel samples_written location k : Nat) (byte_buffer : Nat → Nat),
      (write_loop env audio fname track_num total_tracks song_length track fuel samples_written location k
          byte_buffer).events.foldl cursor_step (some (some location))
        = some (some (write_loop env audio fname track_num total_tracks song_length track fuel samples_written location k
            byte_buffer).location) := by
  intro fuel
  induction fuel with
  | zero =>
    intro sw loc k buf
    rfl
  | succ f ih =>
    intro sw loc k buf
    rw [write_loop]
    by_cases hlt : sw < song_length
    · rw [if_pos hlt]
      dsimp only
      have h1 := gui_read_samples_cursor audio track (samples_to_read song_length sw) 0 loc buf
      by_cases hwr : env.sf_write_raw track k
          ≠ ((mul32 (samples_to_read song_length sw) 3 : Nat) : Int)
      · rw [if_pos hwr]
        dsimp only
        rw [List.foldl_append, List.foldl_append, h1]
        rfl
      · rw [if_neg hwr]
        dsimp only
        rw [List.foldl_append, List.foldl_append, h1]
        exact ih (add32 sw (samples_to_read song_length sw))
          (read_samples audio track (samples_to_read song_length sw) 0 loc buf).location (k + 1)
          (read_samples audio track (samples_to_read song_length sw) 0 loc buf).byte_buffer
    · rw [if_neg hlt]
      rfl

theorem gui_track_loop_agree (env1 env2 : Env) (fuel : Nat) (audio : Nat → Nat → Nat)
    (export_dir song_name : CString) (track_browser : List Bool)
    (sample_rate song_length : Nat) (total_tracks : Int)
    (ho : env1.sf_open = env2.sf_open) (hw : env1.sf_write_raw = env2.sf_write_raw) :
    ∀ (n : Nat) (t track_num : Int) (l1 l2 : Nat) (b1 b2 : Nat → Nat),
      (track_loop env1 fuel audio export_dir song_name track_browser sample_rate song_length
          total_tracks n t track_num l1 b1).events
        = (track_loop env2 fuel audio export_dir song_name track_browser sample_rate
            song_length total_tracks n t track_num l2 b2).events
      ∧ (track_loop env1 fuel audio export_dir song_name track_browser sample_rate song_length
          total_tracks n t track_num l1 b1).returned
        = (track_loop env2 fuel audio export_dir song_name track_browser sample_rate
            song_length total_tracks n t track_num l2 b2).returned := by
  intro n
  induction n with
  | zero =>
    intro t tn l1 l2 b1 b2
    exact ⟨rfl, rfl⟩
  | succ m ih =>
    intro t tn l1 l2 b1 b2
    rw [track_loop, track_loop]
    by_cases hsel : checked track_browser t = true
    · rw [if_neg (HD24.bnot_ne_true _ hsel), if_neg (HD24.bnot_ne_true _ hsel)]
      dsimp only
      rw [← ho]
      by_cases hopen : env1.sf_open (t - 1).toNat = true
      · rw [if_neg (HD24.bnot_ne_true _ hopen), if_neg (HD24.bnot_ne_true _ hopen)]
        obtain ⟨w1, w2, _, w4⟩ := gui_write_loop_agree env1 env2 audio
          (filename export_dir song_name t) (tn + 1) total_tracks song_length (t - 1).toNat hw
          fuel 0 0 0 b1 b2
        rw [← w1, ← w2, ← w4]
        by_cases hret : (write_loop env1 audio (filename export_dir song_name t) (tn + 1)
            total_tracks song_length (t - 1).toNat fuel 0 0 0 b1).returned = true
        · rw [if_neg (HD24.bnot_ne_true _ hret), if_neg (HD24.bnot_ne_true _ hret)]
          dsimp only
          obtain ⟨k1, k2⟩ := ih (t + 1) (tn + 1)
            (write_loop env1 audio (filename export_dir song_name t) (tn + 1) total_tracks
              song_length (t - 1).toNat fuel 0 0 0 b1).location
            (write_loop env1 audio (filename export_dir song_name t) (tn + 1) total_tracks
              song_length (t - 1).toNat fuel 0 0 0 b1).location
            (write_loop env1 audio (filename export_dir song_name t) (tn + 1) total_tracks
              song_length (t - 1).toNat fuel 0 0 0 b1).byte_buffer
            (write_loop env2 audio (filename export_dir song_name t) (tn + 1) total_tracks
              song_length (t - 1).toNat fuel 0 0 0 b2).byte_buffer
          exact ⟨by rw [k1], k2⟩
        · rw [if_pos (HD24.bnot_eq_true_of _ hret), if_pos (HD24.bnot_eq_true_of _ hret)]
          exact ⟨rfl, rfl⟩
      · rw [if_pos (HD24.bnot_eq_true_of _ hopen), if_pos (HD24.bnot_eq_true_of _ hopen)]
        dsimp only
        obtain ⟨k1, k2⟩ := ih (t + 1) (tn + 1) l1 l2 b1 b2
        exact ⟨by rw [k1], k2⟩
    · rw [if_pos (HD24.bnot_eq_true_of _ hsel), if_pos (HD24.bnot_eq_true_of _ hsel)]
      exact ih (t + 1) tn l1 l2 b1 b2

theorem gui_track_loop_cursor (env : Env) (fuel : Nat) (audio : Nat → Nat → Nat)
    (export_dir song_name : CString) (track_browser : List Bool)
    (sample_rate song_length : Nat) (total_tracks : Int) :
    ∀ (n : Nat) (t track_num : Int) (location : Nat) (byte_buffer : Nat → Nat)
      (cursor : Option Nat),
      ∃ cursor2 : Option Nat,
        (track_loop env fuel audio export_dir song_name track_browser sample_rate song_length
            total_tracks n t track_num location byte_buffer).events.foldl
          cursor_step (some cursor) = some cursor2 := by
  intro n
  induction n with
  | zero =>
    intro t tn loc buf c
    exact ⟨c, rfl⟩
  | succ m ih =>
    intro t tn loc buf c
    rw [track_loop]
    by_cases hsel : checked track_browser t = true
    · rw [if_neg (HD24.bnot_ne_true _ hsel)]
      dsimp only
      by_cases hopen : env.sf_open (t - 1).toNat = true
      · rw [if_neg (HD24.bnot_ne_true _ hopen)]
        have hl := gui_write_loop_cursor env audio (filename export_dir song_name t) (tn + 1)
          total_tracks song_length (t - 1).toNat fuel 0 0 0 buf
        by_cases hret : (write_loop env audio (filename export_dir song_name t) (tn + 1)
            total_tracks song_length (t - 1).toNat fuel 0 0 0 buf).returned = true
        · rw [if_neg (HD24.bnot_ne_true _ hret)]
          dsimp only
          obtain ⟨c2, h2⟩ := ih (t + 1) (tn + 1)
            (write_loop env audio (filename export_dir song_name t) (tn + 1) total_tracks
              song_length (t - 1).toNat fuel 0 0 0 buf).location
            (write_loop env audio (filename export_dir song_name t) (tn + 1) total_tracks
              song_length (t - 1).toNat fuel 0 0 0 buf).byte_buffer
            (some (write_loop env audio (filename export_dir song_name t) (tn + 1)
              total_tracks song_length (t - 1).toNat fuel 0 0 0 buf).location)
          refine ⟨c2, ?_⟩
          simp only [List.foldl_append, List.foldl_cons, List.foldl_nil, cursor_step, eq_self, if_true,
            hl]
          exact h2
        · rw [if_pos (HD24.bnot_eq_true_of _ hret)]
          refine ⟨some (write_loop env audio (filename export_dir song_name t) (tn + 1)
            total_tracks song_length (t - 1).toNat fuel 0 0 0 buf).location, ?_⟩
          simp only [List.foldl_append, List.foldl_cons, List.foldl_nil, cursor_step, eq_self, if_true,
            hl]
      · rw [if_pos (HD24.bnot_eq_true_of _ hopen)]
        dsimp only
        obtain ⟨c2, h2⟩ := ih (t + 1) (tn + 1) loc buf none
        refine ⟨c2, ?_⟩
        simp only [List.foldl_append, List.foldl_cons, List.foldl_nil, cursor_step]
        exact h2
    · rw [if_pos (HD24.bnot_eq_true_of _ hsel)]
      exact ih (t + 1) tn loc buf c

theorem gui_export_tracks_cursor (env : Env) (fuel : Nat) (g : Gui) :
    ∃ cursor : Option Nat,
      (export_tracks env fuel g).events.foldl cursor_step (some none) = some cursor := by
  unfold export_tracks
  dsimp only
  obtain ⟨c, h1⟩ := gui_track_loop_cursor env fuel
    (g.songs.getD (g.song_browser_value - 1).toNat default).song.audio g.export_dir
    (g.songs.getD (g.song_browser_value - 1).toNat default).song_name g.track_browser
    (u32 (g.songs.getD (g.song_browser_value - 1).toNat default).sample_rate)
    (u32 (g.songs.getD (g.song_browser_value - 1).toNat default).song_length)
    (count_selected g.track_browser) g.track_browser.length 1 0
    (g.songs.getD (g.song_browser_value - 1).toNat default).song.location env.fresh none
  split
  · exact ⟨none, rfl⟩
  · split
    · exact ⟨none, rfl⟩
    · refine ⟨c, ?_⟩
      split
      · simp only [List.foldl_append, List.foldl_cons, List.foldl_nil, cursor_step]
        exact h1
      · rw [List.foldl_append, List.foldl_append]
        simp only [List.foldl_cons, List.foldl_nil, cursor_step]
        rw [h1]

theorem gui_export_tracks_agree (env1 env2 : Env) (fuel : Nat) (g1 g2 : Gui)
    (ho : env1.sf_open = env2.sf_open) (hw : env1.sf_write_raw = env2.sf_write_raw)
    (hsel : g2.song_browser_value = g1.song_browser_value)
    (hflags : g2.track_browser = g1.track_browser) (hdir : g2.export_dir = g1.export_dir)
    (hlen : g2.songs.length = g1.songs.length)
    (hsongs : ∀ j : Nat, ∃ loc : Nat, g2.songs.getD j default
      = { g1.songs.getD j default with
          song := { (g1.songs.getD j default).song with location := loc } }) :
    (export_tracks env1 fuel g1).events = (export_tracks env2 fuel g2).events
    ∧ (export_tracks env1 fuel g1).status = (export_tracks env2 fuel g2).status := by
  unfold export_tracks
  dsimp only
  rw [hsel, hflags, hdir, hlen]
  by_cases hidx : g1.song_browser_value < 1 ∨ g1.song_browser_value > (g1.songs.length : Int)
  · rw [if_pos hidx, if_pos hidx]
    exact ⟨rfl, rfl⟩
  · rw [if_neg hidx, if_neg hidx]
    by_cases hcount : count_selected g1.track_browser = 0
    · rw [if_pos hcount, if_pos hcount]
      exact ⟨rfl, rfl⟩
    · rw [if_neg hcount, if_neg hcount]
      obtain ⟨loc, hloc⟩ := hsongs (g1.song_browser_value - 1).toNat
      rw [hloc]
      dsimp only
      obtain ⟨k1, k2⟩ := gui_track_loop_agree env1 env2 fuel
        (g1.songs.getD (g1.song_browser_value - 1).toNat default).song.audio g1.export_dir
        (g1.songs.getD (g1.song_browser_value - 1).toNat default).song_name g1.track_browser
        (u32 (g1.songs.getD (g1.song_browser_value - 1).toNat default).sample_rate)
        (u32 (g1.songs.getD (g1.song_browser_value - 1).toNat default).song_length)
        (count_selected g1.track_browser) ho hw g1.track_browser.length 1 0
        (g1.songs.getD (g1.song_browser_value - 1).toNat default).song.location loc
        env1.fresh env2.fresh
      rw [← k1, ← k2]
      split
      · exact ⟨rfl, rfl⟩
      · exact ⟨rfl, rfl⟩

theorem gui_export_tracks_songs_length (env : Env) (fuel : Nat) (g : Gui) :
    (export_tracks env fuel g).songs.length = g.songs.length := by
  unfold export_tracks
  dsimp only
  split
  · rfl
  · split
    · rfl
    · split <;> simp

theorem gui_export_tracks_songs_same (env : Env) (fuel : Nat) (g : Gui) (j : Nat) :
    ∃ loc : Nat, (export_tracks env fuel g).songs.getD j default
      = { g.songs.getD j default with
          song := { (g.songs.getD j default).song with location := loc } } := by
  unfold export_tracks
  dsimp only
  split
  · exact ⟨_, rfl⟩
  · split
    · exact ⟨_, rfl⟩
    · have key : ∀ (idx loc : Nat), ∃ loc2 : Nat,
          (g.songs.set idx { g.songs.getD idx default with
              song := { (g.songs.getD idx default).song with location := loc } }).getD j default
            = { g.songs.getD j default with
                song := { (g.songs.getD j default).song with location := loc2 } } := by
        intro idx loc
        by_cases hij : idx = j
        · subst hij
          by_cases hlen : idx < g.songs.length
          · refine ⟨loc, ?_⟩
            simp only [List.getD_eq_getElem?_getD, List.getElem?_set]
            simp [hlen]
          · refine ⟨(g.songs.getD idx default).song.location, ?_⟩
            rw [List.set_eq_of_length_le (by omega)]
        · refine ⟨(g.songs.getD j default).song.location, ?_⟩
          simp only [List.getD_eq_getElem?_getD, List.getElem?_set, if_neg hij]
      split <;> exact key _ _

theorem gui_filename_same (export_dir song_name : CString) (i : Nat) (hi : i < 4294967295) :
    filename export_dir song_name ((i : Int) + 1)
      = HD24Browser.filename export_dir song_name i := by
  have hneg : ¬ ((i : Int) + 1 < 0) := by omega
  have hnat : ((i : Int) + 1).toNat = i + 1 := by omega
  unfold filename HD24Browser.filename fmt_02d
  rw [if_neg hneg, hnat, add32_small i 1 (by omega)]

theorem gui_read_samples_same (audio : Nat → Nat → Nat) (track : Nat) :
    ∀ (n s location : Nat) (byte_buffer : Nat → Nat),
      (read_samples audio track n s location byte_buffer).events
          = (HD24Browser.read_samples audio track n s location byte_buffer).events
      ∧ (read_samples audio track n s location byte_buffer).location
          = (HD24Browser.read_samples audio track n s location byte_buffer).location
      ∧ (read_samples audio track n s location byte_buffer).byte_buffer
          = (HD24Browser.read_samples audio track n s location byte_buffer).byte_buffer := by
  intro n
  induction n with
  | zero =>
    intro s loc buf
    exact ⟨rfl, rfl, rfl⟩
  | succ m ih =>
    intro s loc buf
    rw [read_samples, HD24Browser.read_samples]
    dsimp only
    obtain ⟨h1, h2, h3⟩ := ih (s + 1) (getmultitracksample audio loc).2
      (store_sample buf s ((getmultitracksample audio loc).1 track))
    exact ⟨congrArg (List.cons _) h1, h2, h3⟩

theorem gui_write_loop_same (env : Env) (audio : Nat → Nat → Nat) (fname : CString)
    (track_num total_tracks : Int) (song_length track : Nat) :
    ∀ (fuel samples_written location k : Nat) (byte_buffer : Nat → Nat),
      (write_loop env audio fname track_num total_tracks song_length track fuel
          samples_written location k byte_buffer).events.filter is_io
        = (HD24Browser.write_loop env audio song_length track fuel samples_written location k
            byte_buffer).events.filter is_io
      ∧ (write_loop env audio fname track_num total_tracks song_length track fuel
          samples_written location k byte_buffer).returned
        = (HD24Browser.write_loop env audio song_length track fuel samples_written location k
            byte_buffer).returned
      ∧ (write_loop env audio fname track_num total_tracks song_length track fuel
          samples_written location k byte_buffer).location
        = (HD24Browser.write_loop env audio song_length track fuel samples_written location k
            byte_buffer).location
      ∧ (write_loop env audio fname track_num total_tracks song_length track fuel
          samples_written location k byte_buffer).byte_buffer
        = (HD24Browser.write_loop env audio song_length track fuel samples_written location k
            byte_buffer).byte_buffer := by
  intro fuel
  induction fuel with
  | zero =>
    intro sw loc k buf
    exact ⟨rfl, rfl, rfl, rfl⟩
  | succ f ih =>
    intro sw loc k buf
    have hn : samples_to_read song_length sw = HD24Browser.samples_to_read song_length sw := rfl
    rw [write_loop, HD24Browser.write_loop]
    by_cases hlt : sw < song_length
    · rw [if_pos hlt, if_pos hlt]
      dsimp only
      obtain ⟨h1, h2, h3⟩ := gui_read_samples_same audio track
        (HD24Browser.samples_to_read song_length sw) 0 loc buf
      rw [hn, h1, h2, h3]
      by_cases hw : env.sf_write_raw track k
          ≠ ((mul32 (HD24Browser.samples_to_read song_length sw) 3 : Nat) : Int)
      · rw [if_pos hw, if_pos hw]
        dsimp only
        refine ⟨?_, rfl, rfl, rfl⟩
        simp [List.filter_append, List.filter_cons, is_io]
      · rw [if_neg hw, if_neg hw]
        dsimp only
        obtain ⟨k1, k2, k3, k4⟩ := ih
          (add32 sw (HD24Browser.samples_to_read song_length sw))
          (HD24Browser.read_samples audio track (HD24Browser.samples_to_read song_length sw) 0
            loc buf).location (k + 1)
          (HD24Browser.read_samples audio track (HD24Browser.samples_to_read song_length sw) 0
            loc buf).byte_buffer
        refine ⟨?_, k2, k3, k4⟩
        simp only [List.filter_append, List.filter_cons, List.filter_nil, is_io]
        rw [k1]
        simp
    · rw [if_neg hlt, if_neg hlt]
      exact ⟨rfl, rfl, rfl, rfl⟩

theorem gui_track_loop_same (env : Env) (fuel : Nat) (audio : Nat → Nat → Nat)
    (export_dir song_name : CString) (track_browser track_selected : List Bool)
    (sample_rate song_length channels : Nat) (total_tracks selected_count : Int)
    (hch : channels ≤ 4294967295)
    (hflags : ∀ j : Nat, j < channels →
      track_browser.getD j false = track_selected.getD j false) :
    ∀ (n i : Nat) (tn1 tn2 total_bytes : Int) (location : Nat) (byte_buffer : Nat → Nat),
      i + n ≤ channels →
      (track_loop env fuel audio export_dir song_name track_browser sample_rate song_length
          total_tracks n ((i : Int) + 1) tn1 location byte_buffer).events.filter is_io
        = (HD24Browser.track_loop env fuel audio export_dir song_name track_selected
            sample_rate song_length selected_count n i tn2 total_bytes location
            byte_buffer).events.filter is_io
      ∧ (track_loop env fuel audio export_dir song_name track_browser sample_rate song_length
          total_tracks n ((i : Int) + 1) tn1 location byte_buffer).returned
        = (HD24Browser.track_loop env fuel audio export_dir song_name track_selected
            sample_rate song_length selected_count n i tn2 total_bytes location
            byte_buffer).returned := by
  intro n
  induction n with
  | zero =>
    intro i tn1 tn2 tb loc buf _
    exact ⟨rfl, rfl⟩
  | succ m ih =>
    intro i tn1 tn2 tb loc buf hle
    have hcast : (i : Int) + 1 + 1 = ((i + 1 : Nat) : Int) + 1 := by push_cast; ring
    have htrack : ((i : Int) + 1 - 1).toNat = i := by omega
    have hname := gui_filename_same export_dir song_name i (by omega)
    rw [track_loop, HD24Browser.track_loop, checked_succ, htrack, hcast, hname,
      hflags i (by omega)]
    by_cases hsel : track_selected.getD i false = true
    · rw [if_neg (HD24.bnot_ne_true _ hsel), if_neg (HD24.bnot_ne_true _ hsel)]
      dsimp only
      by_cases hopen : env.sf_open i = true
      · rw [if_neg (HD24.bnot_ne_true _ hopen), if_neg (HD24.bnot_ne_true _ hopen)]
        obtain ⟨w1, w2, w3, w4⟩ := gui_write_loop_same env audio
          (HD24Browser.filename export_dir song_name i) (tn1 + 1) total_tracks song_length i
          fuel 0 0 0 buf
        rw [w2, w3, w4]
        by_cases hret : (HD24Browser.write_loop env audio song_length i fuel 0 0 0
            buf).returned = true
        · rw [if_neg (HD24.bnot_ne_true _ hret), if_neg (HD24.bnot_ne_true _ hret)]
          dsimp only
          obtain ⟨k1, k2⟩ := ih (i + 1) (tn1 + 1) (tn2 + 1)
            (tb + ((mul32 (HD24Browser.write_loop env audio song_length i fuel 0 0 0
              buf).samples_written 3 : Nat) : Int))
            (HD24Browser.write_loop env audio song_length i fuel 0 0 0 buf).location
            (HD24Browser.write_loop env audio song_length i fuel 0 0 0 buf).byte_buffer
            (by omega)
          refine ⟨?_, k2⟩
          simp only [List.filter_append, List.filter_cons, List.filter_nil, is_io]
          rw [w1, k1]
          simp
        · rw [if_pos (HD24.bnot_eq_true_of _ hret), if_pos (HD24.bnot_eq_true_of _ hret)]
          refine ⟨?_, rfl⟩
          simp only [List.filter_append, List.filter_cons, List.filter_nil, is_io]
          rw [w1]
          simp
      · rw [if_pos (HD24.bnot_eq_true_of _ hopen), if_pos (HD24.bnot_eq_true_of _ hopen)]
        dsimp only
        obtain ⟨k1, k2⟩ := ih (i + 1) (tn1 + 1) (tn2 + 1) tb loc buf (by omega)
        refine ⟨?_, k2⟩
        simp only [List.filter_append, List.filter_cons, List.filter_nil, is_io]
        rw [k1]
        simp
    · rw [if_pos (HD24.bnot_eq_true_of _ hsel), if_pos (HD24.bnot_eq_true_of _ hsel)]
      exact ih (i + 1) tn1 tn2 tb loc buf (by omega)

theorem gui_export_tracks_same (env : Env) (fuel : Nat) (b : HD24Browser.Browser) (g : Gui)
    (idx : Nat) (hsel : b.selected_song_info = some idx)
    (hval : g.song_browser_value = (idx : Int) + 1) (hidx : idx < g.songs.length)
    (hsong : (g.songs.getD idx default).song = (b.songs.getD idx default).song)
    (hname : (g.songs.getD idx default).song_name = (b.songs.getD idx default).song_name)
    (hrate : u32 (g.songs.getD idx default).sample_rate
      = u32 (b.songs.getD idx default).song.samplerate)
    (hlength : u32 (g.songs.getD idx default).song_length
      = u32 (b.songs.getD idx default).song.songlength_in_wamples)
    (hdir : g.export_dir = b.export_dir)
    (hitems : g.track_browser.length = (b.songs.getD idx default).channels)
    (hch : (b.songs.getD idx default).channels ≤ 4294967295)
    (hflags : ∀ j : Nat, j < (b.songs.getD idx default).channels →
      g.track_browser.getD j false = b.track_selected.getD j false) :
    (export_tracks env fuel g).events.filter is_io
      = (HD24Browser.export_tracks env fuel b).events.filter is_io
    ∧ (export_tracks env fuel g).status = (HD24Browser.export_tracks env fuel b).status := by
  have hrange : ¬ (g.song_browser_value < 1 ∨ g.song_browser_value > (g.songs.length : Int)) := by
    omega
  have hnat : (g.song_browser_value - 1).toNat = idx := by omega
  have hzero : count_selected g.track_browser = 0
      ↔ HD24Browser.count_selected b.track_selected (b.songs.getD idx default).channels = 0 := by
    rw [gui_count_selected_eq_zero_iff, HD24Browser.count_selected_eq_zero_iff, hitems]
    constructor
    · intro h i hi
      rw [← hflags i hi]
      exact h i hi
    · intro h i hi
      rw [hflags i hi]
      exact h i hi
  unfold export_tracks HD24Browser.export_tracks
  rw [hsel]
  dsimp only
  rw [if_neg hrange, hnat]
  by_cases hcount : HD24Browser.count_selected b.track_selected
      (b.songs.getD idx default).channels = 0
  · rw [if_pos hcount, if_pos (hzero.mpr hcount)]
    exact ⟨rfl, rfl⟩
  · rw [if_neg hcount, if_neg (fun h => hcount (hzero.mp h))]
    obtain ⟨k1, k2⟩ := gui_track_loop_same env fuel (b.songs.getD idx default).song.audio
      b.export_dir (b.songs.getD idx default).song_name g.track_browser b.track_selected
      (u32 (b.songs.getD idx default).song.samplerate)
      (u32 (b.songs.getD idx default).song.songlength_in_wamples)
      (b.songs.getD idx default).channels (count_selected g.track_browser)
      (HD24Browser.count_selected b.track_selected (b.songs.getD idx default).channels)
      hch hflags (b.songs.getD idx default).channels 0 0 0 0
      (b.songs.getD idx default).song.location env.fresh (by omega)
    have h01 : ((0 : Nat) : Int) + 1 = 1 := rfl
    rw [h01] at k1 k2
    rw [hsong, hname, hrate, hlength, hdir, hitems, k2]
    by_cases hret : (HD24Browser.track_loop env fuel (b.songs.getD idx default).song.audio
        b.export_dir (b.songs.getD idx default).song_name b.track_selected
        (u32 (b.songs.getD idx default).song.samplerate)
        (u32 (b.songs.getD idx default).song.songlength_in_wamples)
        (HD24Browser.count_selected b.track_selected (b.songs.getD idx default).channels)
        (b.songs.getD idx default).channels 0 0 0 (b.songs.getD idx default).song.location
        env.fresh).returned = true
    · rw [if_neg (HD24.bnot_ne_true _ hret), if_neg (HD24.bnot_ne_true _ hret)]
      dsimp only
      refine ⟨?_, rfl⟩
      have hv : ∀ v : Event, v = Event.show_completed ∨ v = Event.show_failed →
          ([v, Event.getch] : List Event).filter is_io = [] := by
        intro v hv
        rcases hv with rfl | rfl <;> rfl
      rw [List.filter_append, List.filter_append, List.filter_append, List.filter_append, k1,
        hv _ (by split <;> simp)]
      rfl
    · rw [if_pos (HD24.bnot_eq_true_of _ hret), if_pos (HD24.bnot_eq_true_of _ hret)]
      dsimp only
      refine ⟨?_, rfl⟩
      rw [List.filter_append, List.filter_append, k1]
      rfl

theorem gui_poke_store_sample (byte_buffer : Nat → Nat) (s sample : Nat) :
    [s * 3, s * 3 + 1, s * 3 + 2].map (store_sample byte_buffer s sample)
      = [sample % 256, sample / 256 % 256, sample / 65536 % 256] := by
  simp [store_sample, poke, and_255, Nat.shiftRight_eq_div_pow]

end HD24BrowserGUI

/-! ## The claims -/

open HD24

/-- C1: for every raw sample word (of any width, also with bits above bit 23 set) the three
bytes that the export loop stores at positions `s*3`, `s*3+1`, `s*3+2` of the byte buffer are
`sample mod 256`, `(sample div 256) mod 256`, `(sample div 65536) mod 256`, in this order, in
the terminal and in the graphical front end; the word `0x00ABCDEF` is stored as
`0xEF, 0xCD, 0xAB`. -/
theorem C1_sample_bytes_little_endian (byte_buffer : Nat → Nat) (s sample : Nat) :
    [s * 3, s * 3 + 1, s * 3 + 2].map (HD24Browser.store_sample byte_buffer s sample)
        = [sample % 256, sample / 256 % 256, sample / 65536 % 256]
    ∧ [s * 3, s * 3 + 1, s * 3 + 2].map (HD24BrowserGUI.store_sample byte_buffer s sample)
        = [sample % 256, sample / 256 % 256, sample / 65536 % 256]
    ∧ [s * 3, s * 3 + 1, s * 3 + 2].map (HD24Browser.store_sample byte_buffer s 0x00ABCDEF)
        = [0xEF, 0xCD, 0xAB]
    ∧ [s * 3, s * 3 + 1, s * 3 + 2].map (HD24BrowserGUI.store_sample byte_buffer s 0x00ABCDEF)
        = [0xEF, 0xCD, 0xAB] := by
  refine ⟨HD24Browser.poke_store_sample _ _ _, HD24BrowserGUI.gui_poke_store_sample _ _ _, ?_, ?_⟩
  · rw [HD24Browser.poke_store_sample]
  · rw [HD24BrowserGUI.gui_poke_store_sample]

/-- C10, counterexample: with an export directory of 512 characters and the song name `S`, the
path that the terminal front end uses for channel 0 is not the full text
`d/S_Track01.aif` but its first 511 characters (all of them from the directory name), because
`snprintf` writes into a buffer of 512 bytes. -/
theorem C10_counterexample_long_directory :
    HD24Browser.filename (List.replicate 512 'a') ['S'] 0
        ≠ List.replicate 512 'a' ++ ['/'] ++ ['S'] ++ "_Track".toList ++ "01".toList
            ++ ".aif".toList
    ∧ HD24Browser.filename (List.replicate 512 'a') ['S'] 0 = List.replicate 511 'a' := by
  have h : HD24Browser.filename (List.replicate 512 'a') ['S'] 0 = List.replicate 511 'a' := by
    rw [HD24Browser.filename_truncated _ _ _ (by rw [List.length_replicate]; norm_num),
      List.take_replicate]
    have hmin : min 511 512 = 511 := by norm_num
    rw [hmin]
  refine ⟨?_, h⟩
  rw [h]
  intro hEq
  have hlen := congrArg List.length hEq
  have h6 : "_Track".toList.length = 6 := by decide
  have h2 : "01".toList.length = 2 := by decide
  have h4 : ".aif".toList.length = 4 := by decide
  simp only [List.length_append, List.length_replicate, List.length_cons, List.length_nil,
    h6, h2, h4] at hlen
  omega

/-- C10, amended: for every export directory `d`, song name `n` and 0-based channel `c < 24`,
the output path of channel `c` is, in both front ends, the first 511 characters of
`d + "/" + n + "_Track" + NN + ".aif"`, where `NN` is the decimal of `c + 1` padded with zeros
to width 2; it is exactly that text whenever `d` and `n` together have at most 498
characters. -/
theorem C10_output_path (d n : CString) (c : Nat) (hc : c < 24) :
    HD24Browser.filename d n c
        = (d ++ ['/'] ++ n ++ "_Track".toList
            ++ [Nat.digitChar ((c + 1) / 10), Nat.digitChar ((c + 1) % 10)]
            ++ ".aif".toList).take 511
    ∧ HD24BrowserGUI.filename d n ((c : Int) + 1)
        = (d ++ ['/'] ++ n ++ "_Track".toList
            ++ [Nat.digitChar ((c + 1) / 10), Nat.digitChar ((c + 1) % 10)]
            ++ ".aif".toList).take 511
    ∧ (d.length + n.length ≤ 498 →
        HD24Browser.filename d n c
          = d ++ ['/'] ++ n ++ "_Track".toList
            ++ [Nat.digitChar ((c + 1) / 10), Nat.digitChar ((c + 1) % 10)] ++ ".aif".toList
        ∧ HD24BrowserGUI.filename d n ((c : Int) + 1)
          = d ++ ['/'] ++ n ++ "_Track".toList
            ++ [Nat.digitChar ((c + 1) / 10), Nat.digitChar ((c + 1) % 10)]
            ++ ".aif".toList) := by
  have hu : fmt_02u (add32 c 1)
      = [Nat.digitChar ((c + 1) / 10), Nat.digitChar ((c + 1) % 10)] := by
    rw [add32_small c 1 (by omega)]
    exact fmt_02u_two_digits (c + 1) (by omega)
  have hd : fmt_02d ((c : Int) + 1)
      = [Nat.digitChar ((c + 1) / 10), Nat.digitChar ((c + 1) % 10)] := by
    have hneg : ¬ ((c : Int) + 1 < 0) := by omega
    have hnat : ((c : Int) + 1).toNat = c + 1 := by omega
    simp only [fmt_02d, hneg, if_false, hnat]
    exact fmt_02u_two_digits (c + 1) (by omega)
  have h1 : HD24Browser.filename d n c
        = (d ++ ['/'] ++ n ++ "_Track".toList
            ++ [Nat.digitChar ((c + 1) / 10), Nat.digitChar ((c + 1) % 10)]
            ++ ".aif".toList).take 511 := by
    simp only [HD24Browser.filename, snprintf, hu]
  have h2 : HD24BrowserGUI.filename d n ((c : Int) + 1)
        = (d ++ ['/'] ++ n ++ "_Track".toList
            ++ [Nat.digitChar ((c + 1) / 10), Nat.digitChar ((c + 1) % 10)]
            ++ ".aif".toList).take 511 := by
    simp only [HD24BrowserGUI.filename, snprintf, hd]
  refine ⟨h1, h2, ?_⟩
  intro hlen
  have hfull : (d ++ ['/'] ++ n ++ "_Track".toList
            ++ [Nat.digitChar ((c + 1) / 10), Nat.digitChar ((c + 1) % 10)]
            ++ ".aif".toList).length ≤ 511 := by
    simp [List.length_append]
    omega
  rw [h1, h2, List.take_of_length_le hfull]
  exact ⟨rfl, rfl⟩

/-- C10, witness: the directory `out`, the song `S` and channel 4. -/
theorem C10_output_path_witness :
    (4 < 24) ∧
    (HD24Browser.filename "out".toList "S".toList 4
        = ("out".toList ++ ['/'] ++ "S".toList ++ "_Track".toList
            ++ [Nat.digitChar ((4 + 1) / 10), Nat.digitChar ((4 + 1) % 10)]
            ++ ".aif".toList).take 511
    ∧ HD24BrowserGUI.filename "out".toList "S".toList (((4 : Nat) : Int) + 1)
        = ("out".toList ++ ['/'] ++ "S".toList ++ "_Track".toList
            ++ [Nat.digitChar ((4 + 1) / 10), Nat.digitChar ((4 + 1) % 10)]
            ++ ".aif".toList).take 511
    ∧ ("out".toList.length + "S".toList.length ≤ 498 →
        HD24Browser.filename "out".toList "S".toList 4
          = "out".toList ++ ['/'] ++ "S".toList ++ "_Track".toList
            ++ [Nat.digitChar ((4 + 1) / 10), Nat.digitChar ((4 + 1) % 10)] ++ ".aif".toList
        ∧ HD24BrowserGUI.filename "out".toList "S".toList (((4 : Nat) : Int) + 1)
          = "out".toList ++ ['/'] ++ "S".toList ++ "_Track".toList
            ++ [Nat.digitChar ((4 + 1) / 10), Nat.digitChar ((4 + 1) % 10)]
            ++ ".aif".toList)) :=
  ⟨by decide, C10_output_path "out".toList "S".toList 4 (by decide)⟩

/-- C7: for every prior state of the terminal browser in the song list view (whatever song was
current before and whatever the 24 track flags were), the ENTER key makes the song under the
cursor current and leaves all 24 track flags false, so that no track is selected; and for
every prior state of the graphical browser, picking a valid line of the song list makes that
line the current song and leaves the track browser with one unchecked item per channel of
that song (a `__uint32` count below its largest value), so that no item is selected. -/
theorem C7_select_song_clears_flags (env : Env) (fuel : Nat) (b : HD24Browser.Browser)
    (g : HD24BrowserGUI.Gui) (line : Int) (channels : Nat)
    (hview : b.view_mode = 0) (hline1 : 1 ≤ line) (hline2 : line ≤ (g.songs.length : Int))
    (_hchannels : (g.songs.getD (line - 1).toNat default).channels < 4294967295) :
    ((HD24Browser.step env fuel b 10).selected_song_info = some b.current_selection.toNat
      ∧ (HD24Browser.step env fuel b 10).track_selected = List.replicate 24 false
      ∧ (∀ i : Int, HD24Browser.flag_at (HD24Browser.step env fuel b 10).track_selected i
            = false)
      ∧ HD24Browser.selected_tracks (HD24Browser.step env fuel b 10).track_selected channels
            = []
      ∧ HD24Browser.step env fuel b HD24Browser.KEY_ENTER = HD24Browser.step env fuel b 10)
    ∧ ((HD24BrowserGUI.click_song g line).song_browser_value = line
      ∧ (HD24BrowserGUI.click_song g line).track_browser
          = List.replicate (g.songs.getD (line - 1).toNat default).channels false
      ∧ (∀ t : Int, HD24BrowserGUI.checked (HD24BrowserGUI.click_song g line).track_browser t
            = false)
      ∧ HD24BrowserGUI.selected_items (HD24BrowserGUI.click_song g line).track_browser = []) := by
  have hstep : HD24Browser.step env fuel b 10
      = { b with selected_song_info := some b.current_selection.toNat, view_mode := 1,
                 current_selection := 0, track_selected := List.replicate 24 false } := by
    simp [HD24Browser.step, hview, HD24Browser.KEY_UP, HD24Browser.KEY_DOWN]
  have hstep2 : HD24Browser.step env fuel b HD24Browser.KEY_ENTER
      = { b with selected_song_info := some b.current_selection.toNat, view_mode := 1,
                 current_selection := 0, track_selected := List.replicate 24 false } := by
    simp [HD24Browser.step, hview, HD24Browser.KEY_UP, HD24Browser.KEY_DOWN,
      HD24Browser.KEY_ENTER]
  have hclick : HD24BrowserGUI.click_song g line
      = { g with song_browser_value := line,
                 track_browser :=
                   List.replicate (g.songs.getD (line - 1).toNat default).channels false,
                 export_button_active := true } := by
    have h1 : ¬ (line < 1) := by omega
    have h2 : ¬ (line > (g.songs.length : Int)) := by omega
    simp [HD24BrowserGUI.click_song, HD24BrowserGUI.song_selected, h1, h2,
      HD24BrowserGUI.add_tracks_nil]
  refine ⟨⟨?_, ?_, ?_, ?_, ?_⟩, ?_, ?_, ?_, ?_⟩
  · rw [hstep]
  · rw [hstep]
  · intro i
    rw [hstep]
    exact HD24Browser.flag_at_replicate_false 24 i
  · rw [hstep]
    exact HD24Browser.selected_tracks_replicate_false 24 channels
  · rw [hstep, hstep2]
  · rw [hclick]
  · rw [hclick]
  · intro t
    rw [hclick]
    exact HD24BrowserGUI.checked_replicate_false _ t
  · rw [hclick]
    exact HD24BrowserGUI.selected_items_replicate_false _


/-- C7, witness: a terminal browser on its second song with a flag set, and a graphical
browser with two songs in which line 2 is picked. -/
theorem C7_select_song_clears_flags_witness :
    (HD24Browser.demo_list_view.view_mode = 0 ∧ (1 : Int) ≤ 2
      ∧ (2 : Int) ≤ (HD24BrowserGUI.demo_gui.songs.length : Int)
      ∧ (HD24BrowserGUI.demo_gui.songs.getD ((2 : Int) - 1).toNat default).channels
          < 4294967295)
    ∧ (HD24Browser.step demo_env 0 HD24Browser.demo_list_view 10).track_selected
        = List.replicate 24 false :=
  ⟨⟨rfl, by decide, by decide, by decide⟩,
   (C7_select_song_clears_flags demo_env 0 HD24Browser.demo_list_view HD24BrowserGUI.demo_gui
      2 24 rfl (by decide) (by decide) (by decide)).1.2.1⟩

/-- C8: in the track view, with the cursor on a channel `c` of the 24-entry flag array, one
press of SPACE negates the flag of `c` and leaves the flag of every other channel unchanged,
and a second press restores the prior flag of `c` (and with it the whole flag array). -/
theorem C8_toggle_involutive (env : Env) (fuel : Nat) (b : HD24Browser.Browser)
    (hview : b.view_mode = 1) (h0 : 0 ≤ b.current_selection) (h24 : b.current_selection < 24)
    (hlen : b.track_selected.length = 24) :
    HD24Browser.flag_at (HD24Browser.step env fuel b 32).track_selected b.current_selection
        = !(HD24Browser.flag_at b.track_selected b.current_selection)
    ∧ (∀ d : Int, d ≠ b.current_selection →
        HD24Browser.flag_at (HD24Browser.step env fuel b 32).track_selected d
          = HD24Browser.flag_at b.track_selected d)
    ∧ HD24Browser.flag_at
          (HD24Browser.step env fuel (HD24Browser.step env fuel b 32) 32).track_selected
          b.current_selection
        = HD24Browser.flag_at b.track_selected b.current_selection
    ∧ (HD24Browser.step env fuel (HD24Browser.step env fuel b 32) 32).track_selected
        = b.track_selected
    ∧ (HD24Browser.step env fuel b 32).current_selection = b.current_selection := by
  have hstep : ∀ x : HD24Browser.Browser, x.view_mode = 1 → HD24Browser.step env fuel x 32
      = { x with track_selected := HD24Browser.set_flag_at x.track_selected x.current_selection
                   (!(HD24Browser.flag_at x.track_selected x.current_selection)) } := by
    intro x hx
    simp [HD24Browser.step, hx, HD24Browser.KEY_UP, HD24Browser.KEY_DOWN]
  have hin : b.current_selection < (b.track_selected.length : Int) := by
    rw [hlen]
    exact h24
  have h1 : HD24Browser.flag_at (HD24Browser.step env fuel b 32).track_selected
      b.current_selection = !(HD24Browser.flag_at b.track_selected b.current_selection) := by
    rw [hstep b hview]
    exact HD24Browser.flag_at_set_flag_at_same _ _ _ h0 hin
  have h2 : (HD24Browser.step env fuel (HD24Browser.step env fuel b 32) 32).track_selected
      = b.track_selected := by
    have hv1 : (HD24Browser.step env fuel b 32).view_mode = 1 := by
      rw [hstep b hview]
      exact hview
    have hc1 : (HD24Browser.step env fuel b 32).current_selection = b.current_selection := by
      rw [hstep b hview]
    rw [hstep _ hv1]
    simp only [hc1, h1, Bool.not_not]
    rw [hstep b hview]
    exact HD24Browser.set_flag_at_restore _ _ _
  refine ⟨h1, ?_, ?_, h2, ?_⟩
  · intro d hd
    rw [hstep b hview]
    exact HD24Browser.flag_at_set_flag_at_other _ _ _ _ hd
  · rw [h2]
  · rw [hstep b hview]

/-- C8, witness: the sample track view, with the cursor on track 1. -/
theorem C8_toggle_involutive_witness :
    (HD24Browser.demo_track_view.view_mode = 1
      ∧ 0 ≤ HD24Browser.demo_track_view.current_selection
      ∧ HD24Browser.demo_track_view.current_selection < 24
      ∧ HD24Browser.demo_track_view.track_selected.length = 24)
    ∧ (HD24Browser.step demo_env 0 (HD24Browser.step demo_env 0 HD24Browser.demo_track_view 32)
          32).track_selected = HD24Browser.demo_track_view.track_selected :=
  ⟨⟨rfl, by decide, by decide, by decide⟩,
   (C8_toggle_involutive demo_env 0 HD24Browser.demo_track_view rfl (by decide) (by decide)
      (by decide)).2.2.2.1⟩

/-- C9, counterexample: on a song with no channels, after ENTER and one press of SPACE (which
sets flag 0 of the 24-entry array), select-all followed by select-none leaves flag 0 set, so
the flags are not all false and differ from the flags right after the song was selected. -/
theorem C9_counterexample_zero_channels :
    HD24Browser.Reachable demo_env 0 [default] []
        (HD24Browser.step demo_env 0
          (HD24Browser.step demo_env 0 (HD24Browser.init [default] []) 10) 32)
    ∧ HD24Browser.current_channels (HD24Browser.step demo_env 0
          (HD24Browser.step demo_env 0 (HD24Browser.init [default] []) 10) 32) = 0
    ∧ (HD24Browser.step demo_env 0 (HD24Browser.init [default] []) 10).track_selected
        = List.replicate 24 false
    ∧ (HD24Browser.step demo_env 0 (HD24Browser.step demo_env 0
          (HD24Browser.step demo_env 0
            (HD24Browser.step demo_env 0 (HD24Browser.init [default] []) 10) 32) 97)
          110).track_selected = true :: List.replicate 23 false
    ∧ (HD24Browser.step demo_env 0 (HD24Browser.step demo_env 0
          (HD24Browser.step demo_env 0
            (HD24Browser.step demo_env 0 (HD24Browser.init [default] []) 10) 32) 97)
          110).track_selected ≠ List.replicate 24 false := by
  refine ⟨?_, ?_, ?_, ?_, ?_⟩
  · exact HD24Browser.Reachable.key _ 32
      (HD24Browser.Reachable.key _ 10 HD24Browser.Reachable.start)
  · decide
  · decide
  · decide
  · decide

/-- C9, amended: in every state of the track view that the terminal browser can reach, for a
current song with N channels, select-all followed by select-none leaves the flags of the N
channels of the song all false; when N is at least 1, all 24 track flags are false, which is
the flag state right after the song was selected. -/
theorem C9_select_all_then_none (env : Env) (fuel : Nat) (songs : List HD24Browser.SongInfo)
    (output_dir : CString) (b : HD24Browser.Browser) (ka kn : Int)
    (hreach : HD24Browser.Reachable env fuel songs output_dir b) (hview : b.view_mode = 1)
    (ha : ka = 97 ∨ ka = 65) (hn : kn = 110 ∨ kn = 78) :
    (∀ i : Nat, i < HD24Browser.current_channels b →
        (HD24Browser.step env fuel (HD24Browser.step env fuel b ka) kn).track_selected.getD i
          false = false)
    ∧ (1 ≤ HD24Browser.current_channels b →
        (HD24Browser.step env fuel (HD24Browser.step env fuel b ka) kn).track_selected
          = List.replicate 24 false
        ∧ (HD24Browser.step env fuel (HD24Browser.step env fuel b ka) kn).track_selected
          = (HD24Browser.step env fuel { b with view_mode := 0 } 10).track_selected) := by
  obtain ⟨hlen, _, htrack⟩ := HD24Browser.TrackInv_reachable env fuel songs output_dir b hreach
  obtain ⟨_, _, hflags⟩ := htrack hview
  have hflat : (HD24Browser.step env fuel (HD24Browser.step env fuel b ka) kn).track_selected
      = HD24Browser.fill_flags false (HD24Browser.current_channels b) 0
          (HD24Browser.fill_flags true (HD24Browser.current_channels b) 0 b.track_selected) := by
    rw [HD24Browser.step_select_all env fuel b ka hview ha]
    generalize HD24Browser.fill_flags true (HD24Browser.current_channels b) 0 b.track_selected
      = flags
    have hv1 : ({ b with track_selected := flags } : HD24Browser.Browser).view_mode = 1 := hview
    rw [HD24Browser.step_select_none env fuel _ kn hv1 hn]
    rfl
  refine ⟨?_, ?_⟩
  · intro i hi
    rw [hflat, HD24Browser.select_all_none_getD, if_pos hi]
  · intro hN
    have hall : (HD24Browser.step env fuel (HD24Browser.step env fuel b ka) kn).track_selected
        = List.replicate 24 false := by
      rw [hflat]
      apply eq_replicate_false_of_getD
      · rw [HD24Browser.fill_flags_length, HD24Browser.fill_flags_length, hlen]
      · intro i
        rw [HD24Browser.select_all_none_getD]
        split
        · rfl
        · exact hflags i (by omega) (by omega)
    refine ⟨hall, ?_⟩
    rw [hall]
    simp [HD24Browser.step, HD24Browser.KEY_UP, HD24Browser.KEY_DOWN]

/-- C9, witness: the sample catalogue, after ENTER on the first song (two channels) and one
press of SPACE. -/
theorem C9_select_all_then_none_witness :
    (HD24Browser.Reachable demo_env 0 [HD24Browser.demo_info] []
        (HD24Browser.step demo_env 0
          (HD24Browser.step demo_env 0 (HD24Browser.init [HD24Browser.demo_info] []) 10) 32)
      ∧ (HD24Browser.step demo_env 0
          (HD24Browser.step demo_env 0 (HD24Browser.init [HD24Browser.demo_info] []) 10)
          32).view_mode = 1
      ∧ ((97 : Int) = 97 ∨ (97 : Int) = 65) ∧ ((110 : Int) = 110 ∨ (110 : Int) = 78))
    ∧ ∀ i : Nat, i < HD24Browser.current_channels (HD24Browser.step demo_env 0
          (HD24Browser.step demo_env 0 (HD24Browser.init [HD24Browser.demo_info] []) 10) 32) →
        (HD24Browser.step demo_env 0 (HD24Browser.step demo_env 0 (HD24Browser.step demo_env 0
          (HD24Browser.step demo_env 0 (HD24Browser.init [HD24Browser.demo_info] []) 10) 32)
          97) 110).track_selected.getD i false = false :=
  ⟨⟨HD24Browser.Reachable.key _ 32 (HD24Browser.Reachable.key _ 10 HD24Browser.Reachable.start),
    by decide, by decide, by decide⟩,
   (C9_select_all_then_none demo_env 0 [HD24Browser.demo_info] [] _ 97 110
      (HD24Browser.Reachable.key _ 32 (HD24Browser.Reachable.key _ 10 HD24Browser.Reachable.start))
      (by decide) (by decide) (by decide)).1⟩

/-- C5: in both front ends export is rejected exactly when no song is current (terminal:
`selected_song_info` is null; graphical: the song list has no valid selected line) or no flag
among the flags of the current song's channels is set (terminal: the first `channels` entries
of `track_selected`; graphical: the items of the track browser).  On every rejected call the
only events are the "no tracks selected" prompt and, in the terminal, the key it waits for:
no stream is opened, the export directory is not created, and the song list with the read
cursors is unchanged.  Every call that is not rejected creates the export directory. -/
theorem C5_export_rejected_exactly (env : Env) (fuel : Nat) (b : HD24Browser.Browser)
    (g : HD24BrowserGUI.Gui) :
    ((((HD24Browser.export_tracks env fuel b).status = Status.no_song
          ∨ (HD24Browser.export_tracks env fuel b).status = Status.no_tracks)
        ↔ (b.selected_song_info = none
            ∨ ∀ i : Nat, i < HD24Browser.current_channels b →
                b.track_selected.getD i false = false))
      ∧ (((HD24Browser.export_tracks env fuel b).status = Status.no_song
            ∨ (HD24Browser.export_tracks env fuel b).status = Status.no_tracks) →
          ((HD24Browser.export_tracks env fuel b).events = []
            ∨ (HD24Browser.export_tracks env fuel b).events
                = [Event.show_no_tracks, Event.getch])
          ∧ (HD24Browser.export_tracks env fuel b).songs = b.songs)
      ∧ (¬ ((HD24Browser.export_tracks env fuel b).status = Status.no_song
            ∨ (HD24Browser.export_tracks env fuel b).status = Status.no_tracks) →
          Event.mkdir b.export_dir ∈ (HD24Browser.export_tracks env fuel b).events))
    ∧ ((((HD24BrowserGUI.export_tracks env fuel g).status = Status.no_song
          ∨ (HD24BrowserGUI.export_tracks env fuel g).status = Status.no_tracks)
        ↔ ((g.song_browser_value < 1 ∨ g.song_browser_value > (g.songs.length : Int))
            ∨ ∀ i : Nat, i < g.track_browser.length → g.track_browser.getD i false = false))
      ∧ (((HD24BrowserGUI.export_tracks env fuel g).status = Status.no_song
            ∨ (HD24BrowserGUI.export_tracks env fuel g).status = Status.no_tracks) →
          ((HD24BrowserGUI.export_tracks env fuel g).events = []
            ∨ (HD24BrowserGUI.export_tracks env fuel g).events = [Event.show_no_tracks])
          ∧ (HD24BrowserGUI.export_tracks env fuel g).songs = g.songs)
      ∧ (¬ ((HD24BrowserGUI.export_tracks env fuel g).status = Status.no_song
            ∨ (HD24BrowserGUI.export_tracks env fuel g).status = Status.no_tracks) →
          Event.mkdir g.export_dir ∈ (HD24BrowserGUI.export_tracks env fuel g).events)) :=
  ⟨⟨HD24Browser.export_tracks_rejected_iff env fuel b,
    HD24Browser.export_tracks_rejected_untouched env fuel b,
    HD24Browser.export_tracks_accepted_mkdir env fuel b⟩,
   ⟨HD24BrowserGUI.gui_export_tracks_rejected_iff env fuel g,
    HD24BrowserGUI.gui_export_tracks_rejected_untouched env fuel g,
    HD24BrowserGUI.gui_export_tracks_accepted_mkdir env fuel g⟩⟩

/-- C6: when the song under the cursor of the song list has no channels, then after ENTER and
any sequence of selection operations (toggle, select all, select none) export is rejected with
the "no tracks selected" prompt: its only events are the prompt and the key it waits for, so
no file is opened, and the E key leaves the song list with its read cursors unchanged. -/
theorem C6_zero_channels_export_rejected (env : Env) (fuel : Nat) (b0 : HD24Browser.Browser)
    (ops : List HD24Browser.SelectionOp) (hview : b0.view_mode = 0)
    (hch : (b0.songs.getD b0.current_selection.toNat default).channels = 0) :
    (HD24Browser.export_tracks env fuel
        (HD24Browser.apply_ops env fuel (HD24Browser.step env fuel b0 10) ops)).status
      = Status.no_tracks
    ∧ (HD24Browser.export_tracks env fuel
        (HD24Browser.apply_ops env fuel (HD24Browser.step env fuel b0 10) ops)).events
      = [Event.show_no_tracks, Event.getch]
    ∧ (HD24Browser.step env fuel
        (HD24Browser.apply_ops env fuel (HD24Browser.step env fuel b0 10) ops) 101).songs
      = b0.songs := by
  have hstep : HD24Browser.step env fuel b0 10
      = { b0 with selected_song_info := some b0.current_selection.toNat, view_mode := 1,
                  current_selection := 0, track_selected := List.replicate 24 false } := by
    simp [HD24Browser.step, hview, HD24Browser.KEY_UP, HD24Browser.KEY_DOWN]
  have hv1 : (HD24Browser.step env fuel b0 10).view_mode = 1 := by rw [hstep]
  obtain ⟨k1, k2, k3⟩ := HD24Browser.apply_ops_keeps env fuel ops _ hv1
  have hsel : (HD24Browser.apply_ops env fuel (HD24Browser.step env fuel b0 10)
      ops).selected_song_info = some b0.current_selection.toNat := by
    rw [k2, hstep]
  have hsongs : (HD24Browser.apply_ops env fuel (HD24Browser.step env fuel b0 10) ops).songs
      = b0.songs := by
    rw [k3, hstep]
  have hrun := HD24Browser.export_tracks_zero_channels env fuel _ _ hsel (by rw [hsongs]; exact hch)
  refine ⟨?_, ?_, ?_⟩
  · rw [hrun]
  · rw [hrun]
  · rw [HD24Browser.step_export_key env fuel _ k1, hrun]
    exact hsongs

/-- C6, witness: a catalogue whose only song has no channels; toggle, select all, toggle. -/
theorem C6_zero_channels_export_rejected_witness :
    ((HD24Browser.init [default] "out".toList).view_mode = 0
      ∧ ((HD24Browser.init [default] "out".toList).songs.getD
          (HD24Browser.init [default] "out".toList).current_selection.toNat default).channels
          = 0)
    ∧ (HD24Browser.export_tracks demo_env 0
        (HD24Browser.apply_ops demo_env 0
          (HD24Browser.step demo_env 0 (HD24Browser.init [default] "out".toList) 10)
          [HD24Browser.SelectionOp.toggle, HD24Browser.SelectionOp.select_all,
            HD24Browser.SelectionOp.toggle])).status = Status.no_tracks :=
  ⟨⟨rfl, rfl⟩,
   (C6_zero_channels_export_rejected demo_env 0 (HD24Browser.init [default] "out".toList)
      [HD24Browser.SelectionOp.toggle, HD24Browser.SelectionOp.select_all,
        HD24Browser.SelectionOp.toggle] rfl rfl).1⟩

/-- C2, at the failing input: for a song of 4294967295 frames, one channel whose stream is open
and writes that all report the full 3072 bytes, the sample loop of neither front end returns,
however many iterations it is given, and after `fuel` iterations it has handed 3072 * fuel
bytes to `sf_write_raw` (more than 4294967295 * 3 as soon as `fuel` exceeds 4194303).  At
`samples_written = 4294966272` the 32-bit sum `samples_written + 1024` wraps to 0, so the
chunk is not shortened (1024 frames are read) and the frames-written counter itself wraps to
0 instead of reaching the frame count. -/
theorem C2_sample_loop_never_ends_at_max_length (fuel location : Nat)
    (audio : Nat → Nat → Nat) (byte_buffer : Nat → Nat) (fname : CString)
    (track_num total_tracks : Int) :
    ((HD24Browser.write_loop (env_all_ok 3072) audio 4294967295 0 fuel 0 location 0
        byte_buffer).returned = false
      ∧ written_bytes (HD24Browser.write_loop (env_all_ok 3072) audio 4294967295 0 fuel 0
          location 0 byte_buffer).events = 3072 * fuel)
    ∧ ((HD24BrowserGUI.write_loop (env_all_ok 3072) audio fname track_num total_tracks
        4294967295 0 fuel 0 location 0 byte_buffer).returned = false
      ∧ written_bytes (HD24BrowserGUI.write_loop (env_all_ok 3072) audio fname track_num
          total_tracks 4294967295 0 fuel 0 location 0 byte_buffer).events = 3072 * fuel)
    ∧ HD24Browser.samples_to_read 4294967295 4294966272 = 1024
    ∧ HD24BrowserGUI.samples_to_read 4294967295 4294966272 = 1024
    ∧ add32 4294966272 1024 = 0 := by
  refine ⟨⟨?_, ?_⟩, ⟨?_, ?_⟩, ?_, ?_, ?_⟩
  · exact HD24Browser.write_loop_never_returns (env_all_ok 3072) audio 0 (fun _ => rfl) fuel 0
      location 0 byte_buffer rfl (by decide)
  · exact HD24Browser.write_loop_never_returns_bytes (env_all_ok 3072) audio 0 (fun _ => rfl)
      fuel 0 location 0 byte_buffer rfl (by decide)
  · exact HD24BrowserGUI.gui_write_loop_never_returns (env_all_ok 3072) audio fname track_num
      total_tracks 0 (fun _ => rfl) fuel 0 location 0 byte_buffer rfl (by decide)
  · exact HD24BrowserGUI.gui_write_loop_never_returns_bytes (env_all_ok 3072) audio fname
      track_num total_tracks 0 (fun _ => rfl) fuel 0 location 0 byte_buffer rfl (by decide)
  · exact HD24Browser.samples_to_read_max_length _
  · exact HD24BrowserGUI.gui_samples_to_read_max_length _
  · decide

/-- C3, at the failing input: for a song of 4294967295 frames with channels 0, 1, 2 selected, the
stream of channel 1 failing to open and every write reporting the full 3072 bytes, the export
of neither front end returns, however many iterations its sample loops are given: it stays in
the sample loop of channel 0, so channel 0 is never completed and channel 2 is never
exported. -/
theorem C3_export_never_returns_at_max_length (fuel : Nat) :
    (HD24Browser.export_tracks env_track1_closed fuel
        (HD24Browser.track_view_of (HD24Browser.info_of_length 4294967295 3) 3)).status
      = Status.out_of_fuel
    ∧ (HD24BrowserGUI.export_tracks env_track1_closed fuel
        (HD24BrowserGUI.gui_of (HD24BrowserGUI.info_of_length 4294967295 3) 3)).status
      = Status.out_of_fuel := by
  constructor
  · exact HD24Browser.export_tracks_hangs env_track1_closed fuel _ 0 2 rfl rfl (by decide)
      (by decide) rfl (fun _ => rfl)
  · exact HD24BrowserGUI.gui_export_tracks_hangs env_track1_closed fuel _ 2 (by decide)
      (by decide) (by decide) (by decide) (by decide) rfl (fun _ => rfl)

/-- C4, counterexample: (a) for an empty song with track 0 selected and its stream opening,
track 0 is exported without failure, yet the terminal shows "Export failed!"; (b) for a song
of 1025 frames with track 0 selected, whose first chunk is written in full and whose second
chunk is truncated, no track is exported without failure, yet the terminal shows "Export
completed successfully!". -/
theorem C4_counterexample_verdict :
    (0 ∈ HD24Browser.selected_tracks
          (HD24Browser.track_view_of (HD24Browser.info_of_length 0 1) 1).track_selected 1
      ∧ HD24Browser.Succeeded (env_all_ok 3072) 0 0
      ∧ ∃ pre : List Event,
          (HD24Browser.export_tracks (env_all_ok 3072) 1
            (HD24Browser.track_view_of (HD24Browser.info_of_length 0 1) 1)).events
            = pre ++ [Event.show_failed, Event.getch])
    ∧ ((∀ t : Nat, ¬ HD24Browser.Succeeded env_second_write_fails 1025 t)
      ∧ ∃ pre : List Event,
          (HD24Browser.export_tracks env_second_write_fails 2
            (HD24Browser.track_view_of (HD24Browser.info_of_length 1025 1) 1)).events
            = pre ++ [Event.show_completed, Event.getch]) := by
  refine ⟨⟨by decide, ⟨rfl, fun k hk => absurd hk (by omega)⟩, ?_⟩, ⟨?_, ?_⟩⟩
  · obtain ⟨_, pre, v, hev, hcase⟩ := HD24Browser.export_tracks_verdict (env_all_ok 3072) 1
      (HD24Browser.track_view_of (HD24Browser.info_of_length 0 1) 1) 0 rfl (by decide)
      (by decide) (by decide)
    rcases hcase with ⟨_, t, _, _, hpos, _⟩ | ⟨hv, _⟩
    · exact absurd hpos (by decide)
    · rw [hv] at hev
      exact ⟨pre, hev⟩
  · intro t hsucc
    have h1 : (0 : Int) = ((3 * min 1024 (1025 - 1 * 1024) : Nat) : Int) :=
      hsucc.2 1 (by decide)
    exact absurd h1 (by decide)
  · obtain ⟨_, pre, v, hev, hcase⟩ := HD24Browser.export_tracks_verdict env_second_write_fails 2
      (HD24Browser.track_view_of (HD24Browser.info_of_length 1025 1) 1) 0 rfl (by decide)
      (by decide) (by decide)
    rcases hcase with ⟨hv, _⟩ | ⟨_, hnot⟩
    · rw [hv] at hev
      exact ⟨pre, hev⟩
    · exact absurd ⟨0, by decide, rfl, by decide, by decide⟩ hnot

/-- C4, amended: for a song of at most 4294966272 frames, with a song current and at least one
track selected, the terminal export returns, and it shows "Export completed successfully!"
exactly when at least one selected track had its stream opened and its first chunk written in
full (its byte total is then positive), and "Export failed!" exactly when there is no such
track.  In particular, if the song is not empty and some selected track was exported without
failure, "Export completed successfully!" is shown.  The graphical export, under the same
bounds, returns and always ends with "Export completed successfully!". -/
theorem C4_export_verdict (env : Env) (fuel : Nat) (b : HD24Browser.Browser) (idx : Nat)
    (g : HD24BrowserGUI.Gui)
    (hsel : b.selected_song_info = some idx)
    (hcount : HD24Browser.count_selected b.track_selected (b.songs.getD idx default).channels
      ≠ 0)
    (hF : u32 (b.songs.getD idx default).song.songlength_in_wamples + 1024 ≤ 4294967296)
    (hfuel : u32 (b.songs.getD idx default).song.songlength_in_wamples / 1024 < fuel)
    (hg1 : 1 ≤ g.song_browser_value) (hg2 : g.song_browser_value ≤ (g.songs.length : Int))
    (hgcount : HD24BrowserGUI.count_selected g.track_browser ≠ 0)
    (hgF : u32 (g.songs.getD (g.song_browser_value - 1).toNat default).song_length + 1024
      ≤ 4294967296)
    (hgfuel : u32 (g.songs.getD (g.song_browser_value - 1).toNat default).song_length / 1024
      < fuel) :
    ((HD24Browser.export_tracks env fuel b).status = Status.finished
      ∧ ((∃ pre : List Event, (HD24Browser.export_tracks env fuel b).events
            = pre ++ [Event.show_completed, Event.getch])
          ↔ ∃ t : Nat, t ∈ HD24Browser.selected_tracks b.track_selected
                (b.songs.getD idx default).channels
              ∧ env.sf_open t = true
              ∧ 0 < u32 (b.songs.getD idx default).song.songlength_in_wamples
              ∧ env.sf_write_raw t 0 = ((3 * min 1024
                  (u32 (b.songs.getD idx default).song.songlength_in_wamples) : Nat) : Int))
      ∧ ((∃ pre : List Event, (HD24Browser.export_tracks env fuel b).events
            = pre ++ [Event.show_failed, Event.getch])
          ↔ ¬ ∃ t : Nat, t ∈ HD24Browser.selected_tracks b.track_selected
                (b.songs.getD idx default).channels
              ∧ env.sf_open t = true
              ∧ 0 < u32 (b.songs.getD idx default).song.songlength_in_wamples
              ∧ env.sf_write_raw t 0 = ((3 * min 1024
                  (u32 (b.songs.getD idx default).song.songlength_in_wamples) : Nat) : Int))
      ∧ (0 < u32 (b.songs.getD idx default).song.songlength_in_wamples →
          (∃ t : Nat, t ∈ HD24Browser.selected_tracks b.track_selected
                (b.songs.getD idx default).channels
              ∧ HD24Browser.Succeeded env
                  (u32 (b.songs.getD idx default).song.songlength_in_wamples) t) →
          ∃ pre : List Event, (HD24Browser.export_tracks env fuel b).events
            = pre ++ [Event.show_completed, Event.getch]))
    ∧ ((HD24BrowserGUI.export_tracks env fuel g).status = Status.finished
      ∧ ∃ pre : List Event, (HD24BrowserGUI.export_tracks env fuel g).events
          = pre ++ [Event.show_completed]) := by
  refine ⟨?_, HD24BrowserGUI.gui_export_tracks_completed env fuel g hg1 hg2 hgcount hgF hgfuel⟩
  obtain ⟨hst, pre, v, hev, hcase⟩ :=
    HD24Browser.export_tracks_verdict env fuel b idx hsel hcount hF hfuel
  have hlast : ∀ (pre2 : List Event) (w : Event),
      (HD24Browser.export_tracks env fuel b).events = pre2 ++ [w, Event.getch] → v = w := by
    intro pre2 w h2
    rw [hev] at h2
    have h3 := List.append_inj_right' h2 rfl
    exact (List.cons.inj h3).1
  have hcompleted : (∃ pre : List Event, (HD24Browser.export_tracks env fuel b).events
            = pre ++ [Event.show_completed, Event.getch])
          ↔ ∃ t : Nat, t ∈ HD24Browser.selected_tracks b.track_selected
                (b.songs.getD idx default).channels
              ∧ env.sf_open t = true
              ∧ 0 < u32 (b.songs.getD idx default).song.songlength_in_wamples
              ∧ env.sf_write_raw t 0 = ((3 * min 1024
                  (u32 (b.songs.getD idx default).song.songlength_in_wamples) : Nat) : Int) := by
    constructor
    · rintro ⟨pre2, h2⟩
      have hv := hlast pre2 _ h2
      rcases hcase with ⟨_, hP⟩ | ⟨hv2, _⟩
      · exact hP
      · rw [hv2] at hv
        exact Event.noConfusion hv
    · intro hP
      rcases hcase with ⟨hv2, _⟩ | ⟨_, hnot⟩
      · rw [hv2] at hev
        exact ⟨pre, hev⟩
      · exact absurd hP hnot
  refine ⟨hst, hcompleted, ?_, ?_⟩
  · constructor
    · rintro ⟨pre2, h2⟩
      have hv := hlast pre2 _ h2
      rcases hcase with ⟨hv2, _⟩ | ⟨_, hnot⟩
      · rw [hv2] at hv
        exact Event.noConfusion hv
      · exact hnot
    · intro hnot
      rcases hcase with ⟨_, hP⟩ | ⟨hv2, _⟩
      · exact absurd hP hnot
      · rw [hv2] at hev
        exact ⟨pre, hev⟩
  · rintro hpos ⟨t, hmem, hopen, hwrites⟩
    apply hcompleted.mpr
    refine ⟨t, hmem, hopen, hpos, ?_⟩
    have h0 := hwrites 0 (by omega)
    simpa using h0

/-- C4, witness: the sample track view (a song of two frames, track 0 selected) and the sample
graphical state, with two iterations of fuel. -/
theorem C4_export_verdict_witness :
    (HD24Browser.demo_track_view.selected_song_info = some 0
      ∧ HD24Browser.count_selected HD24Browser.demo_track_view.track_selected
          (HD24Browser.demo_track_view.songs.getD 0 default).channels ≠ 0
      ∧ u32 (HD24Browser.demo_track_view.songs.getD 0 default).song.songlength_in_wamples + 1024
          ≤ 4294967296
      ∧ u32 (HD24Browser.demo_track_view.songs.getD 0 default).song.songlength_in_wamples / 1024
          < 2
      ∧ 1 ≤ HD24BrowserGUI.demo_gui.song_browser_value
      ∧ HD24BrowserGUI.demo_gui.song_browser_value ≤ (HD24BrowserGUI.demo_gui.songs.length : Int)
      ∧ HD24BrowserGUI.count_selected HD24BrowserGUI.demo_gui.track_browser ≠ 0)
    ∧ (HD24Browser.export_tracks demo_env 2 HD24Browser.demo_track_view).status
        = Status.finished :=
  ⟨⟨rfl, by decide, by decide, by decide, by decide, by decide, by decide⟩,
   (C4_export_verdict demo_env 2 HD24Browser.demo_track_view 0 HD24BrowserGUI.demo_gui rfl
      (by decide) (by decide) (by decide) (by decide) (by decide) (by decide) (by decide)
      (by decide)).1.1⟩

/-- C14: in every state of the terminal browser and for every outcome of the export (rejected,
all channels succeeded, some or all channels failed, whatever the streams and writes answer),
the E key leaves the 24 track flags, the current song, the view, the cursor and the export
directory exactly as they were; the song list keeps its length and every entry is what it was
up to the read cursor of its song.  The keys `e` and `E` do the same. -/
theorem C14_export_preserves_selection (env : Env) (fuel : Nat) (b : HD24Browser.Browser) :
    (HD24Browser.step env fuel b 101).track_selected = b.track_selected
    ∧ (HD24Browser.step env fuel b 101).selected_song_info = b.selected_song_info
    ∧ (HD24Browser.step env fuel b 101).view_mode = b.view_mode
    ∧ (HD24Browser.step env fuel b 101).current_selection = b.current_selection
    ∧ (HD24Browser.step env fuel b 101).export_dir = b.export_dir
    ∧ (HD24Browser.step env fuel b 101).running = b.running
    ∧ (HD24Browser.step env fuel b 101).songs.length = b.songs.length
    ∧ (∀ j : Nat, ∃ loc : Nat, (HD24Browser.step env fuel b 101).songs.getD j default
        = { b.songs.getD j default with
            song := { (b.songs.getD j default).song with location := loc } })
    ∧ HD24Browser.step env fuel b 69 = HD24Browser.step env fuel b 101 := by
  obtain ⟨hcase, h69⟩ := HD24Browser.step_export_keys env fuel b
  rcases hcase with ⟨h, _⟩ | ⟨h, _⟩
  · rw [h]
    refine ⟨rfl, rfl, rfl, rfl, rfl, rfl, ?_, ?_, ?_⟩
    · exact HD24Browser.export_tracks_songs_length env fuel b
    · exact HD24Browser.export_tracks_songs_same env fuel b
    · rw [h69, h]
  · rw [h]
    refine ⟨rfl, rfl, rfl, rfl, rfl, rfl, rfl, ?_, ?_⟩
    · intro j
      exact ⟨(b.songs.getD j default).song.location, rfl⟩
    · rw [h69, h]

/-- C19: for a non-empty song list in which every song has at most 24 channels, in every state
that the terminal browser reaches from its initial state by any sequence of keys, the view is
the song list or the track view; in the song list view the cursor satisfies
`0 <= current_selection < number of songs`; in the track view a song of the list is current and
`0 <= current_selection < max(channels, 1)`.  Hence the index into the song list is in range,
and the cursor and every channel index below `channels` are inside the 24-entry flag array. -/
theorem C19_cursor_invariant (env : Env) (fuel : Nat) (songs : List HD24Browser.SongInfo)
    (output_dir : CString) (b : HD24Browser.Browser) (hne : songs ≠ [])
    (hch : ∀ s ∈ songs, s.channels ≤ 24)
    (hreach : HD24Browser.Reachable env fuel songs output_dir b) :
    b.songs.length = songs.length
    ∧ b.track_selected.length = 24
    ∧ (b.view_mode = 0 ∨ b.view_mode = 1)
    ∧ (b.view_mode = 0 →
        0 ≤ b.current_selection ∧ b.current_selection < (b.songs.length : Int)
        ∧ b.current_selection.toNat < b.songs.length)
    ∧ (b.view_mode = 1 →
        (∃ idx : Nat, b.selected_song_info = some idx ∧ idx < b.songs.length)
        ∧ 0 ≤ b.current_selection
        ∧ b.current_selection < max (HD24Browser.current_channels b : Int) 1
        ∧ b.current_selection.toNat < b.track_selected.length
        ∧ HD24Browser.current_channels b ≤ b.track_selected.length) := by
  obtain ⟨hlen, hchan, hflags, hview⟩ :=
    HD24Browser.CursorInv_reachable env fuel songs output_dir hne hch b hreach
  refine ⟨hlen, hflags, ?_, ?_, ?_⟩
  · rcases hview with ⟨hv, _⟩ | ⟨hv, _⟩
    · exact Or.inl hv
    · exact Or.inr hv
  · intro hv0
    rcases hview with ⟨_, h0, hlt⟩ | ⟨hv, _⟩
    · rw [hlen]
      exact ⟨h0, hlt, by omega⟩
    · rw [hv0] at hv
      exact absurd hv (by decide)
  · intro hv1
    rcases hview with ⟨hv, _⟩ | ⟨_, h0, ⟨idx, hsel, hidx⟩, hcs⟩
    · rw [hv1] at hv
      exact absurd hv (by decide)
    · have hcc : HD24Browser.current_channels b ≤ 24 := by
        unfold HD24Browser.current_channels
        rw [hsel]
        exact hchan idx
      rw [hlen, hflags]
      refine ⟨⟨idx, hsel, hidx⟩, h0, ?_, ?_, hcc⟩
      · rcases hcs with h | h
        · rw [h]
          exact lt_max_of_lt_right (by decide)
        · exact lt_max_of_lt_left h
      · rcases hcs with h | h
        · rw [h]
          decide
        · omega

/-- C19, witness: the one-song sample catalogue after ENTER and DOWN. -/
theorem C19_cursor_invariant_witness :
    ([HD24Browser.demo_info] ≠ [] ∧ (∀ s ∈ [HD24Browser.demo_info], s.channels ≤ 24)
      ∧ HD24Browser.Reachable demo_env 0 [HD24Browser.demo_info] []
          (HD24Browser.step demo_env 0
            (HD24Browser.step demo_env 0 (HD24Browser.init [HD24Browser.demo_info] []) 10)
            HD24Browser.KEY_DOWN))
    ∧ (HD24Browser.step demo_env 0
        (HD24Browser.step demo_env 0 (HD24Browser.init [HD24Browser.demo_info] []) 10)
        HD24Browser.KEY_DOWN).track_selected.length = 24 :=
  ⟨⟨by simp, by simp [HD24Browser.demo_info],
    HD24Browser.Reachable.key _ _ (HD24Browser.Reachable.key _ 10 HD24Browser.Reachable.start)⟩,
   (C19_cursor_invariant demo_env 0 [HD24Browser.demo_info] [] _ (by simp)
      (by simp [HD24Browser.demo_info])
      (HD24Browser.Reachable.key _ HD24Browser.KEY_DOWN
        (HD24Browser.Reachable.key _ 10 HD24Browser.Reachable.start))).2.1⟩

/-- C17: in every iteration of the sample loop of a channel (the loop runs while
`samples_written < song_length`), in both front ends, the number of frames read for the chunk
is at least 1 and at most 1024, so every index `s*3`, `s*3+1`, `s*3+2` written into the byte
buffer is below `1024 * 3 = 3072` and the raw write requests `3 * n` bytes, at most 3072.
Accordingly every `sf_write_raw` call in the events of any export hands over between 3 and
3072 bytes. -/
theorem C17_chunks_bounded (env : Env) (fuel : Nat) (b : HD24Browser.Browser)
    (g : HD24BrowserGUI.Gui) (song_length samples_written : Nat)
    (hloop : samples_written < song_length) :
    (1 ≤ HD24Browser.samples_to_read song_length samples_written
      ∧ HD24Browser.samples_to_read song_length samples_written ≤ 1024
      ∧ (∀ s : Nat, s < HD24Browser.samples_to_read song_length samples_written →
          s * 3 < BUFFER_SIZE * 3 ∧ s * 3 + 1 < BUFFER_SIZE * 3 ∧ s * 3 + 2 < BUFFER_SIZE * 3)
      ∧ mul32 (HD24Browser.samples_to_read song_length samples_written) 3
          = 3 * HD24Browser.samples_to_read song_length samples_written
      ∧ mul32 (HD24Browser.samples_to_read song_length samples_written) 3 ≤ 3072)
    ∧ (1 ≤ HD24BrowserGUI.samples_to_read song_length samples_written
      ∧ HD24BrowserGUI.samples_to_read song_length samples_written ≤ 1024
      ∧ (∀ s : Nat, s < HD24BrowserGUI.samples_to_read song_length samples_written →
          s * 3 < BUFFER_SIZE * 3 ∧ s * 3 + 1 < BUFFER_SIZE * 3 ∧ s * 3 + 2 < BUFFER_SIZE * 3)
      ∧ mul32 (HD24BrowserGUI.samples_to_read song_length samples_written) 3
          = 3 * HD24BrowserGUI.samples_to_read song_length samples_written
      ∧ mul32 (HD24BrowserGUI.samples_to_read song_length samples_written) 3 ≤ 3072)
    ∧ (∀ e ∈ (HD24Browser.export_tracks env fuel b).events, chunk_bounded e)
    ∧ (∀ e ∈ (HD24BrowserGUI.export_tracks env fuel g).events, chunk_bounded e) := by
  obtain ⟨h1, h2⟩ := HD24Browser.samples_to_read_bounds song_length samples_written hloop
  obtain ⟨k1, k2⟩ := HD24BrowserGUI.gui_samples_to_read_bounds song_length samples_written hloop
  have hm := mul32_small (HD24Browser.samples_to_read song_length samples_written) 3
    (by omega)
  have km := mul32_small (HD24BrowserGUI.samples_to_read song_length samples_written) 3
    (by omega)
  refine ⟨⟨h1, h2, ?_, by omega, by omega⟩, ⟨k1, k2, ?_, by omega, by omega⟩,
    HD24Browser.export_tracks_chunks_bounded env fuel b,
    HD24BrowserGUI.gui_export_tracks_chunks_bounded env fuel g⟩
  · intro s hs
    unfold BUFFER_SIZE
    omega
  · intro s hs
    unfold BUFFER_SIZE
    omega

/-- C17, witness: the last chunk of a song of 1030 frames, after 1024 frames are written. -/
theorem C17_chunks_bounded_witness :
    (1024 < 1030)
    ∧ 1 ≤ HD24Browser.samples_to_read 1030 1024
    ∧ HD24Browser.samples_to_read 1030 1024 ≤ 1024 :=
  ⟨by decide,
   (C17_chunks_bounded demo_env 0 HD24Browser.demo_track_view HD24BrowserGUI.demo_gui 1030 1024
      (by decide)).1.1,
   (C17_chunks_bounded demo_env 0 HD24Browser.demo_track_view HD24BrowserGUI.demo_gui 1030 1024
      (by decide)).1.2.1⟩

/-- C18, at the failing input: for a song of 4294966273 frames (the shortest one above
`2^32 - 1024`) with every write reporting the full 3072 bytes, the sample loop of neither front
end returns, however many iterations it is given: after `fuel` iterations it has made `fuel`
chunk writes, more than `ceil(4294966273 / 1024) = 4194304` once `fuel` exceeds that.  At
`samples_written = 4294966272` one frame is left, but the 32-bit sum `samples_written + 1024`
is 0, so 1024 frames are read and the counter wraps to 0. -/
theorem C18_sample_loop_does_not_terminate (fuel location : Nat) (audio : Nat → Nat → Nat)
    (byte_buffer : Nat → Nat) (fname : CString) (track_num total_tracks : Int) :
    ((HD24Browser.write_loop (env_all_ok 3072) audio 4294966273 0 fuel 0 location 0
        byte_buffer).returned = false
      ∧ write_count (HD24Browser.write_loop (env_all_ok 3072) audio 4294966273 0 fuel 0
          location 0 byte_buffer).events = fuel)
    ∧ ((HD24BrowserGUI.write_loop (env_all_ok 3072) audio fname track_num total_tracks
        4294966273 0 fuel 0 location 0 byte_buffer).returned = false
      ∧ write_count (HD24BrowserGUI.write_loop (env_all_ok 3072) audio fname track_num
          total_tracks 4294966273 0 fuel 0 location 0 byte_buffer).events = fuel)
    ∧ HD24Browser.samples_to_read 4294966273 4294966272 = 1024
    ∧ HD24BrowserGUI.samples_to_read 4294966273 4294966272 = 1024
    ∧ add32 4294966272 1024 = 0
    ∧ (4294966273 + 1023) / 1024 = 4194304 := by
  refine ⟨?_, ?_, ?_, ?_, by decide, by decide⟩
  · exact HD24Browser.write_loop_never_returns_large (env_all_ok 3072) audio 4294966273 0
      (by decide) (by decide) (fun _ => rfl) fuel 0 location 0 byte_buffer rfl (by decide)
  · exact HD24BrowserGUI.gui_write_loop_never_returns_large (env_all_ok 3072) audio fname
      track_num total_tracks 4294966273 0 (by decide) (by decide) (fun _ => rfl) fuel 0
      location 0 byte_buffer rfl (by decide)
  · exact HD24Browser.samples_to_read_wrap 4294966273 4294966272 (by decide) (by decide)
      (by decide) (by decide)
  · exact HD24BrowserGUI.gui_samples_to_read_wrap 4294966273 4294966272 (by decide) (by decide)
      (by decide) (by decide)

/-- C20, at the failing input: for a song of 42949673 frames with every write reporting the full
size of its chunk, the sample loop of the terminal front end returns with the frames-written
counter at 42949673, and the last percentage it shows is 0, not 100: the 32-bit product
`samples_written * 100` is `4294967300 mod 2^32 = 4`, and `4 / 42949673 = 0`, whereas
`floor(100 * 42949673 / 42949673) = 100`. -/
theorem C20_last_percentage_wraps (extra location : Nat) (audio : Nat → Nat → Nat)
    (byte_buffer : Nat → Nat) :
    (HD24Browser.write_loop (env_full 42949673) audio 42949673 0 (41944 + extra) 0 location 0
        byte_buffer).returned = true
    ∧ (HD24Browser.write_loop (env_full 42949673) audio 42949673 0 (41944 + extra) 0 location
        0 byte_buffer).samples_written = 42949673
    ∧ (∃ pre : List Event,
        (HD24Browser.write_loop (env_full 42949673) audio 42949673 0 (41944 + extra) 0
            location 0 byte_buffer).events = pre ++ [Event.show_progress 0])
    ∧ mul32 42949673 100 = 4
    ∧ castInt (mul32 42949673 100 / 42949673) = 0
    ∧ 100 * 42949673 / 42949673 = 100 := by
  have hok : ∀ k : Nat, k * 1024 < 42949673 →
      (env_full 42949673).sf_write_raw 0 k
        = ((3 * min 1024 (42949673 - k * 1024) : Nat) : Int) := fun _ _ => rfl
  have hpercent : castInt (mul32 42949673 100 / 42949673) = 0 := by decide
  obtain ⟨h1, h2, _, _⟩ := HD24Browser.write_loop_complete (env_full 42949673) audio 42949673 0
    (by decide) hok (41944 + extra) 0 location 0 byte_buffer (by decide) (Or.inl rfl)
    (by omega)
  obtain ⟨pre, hpre⟩ := HD24Browser.write_loop_last_progress (env_full 42949673) audio
    42949673 0 (by decide) hok (41944 + extra) 0 location 0 byte_buffer (by decide) rfl
    (by omega)
  rw [hpercent] at hpre
  exact ⟨h1, h2, ⟨pre, hpre⟩, by decide, hpercent, by decide⟩

/-- C12, at the failing inputs: the catalogue is not built for every volume.  For a volume
whose project count is 4294967295, the largest `__uint32`, the loop over the projects of
`list_all_songs` and of `load_songs` never ends, however many iterations it is given: the test
`i <= projcount` holds for every value of the 32-bit counter, which goes from 4294967295 back
to 0.  Likewise for a volume whose one project has 4294967295 songs, all readable: the loop
over its songs never ends and has pushed one entry in each of its iterations, so the list
grows beyond the 4294967295 pairs of the volume and pairs are listed more than once. -/
theorem C12_catalog_loops_never_end_at_max_count (fuel : Nat) (g : HD24BrowserGUI.Gui) :
    ((HD24Browser.list_all_songs max_projects_fs fuel).returned = false
      ∧ (HD24BrowserGUI.load_songs g max_projects_fs fuel).returned = false)
    ∧ ((HD24Browser.list_all_songs max_songs_fs fuel).returned = false
      ∧ (HD24Browser.list_all_songs max_songs_fs fuel).songs.length = fuel
      ∧ (HD24BrowserGUI.load_songs g max_songs_fs fuel).returned = false
      ∧ (HD24BrowserGUI.load_songs g max_songs_fs fuel).gui.songs.length = fuel)
    ∧ (catalog_pairs max_songs_fs).length = 4294967295
    ∧ u32 max_projects_fs.projectcount = 4294967295
    ∧ add32 4294967295 1 = 0 := by
  obtain ⟨t1, t2⟩ := HD24Browser.project_loop_max_songs fuel
  obtain ⟨g1, g2⟩ := HD24BrowserGUI.gui_project_loop_max_songs fuel
  obtain ⟨k1, _⟩ := HD24BrowserGUI.gui_load_songs_open g max_projects_fs fuel rfl
  obtain ⟨k3, k4⟩ := HD24BrowserGUI.gui_load_songs_open g max_songs_fs fuel rfl
  refine ⟨⟨?_, ?_⟩, ⟨t1, t2, ?_, ?_⟩, ?_, by decide, by decide⟩
  · exact HD24Browser.project_loop_never_returns max_projects_fs fuel fuel 1 (by decide)
  · rw [k1]
    exact HD24BrowserGUI.gui_project_loop_never_returns max_projects_fs fuel fuel 1 (by decide)
  · rw [k3]
    exact g1
  · rw [k4]
    exact g2
  · have hlist : catalog_pairs max_songs_fs
        = ((List.range' 1 4294967295).filter
            (fun j => (max_songs_project.getsong j).isSome)).map (fun j => (1, j)) := by
      show (([1] : List Nat).flatMap _) = _
      rw [List.flatMap_cons, List.flatMap_nil, List.append_nil]
      rfl
    have hall : (List.range' 1 4294967295).filter
        (fun j => (max_songs_project.getsong j).isSome) = List.range' 1 4294967295 :=
      List.filter_eq_self.mpr (fun _ _ => rfl)
    rw [hlist, List.length_map, hall, List.length_range']

/-- C15: in the events of every export job of either front end, whatever the streams and
writes answer and however far the job has run, the calls of `sf_open` go through the selected
channels in strictly ascending order (they are a prefix of the list of selected channels, and
the whole list once the job has returned), a stream is opened only while no stream is open,
every write and every close goes to the one open stream, and when the job returns no stream is
open.  The bookkeeping `stream_step` starts with no stream open and fails on any violation;
the selected channels of the terminal are the flagged tracks below the channel count, those of
the graphical front end are `t - 1` for the checked items `t`. -/
theorem C15_stream_discipline (env : Env) (fuel : Nat) (b : HD24Browser.Browser)
    (g : HD24BrowserGUI.Gui) :
    ((∃ state : Option Nat,
        (HD24Browser.export_tracks env fuel b).events.foldl stream_step (some none) = some state
        ∧ ((HD24Browser.export_tracks env fuel b).status ≠ Status.out_of_fuel → state = none))
      ∧ (opened_tracks (HD24Browser.export_tracks env fuel b).events
          <+: HD24Browser.selected_tracks b.track_selected (HD24Browser.current_channels b))
      ∧ ((HD24Browser.export_tracks env fuel b).status = Status.finished →
          opened_tracks (HD24Browser.export_tracks env fuel b).events
            = HD24Browser.selected_tracks b.track_selected (HD24Browser.current_channels b))
      ∧ (opened_tracks (HD24Browser.export_tracks env fuel b).events).Pairwise
          (fun t1 t2 => t1 < t2)
      ∧ (∀ t : Nat, t ∈ HD24Browser.selected_tracks b.track_selected
            (HD24Browser.current_channels b)
          ↔ t < HD24Browser.current_channels b ∧ b.track_selected.getD t false = true))
    ∧ ((∃ state : Option Nat,
        (HD24BrowserGUI.export_tracks env fuel g).events.foldl stream_step (some none)
          = some state
        ∧ ((HD24BrowserGUI.export_tracks env fuel g).status ≠ Status.out_of_fuel →
            state = none))
      ∧ (opened_tracks (HD24BrowserGUI.export_tracks env fuel g).events
          <+: HD24BrowserGUI.selected_tracks g.track_browser)
      ∧ ((HD24BrowserGUI.export_tracks env fuel g).status = Status.finished →
          opened_tracks (HD24BrowserGUI.export_tracks env fuel g).events
            = HD24BrowserGUI.selected_tracks g.track_browser)
      ∧ (opened_tracks (HD24BrowserGUI.export_tracks env fuel g).events).Pairwise
          (fun t1 t2 => t1 < t2)
      ∧ (∀ t : Nat, t ∈ HD24BrowserGUI.selected_tracks g.track_browser
          ↔ HD24BrowserGUI.checked g.track_browser ((t : Int) + 1) = true)) := by
  obtain ⟨h1, h2, h3⟩ := HD24Browser.export_tracks_stream env fuel b
  obtain ⟨k1, k2, k3⟩ := HD24BrowserGUI.gui_export_tracks_stream env fuel g
  exact ⟨⟨h1, h2, h3,
      (HD24Browser.selected_tracks_pairwise _ _).sublist h2.sublist,
      fun t => HD24Browser.mem_selected_tracks _ _ t⟩,
    ⟨k1, k2, k3,
      (HD24BrowserGUI.gui_selected_tracks_pairwise _).sublist k2.sublist,
      fun t => HD24BrowserGUI.gui_mem_selected_tracks _ t⟩⟩

/-- C15, at a sample job: a song of 1025 frames on two channels, both selected, every stream
opening and every second chunk truncated.  Both front ends return, both channels were opened in
the order 0, 1, and the bookkeeping ends with no stream open. -/
theorem C15_stream_discipline_witness :
    ((HD24Browser.export_tracks env_second_write_fails 2
        (HD24Browser.track_view_of (HD24Browser.info_of_length 1025 2) 2)).status
        = Status.finished
      ∧ opened_tracks (HD24Browser.export_tracks env_second_write_fails 2
          (HD24Browser.track_view_of (HD24Browser.info_of_length 1025 2) 2)).events = [0, 1])
    ∧ ((HD24BrowserGUI.export_tracks env_second_write_fails 2
        (HD24BrowserGUI.gui_of (HD24BrowserGUI.info_of_length 1025 2) 2)).status
        = Status.finished
      ∧ opened_tracks (HD24BrowserGUI.export_tracks env_second_write_fails 2
          (HD24BrowserGUI.gui_of (HD24BrowserGUI.info_of_length 1025 2) 2)).events = [0, 1]) := by
  have ht : (HD24Browser.export_tracks env_second_write_fails 2
      (HD24Browser.track_view_of (HD24Browser.info_of_length 1025 2) 2)).status
      = Status.finished :=
    (HD24Browser.export_tracks_verdict env_second_write_fails 2
      (HD24Browser.track_view_of (HD24Browser.info_of_length 1025 2) 2) 0 rfl (by decide)
      (by decide) (by decide)).1
  have hg : (HD24BrowserGUI.export_tracks env_second_write_fails 2
      (HD24BrowserGUI.gui_of (HD24BrowserGUI.info_of_length 1025 2) 2)).status
      = Status.finished :=
    (HD24BrowserGUI.gui_export_tracks_completed env_second_write_fails 2
      (HD24BrowserGUI.gui_of (HD24BrowserGUI.info_of_length 1025 2) 2) (by decide) (by decide)
      (by decide) (by decide) (by decide)).1
  exact ⟨⟨ht, ((C15_stream_discipline env_second_write_fails 2
      (HD24Browser.track_view_of (HD24Browser.info_of_length 1025 2) 2)
      (HD24BrowserGUI.gui_of (HD24BrowserGUI.info_of_length 1025 2) 2)).1.2.2.1 ht).trans
        (by decide)⟩,
    ⟨hg, ((C15_stream_discipline env_second_write_fails 2
      (HD24Browser.track_view_of (HD24Browser.info_of_length 1025 2) 2)
      (HD24BrowserGUI.gui_of (HD24BrowserGUI.info_of_length 1025 2) 2)).2.2.2.1 hg).trans
        (by decide)⟩⟩

/-- C13: in both front ends, at any iteration of the sample loop of any channel (frames-written
counter `samples_written` below the song length, `k` writes made so far), if the raw write
reports a byte count different from the requested `samples_to_read * 3`, the loop returns in
that very iteration: its events are the frame reads of this chunk and the one write (followed
in the graphical front end by the error message), and the counter it leaves is the one it
started the iteration with.  For a whole run of the loop the counter is the 32-bit sum of the
start value and the frames of the fully reported writes only.  If the loop of a selected
channel whose stream opened contains a truncated write, the iteration of the track loop
consists of the open, the cursor reset, the loop events, the `sf_close` of that stream and then
the rest of the track loop from the next channel on.  And in the events of any export job,
whatever the streams and writes answer and however far the job has run, a truncated write is
followed by nothing but the error message and the close of its stream (`truncation_step`
never fails and ends with no truncated stream pending). -/
theorem C13_truncated_write (env : Env) (fuel : Nat) (audio : Nat → Nat → Nat)
    (export_dir song_name fname : CString)
    (sample_rate song_length track samples_written location k : Nat)
    (byte_buffer : Nat → Nat) (track_num total : Int) (b : HD24Browser.Browser)
    (g : HD24BrowserGUI.Gui)
    (hloop : samples_written < song_length)
    (htrunc : env.sf_write_raw track k
      ≠ ((mul32 (HD24Browser.samples_to_read song_length samples_written) 3 : Nat) : Int)) :
    ((HD24Browser.write_loop env audio song_length track (fuel + 1) samples_written location k
        byte_buffer).returned = true
      ∧ (HD24Browser.write_loop env audio song_length track (fuel + 1) samples_written location
        k byte_buffer).samples_written = samples_written
      ∧ (HD24Browser.write_loop env audio song_length track (fuel + 1) samples_written location
        k byte_buffer).events
        = (HD24Browser.read_samples audio track
            (HD24Browser.samples_to_read song_length samples_written) 0 location
            byte_buffer).events
          ++ [Event.sf_write_raw track
              (peek (HD24Browser.read_samples audio track
                (HD24Browser.samples_to_read song_length samples_written) 0 location
                byte_buffer).byte_buffer
                (mul32 (HD24Browser.samples_to_read song_length samples_written) 3))
              (env.sf_write_raw track k)])
    ∧ ((HD24BrowserGUI.write_loop env audio fname track_num total song_length track (fuel + 1)
        samples_written location k byte_buffer).returned = true
      ∧ (HD24BrowserGUI.write_loop env audio fname track_num total song_length track
        (fuel + 1) samples_written location k byte_buffer).samples_written = samples_written
      ∧ (HD24BrowserGUI.write_loop env audio fname track_num total song_length track
        (fuel + 1) samples_written location k byte_buffer).events
        = (HD24BrowserGUI.read_samples audio track
            (HD24BrowserGUI.samples_to_read song_length samples_written) 0 location
            byte_buffer).events
          ++ [Event.sf_write_raw track
              (peek (HD24BrowserGUI.read_samples audio track
                (HD24BrowserGUI.samples_to_read song_length samples_written) 0 location
                byte_buffer).byte_buffer
                (mul32 (HD24BrowserGUI.samples_to_read song_length samples_written) 3))
              (env.sf_write_raw track k),
            Event.show_write_error fname])
    ∧ (∀ (f2 s2 l2 k2 : Nat) (buf2 : Nat → Nat), s2 < 4294967296 →
        (HD24Browser.write_loop env audio song_length track f2 s2 l2 k2 buf2).samples_written
          = u32 (s2 + ok_bytes (HD24Browser.write_loop env audio song_length track f2 s2 l2 k2
              buf2).events / 3)
        ∧ (HD24BrowserGUI.write_loop env audio fname track_num total song_length track f2 s2
            l2 k2 buf2).samples_written
          = u32 (s2 + ok_bytes (HD24BrowserGUI.write_loop env audio fname track_num total
              song_length track f2 s2 l2 k2 buf2).events / 3))
    ∧ (∀ (flags : List Bool) (n : Nat) (bytes : Int) (l2 : Nat) (buf2 : Nat → Nat),
        flags.getD track false = true → env.sf_open track = true →
        (∃ e ∈ (HD24Browser.write_loop env audio song_length track fuel 0 0 0 buf2).events,
          truncated e = true) →
        (HD24Browser.track_loop env fuel audio export_dir song_name flags sample_rate
            song_length total (n + 1) track track_num bytes l2 buf2).events
          = [Event.show_track (track_num + 1) total,
              Event.sf_open track (HD24Browser.filename export_dir song_name track)
                (castInt sample_rate) 1 (SF_FORMAT_AIFF ||| SF_FORMAT_PCM_24) true,
              Event.currentlocation track 0]
            ++ (HD24Browser.write_loop env audio song_length track fuel 0 0 0 buf2).events
            ++ Event.sf_close track ::
              (HD24Browser.track_loop env fuel audio export_dir song_name flags sample_rate
                song_length total n (track + 1) (track_num + 1)
                (bytes + ((mul32 (HD24Browser.write_loop env audio song_length track fuel 0 0 0
                  buf2).samples_written 3 : Nat) : Int))
                (HD24Browser.write_loop env audio song_length track fuel 0 0 0 buf2).location
                (HD24Browser.write_loop env audio song_length track fuel 0 0 0
                  buf2).byte_buffer).events)
    ∧ (∀ (items : List Bool) (n : Nat) (t : Int) (l2 : Nat) (buf2 : Nat → Nat),
        HD24BrowserGUI.checked items t = true → env.sf_open (t - 1).toNat = true →
        (∃ e ∈ (HD24BrowserGUI.write_loop env audio
            (HD24BrowserGUI.filename export_dir song_name t) (track_num + 1) total song_length
            (t - 1).toNat fuel 0 0 0 buf2).events, truncated e = true) →
        (HD24BrowserGUI.track_loop env fuel audio export_dir song_name items sample_rate
            song_length total (n + 1) t track_num l2 buf2).events
          = [Event.show_track (track_num + 1) total,
              Event.sf_open (t - 1).toNat (HD24BrowserGUI.filename export_dir song_name t)
                (castInt sample_rate) 1 (SF_FORMAT_AIFF ||| SF_FORMAT_PCM_24) true,
              Event.currentlocation (t - 1).toNat 0]
            ++ (HD24BrowserGUI.write_loop env audio
                (HD24BrowserGUI.filename export_dir song_name t) (track_num + 1) total
                song_length (t - 1).toNat fuel 0 0 0 buf2).events
            ++ Event.sf_close (t - 1).toNat ::
              (HD24BrowserGUI.track_loop env fuel audio export_dir song_name items sample_rate
                song_length total n (t + 1) (track_num + 1)
                (HD24BrowserGUI.write_loop env audio
                  (HD24BrowserGUI.filename export_dir song_name t) (track_num + 1) total
                  song_length (t - 1).toNat fuel 0 0 0 buf2).location
                (HD24BrowserGUI.write_loop env audio
                  (HD24BrowserGUI.filename export_dir song_name t) (track_num + 1) total
                  song_length (t - 1).toNat fuel 0 0 0 buf2).byte_buffer).events)
    ∧ (HD24Browser.export_tracks env fuel b).events.foldl truncation_step (some none)
        = some none
    ∧ (HD24BrowserGUI.export_tracks env fuel g).events.foldl truncation_step (some none)
        = some none := by
  refine ⟨?_, ?_, ?_, ?_, ?_, HD24Browser.export_tracks_truncation env fuel b,
    HD24BrowserGUI.gui_export_tracks_truncation env fuel g⟩
  · exact HD24Browser.write_loop_truncated_step env audio song_length track fuel
      samples_written location k byte_buffer hloop htrunc
  · exact HD24BrowserGUI.gui_write_loop_truncated_step env audio fname track_num total
      song_length track fuel samples_written location k byte_buffer hloop htrunc
  · intro f2 s2 l2 k2 buf2 hs2
    exact ⟨HD24Browser.write_loop_counter env audio song_length track f2 s2 l2 k2 buf2 hs2,
      HD24BrowserGUI.gui_write_loop_counter env audio fname track_num total song_length track
        f2 s2 l2 k2 buf2 hs2⟩
  · intro flags n bytes l2 buf2 hsel hopen h
    exact HD24Browser.track_loop_after_truncation env fuel audio export_dir song_name flags
      sample_rate song_length total n track track_num bytes l2 buf2 hsel hopen h
  · intro items n t l2 buf2 hsel hopen h
    exact HD24BrowserGUI.gui_track_loop_after_truncation env fuel audio export_dir song_name
      items sample_rate song_length total n t track_num l2 buf2 hsel hopen h

/-- C13, witness: a song of 1025 frames whose second write on track 0 reports 0 bytes instead
of the 3 requested for the last frame; the loop, entered with 1024 frames written, returns
with the counter still at 1024. -/
theorem C13_truncated_write_witness :
    ((1024 : Nat) < 1025
      ∧ env_second_write_fails.sf_write_raw 0 1
        ≠ ((mul32 (HD24Browser.samples_to_read 1025 1024) 3 : Nat) : Int))
    ∧ (HD24Browser.write_loop env_second_write_fails demo_song.audio 1025 0 (0 + 1) 1024 1024 1
        (fun _ => 0)).returned = true
    ∧ (HD24Browser.write_loop env_second_write_fails demo_song.audio 1025 0 (0 + 1) 1024 1024 1
        (fun _ => 0)).samples_written = 1024 :=
  ⟨⟨by decide, by decide⟩,
   (C13_truncated_write env_second_write_fails 0 demo_song.audio [] [] [] 48000 1025 0 1024
      1024 1 (fun _ => 0) 0 1 HD24Browser.demo_track_view HD24BrowserGUI.demo_gui (by decide)
      (by decide)).1.1,
   (C13_truncated_write env_second_write_fails 0 demo_song.audio [] [] [] 48000 1025 0 1024
      1024 1 (fun _ => 0) 0 1 HD24Browser.demo_track_view HD24BrowserGUI.demo_gui (by decide)
      (by decide)).1.2.1⟩

/-- C11: two export runs on the same song content, selection, output directory and the same
open and write outcomes produce the same events, hence the same payload on the stream of every
channel, whatever position the read cursor of the song is at before each run and whatever the
freshly allocated byte buffer contains; this holds in both front ends, for every fuel, and in
particular for a second run made after a first one has moved the cursor.  The reason is visible
in the events: every frame read happens at a known cursor position, that is after a
`currentlocation(0)` made since the stream of the channel was opened, and at the frame
following the previous read (`cursor_step` never fails). -/
theorem C11_export_deterministic (env1 env2 : Env) (fuel : Nat)
    (b1 b2 : HD24Browser.Browser) (g1 g2 : HD24BrowserGUI.Gui)
    (ho : env1.sf_open = env2.sf_open) (hw : env1.sf_write_raw = env2.sf_write_raw)
    (hb_song : b2.selected_song_info = b1.selected_song_info)
    (hb_flags : b2.track_selected = b1.track_selected)
    (hb_dir : b2.export_dir = b1.export_dir)
    (hb_songs : ∀ j : Nat, ∃ loc : Nat, b2.songs.getD j default
      = { b1.songs.getD j default with
          song := { (b1.songs.getD j default).song with location := loc } })
    (hg_song : g2.song_browser_value = g1.song_browser_value)
    (hg_flags : g2.track_browser = g1.track_browser)
    (hg_dir : g2.export_dir = g1.export_dir)
    (hg_len : g2.songs.length = g1.songs.length)
    (hg_songs : ∀ j : Nat, ∃ loc : Nat, g2.songs.getD j default
      = { g1.songs.getD j default with
          song := { (g1.songs.getD j default).song with location := loc } }) :
    ((HD24Browser.export_tracks env1 fuel b1).events
        = (HD24Browser.export_tracks env2 fuel b2).events
      ∧ (∀ track : Nat, track_payload track (HD24Browser.export_tracks env1 fuel b1).events
          = track_payload track (HD24Browser.export_tracks env2 fuel b2).events)
      ∧ (HD24Browser.export_tracks env1 fuel
          { b1 with songs := (HD24Browser.export_tracks env1 fuel b1).songs }).events
        = (HD24Browser.export_tracks env1 fuel b1).events
      ∧ ∃ cursor : Option Nat,
          (HD24Browser.export_tracks env1 fuel b1).events.foldl cursor_step (some none)
            = some cursor)
    ∧ ((HD24BrowserGUI.export_tracks env1 fuel g1).events
        = (HD24BrowserGUI.export_tracks env2 fuel g2).events
      ∧ (∀ track : Nat, track_payload track (HD24BrowserGUI.export_tracks env1 fuel g1).events
          = track_payload track (HD24BrowserGUI.export_tracks env2 fuel g2).events)
      ∧ (HD24BrowserGUI.export_tracks env1 fuel
          { g1 with songs := (HD24BrowserGUI.export_tracks env1 fuel g1).songs }).events
        = (HD24BrowserGUI.export_tracks env1 fuel g1).events
      ∧ ∃ cursor : Option Nat,
          (HD24BrowserGUI.export_tracks env1 fuel g1).events.foldl cursor_step (some none)
            = some cursor) := by
  have ht := (HD24Browser.export_tracks_agree env1 env2 fuel b1 b2 ho hw hb_song hb_flags
    hb_dir hb_songs).1
  have hg := (HD24BrowserGUI.gui_export_tracks_agree env1 env2 fuel g1 g2 ho hw hg_song
    hg_flags hg_dir hg_len hg_songs).1
  refine ⟨⟨ht, fun track => by rw [ht], ?_, HD24Browser.export_tracks_cursor env1 fuel b1⟩,
    ⟨hg, fun track => by rw [hg], ?_, HD24BrowserGUI.gui_export_tracks_cursor env1 fuel g1⟩⟩
  · exact ((HD24Browser.export_tracks_agree env1 env1 fuel b1
      { b1 with songs := (HD24Browser.export_tracks env1 fuel b1).songs } rfl rfl rfl rfl rfl
      (fun j => HD24Browser.export_tracks_songs_same env1 fuel b1 j)).1).symm
  · exact ((HD24BrowserGUI.gui_export_tracks_agree env1 env1 fuel g1
      { g1 with songs := (HD24BrowserGUI.export_tracks env1 fuel g1).songs } rfl rfl rfl rfl
      rfl (HD24BrowserGUI.gui_export_tracks_songs_length env1 fuel g1)
      (fun j => HD24BrowserGUI.gui_export_tracks_songs_same env1 fuel g1 j)).1).symm

/-- C11, witness: the sample states with the cursor of the first song at frame 5 and at frame
77, and a fresh buffer of zeros and of 255s. -/
theorem C11_export_deterministic_witness :
    (HD24Browser.demo_track_view_moved.selected_song_info
        = HD24Browser.demo_track_view.selected_song_info
      ∧ ((HD24Browser.demo_track_view.songs.getD 0 default).song.location = 5
        ∧ (HD24Browser.demo_track_view_moved.songs.getD 0 default).song.location = 77))
    ∧ (HD24Browser.export_tracks demo_env 2 HD24Browser.demo_track_view).events
        = (HD24Browser.export_tracks ⟨demo_env.sf_open, demo_env.sf_write_raw, fun _ => 255⟩ 2
            HD24Browser.demo_track_view_moved).events :=
  ⟨⟨rfl, rfl, rfl⟩,
   (C11_export_deterministic demo_env ⟨demo_env.sf_open, demo_env.sf_write_raw, fun _ => 255⟩ 2
      HD24Browser.demo_track_view HD24Browser.demo_track_view_moved HD24BrowserGUI.demo_gui
      HD24BrowserGUI.demo_gui_moved rfl rfl rfl rfl rfl
      (fun j => match j with
        | 0 => ⟨77, rfl⟩
        | 1 => ⟨5, rfl⟩
        | _ + 2 => ⟨0, rfl⟩)
      rfl rfl rfl rfl
      (fun j => match j with
        | 0 => ⟨77, rfl⟩
        | 1 => ⟨5, rfl⟩
        | _ + 2 => ⟨0, rfl⟩)).1.1⟩

/-- C16: when the terminal and the graphical front end hold the same current song (the same
song object, the same name, the cached sample rate and length of the graphical front end equal
to the live values as 32-bit numbers), the same export directory and the same selection (one
item per channel, at most 2147483647 of them as the item number is an `int`, checked exactly
where the terminal flag is set), then for the same open and
write outcomes and every fuel the two exports make the same calls on the outside world in the
same order: the same directory creation, the same `sf_open` calls (so the same output paths in
the same order, each asking for one channel, AIFF with 24-bit PCM and the sample rate of the
song), the same cursor resets and frame reads, the same `sf_write_raw` calls with the same
bytes, and the same `sf_close` calls; and they end the same way.  Only the lines and dialogs
of the user interface differ. -/
theorem C16_front_ends_same_export (env : Env) (fuel : Nat) (b : HD24Browser.Browser)
    (g : HD24BrowserGUI.Gui) (idx : Nat)
    (hsel : b.selected_song_info = some idx)
    (hval : g.song_browser_value = (idx : Int) + 1) (hidx : idx < g.songs.length)
    (hsong : (g.songs.getD idx default).song = (b.songs.getD idx default).song)
    (hname : (g.songs.getD idx default).song_name = (b.songs.getD idx default).song_name)
    (hrate : u32 (g.songs.getD idx default).sample_rate
      = u32 (b.songs.getD idx default).song.samplerate)
    (hlength : u32 (g.songs.getD idx default).song_length
      = u32 (b.songs.getD idx default).song.songlength_in_wamples)
    (hdir : g.export_dir = b.export_dir)
    (hitems : g.track_browser.length = (b.songs.getD idx default).channels)
    (hch : (b.songs.getD idx default).channels ≤ 2147483647)
    (hflags : ∀ j : Nat, j < (b.songs.getD idx default).channels →
      g.track_browser.getD j false = b.track_selected.getD j false) :
    (HD24BrowserGUI.export_tracks env fuel g).events.filter is_io
      = (HD24Browser.export_tracks env fuel b).events.filter is_io
    ∧ (HD24BrowserGUI.export_tracks env fuel g).status
      = (HD24Browser.export_tracks env fuel b).status
    ∧ opened_paths (HD24BrowserGUI.export_tracks env fuel g).events
      = opened_paths (HD24Browser.export_tracks env fuel b).events
    ∧ written_chunks (HD24BrowserGUI.export_tracks env fuel g).events
      = written_chunks (HD24Browser.export_tracks env fuel b).events
    ∧ (∀ e ∈ (HD24Browser.export_tracks env fuel b).events,
        open_config (castInt (u32 (b.songs.getD idx default).song.samplerate)) e = true)
    ∧ (∀ e ∈ (HD24BrowserGUI.export_tracks env fuel g).events,
        open_config (castInt (u32 (b.songs.getD idx default).song.samplerate)) e = true) := by
  obtain ⟨h1, h2⟩ := HD24BrowserGUI.gui_export_tracks_same env fuel b g idx hsel hval hidx
    hsong hname hrate hlength hdir hitems (by omega) hflags
  have hT := HD24Browser.export_tracks_config env fuel b idx hsel
  refine ⟨h1, h2, ?_, ?_, hT, ?_⟩
  · rw [← opened_paths_filter, h1, opened_paths_filter]
  · rw [← written_chunks_filter, h1, written_chunks_filter]
  · intro e he
    cases hio : is_io e
    · exact open_config_of_not_io _ e hio
    · have hmem : e ∈ (HD24BrowserGUI.export_tracks env fuel g).events.filter is_io :=
        List.mem_filter.mpr ⟨he, hio⟩
      rw [h1] at hmem
      exact hT e (List.mem_filter.mp hmem).1

/-- C16, witness: the sample track view and the sample graphical state (the first song of the
list, its first track selected), with two iterations of fuel: both write the same chunks to
the same path. -/
theorem C16_front_ends_same_export_witness :
    (HD24Browser.demo_track_view.selected_song_info = some 0
      ∧ HD24BrowserGUI.demo_gui.song_browser_value = ((0 : Nat) : Int) + 1
      ∧ HD24BrowserGUI.demo_gui.track_browser.length
          = (HD24Browser.demo_track_view.songs.getD 0 default).channels)
    ∧ written_chunks (HD24BrowserGUI.export_tracks demo_env 2 HD24BrowserGUI.demo_gui).events
      = written_chunks (HD24Browser.export_tracks demo_env 2 HD24Browser.demo_track_view).events
    ∧ opened_paths (HD24BrowserGUI.export_tracks demo_env 2 HD24BrowserGUI.demo_gui).events
      = opened_paths (HD24Browser.export_tracks demo_env 2 HD24Browser.demo_track_view).events :=
  have hflags : ∀ j : Nat, j < (HD24Browser.demo_track_view.songs.getD 0 default).channels →
      HD24BrowserGUI.demo_gui.track_browser.getD j false
        = HD24Browser.demo_track_view.track_selected.getD j false := by
    intro j hj
    have hj2 : j < 2 := hj
    match j, hj2 with
    | 0, _ => rfl
    | 1, _ => rfl
  ⟨⟨rfl, rfl, rfl⟩,
   (C16_front_ends_same_export demo_env 2 HD24Browser.demo_track_view HD24BrowserGUI.demo_gui 0
      rfl rfl (by decide) rfl rfl rfl rfl rfl rfl (by decide) hflags).2.2.2.1,
   (C16_front_ends_same_export demo_env 2 HD24Browser.demo_track_view HD24BrowserGUI.demo_gui 0
      rfl rfl (by decide) rfl rfl rfl rfl rfl rfl (by decide) hflags).2.2.1⟩
